import Mathlib

/-!
# SX933x capacitive proximity sensor driver

A shallow embedding of `drivers/misc/sx933x/sx933x_sar.c`: the register transport, the
status dispatch of the deferred worker, the per-button state machine of `touchProcess`,
the enable/disable entry point, the bus watchdog and the reinitialization sequence.

Conventions of the embedding.

* Stateful C code is a function on the record `Driver`, which holds the device object,
  the global button table `psmtcButtons`, the static counter of the watchdog and the
  ordered list `trace` of the calls made into the kernel (bus transfers, interrupt
  control, regulator, sleeps, input events, work scheduling).
* What the outside world answers (the result of each bus transfer, of each regulator
  call, each sample of the interrupt line) comes from the oracles of `Env`, indexed by
  the number of such calls made so far.
* Constants, tables and array sizes of `include/linux/input/sx933x.h`, which is not part
  of the sources at hand, are the fields of `Header`.
* `u8`, `u16`, `u32` values are natural numbers reduced modulo `2^8`, `2^16`, `2^32`
  where the C code converts; `int` values are integers.
-/

namespace Sx933x

/-! ## Constants defined in the source file -/

/-- Linux error number `ENOMEM`. -/
def ENOMEM : Int := 12

/-- Button state `IDLE` (source line 51). -/
def IDLE : Int := 0

/-- Button state `PROXACTIVE` (source line 52). -/
def PROXACTIVE : Int := 1

/-- Button state `BODYACTIVE` (source line 53). -/
def BODYACTIVE : Int := 2

/-- Nominal watchdog period in milliseconds (source line 63). -/
def SX933X_I2C_WATCHDOG_TIME : Nat := 10000

/-- Watchdog period after a failed probe, in milliseconds (source line 64). -/
def SX933X_I2C_WATCHDOG_TIME_ERR : Nat := 2000

/-! ## Data model -/

/-- One register/value pair of a register table (`struct smtc_reg_data`). -/
structure smtc_reg_data where
  reg : Nat
  val : Nat
deriving DecidableEq, Repr

/-- Constants and tables of the header `sx933x.h` and the build configuration; the
header is not among the sources, so its values are parameters of the development. -/
structure Header where
  MAX_NUM_STATUS_BITS : Nat
  SX933X_HOSTIRQSRC_REG : Nat
  SX933X_STAT0_REG : Nat
  SX933X_INFO_REG : Nat
  SX933X_GNRLCTRL2_REG : Nat
  SX933X_CMD_REG : Nat
  SX933X_RESET_REG : Nat
  I2C_SOFTRESET_VALUE : Nat
  SX933X_PHASE_CONTROL : Nat
  I2C_REGCMD_COMPEN : Nat
  SX933X_WHOAMI_VALUE : Nat
  SX9338_DFN_WHOAMI_VALUE : Nat
  sx933x_i2c_reg_setup : List smtc_reg_data
  CONFIG_CAPSENSE_HEADSET_STATE : Bool
  CONFIG_CAPSENSE_FLIP_CAL : Bool

/-- What one `i2c_transfer` call yields: its return value and the four bytes found in
the receive buffer afterwards (arbitrary stack content when the transfer failed). -/
structure BusReply where
  ret : Int
  b0 : Nat
  b1 : Nat
  b2 : Nat
  b3 : Nat
deriving DecidableEq, Repr

/-- The environment of a run: the header constants and the answers of the outside world. -/
structure Env where
  hdr : Header
  /-- Answer of the k-th bus transfer (counted from 0). -/
  i2c_transfer : Nat → BusReply
  /-- Return value of the k-th `regulator_enable` call. -/
  regulator_enable : Nat → Int
  /-- Value of `sx933x_get_nirq_state()` at its k-th call: true when the line is asserted. -/
  nirq_low : Nat → Bool
  /-- The kernel conversion from milliseconds to timer ticks. -/
  msecs_to_jiffies : Nat → Nat

/-- A call from the driver into the kernel, as recorded in `Driver.trace`. The input
events carry the index of the button of `psmtcButtons` whose `input_dev` they go to. -/
inductive Effect where
  /-- One `i2c_transfer` with a single write message carrying these bytes. -/
  | i2c_write (w_buf : List Nat)
  /-- One `i2c_transfer` with a write message of these address bytes and a 4-byte read. -/
  | i2c_read (w_buf : List Nat)
  | disable_irq
  | enable_irq
  | regulator_disable
  | regulator_enable
  | msleep (ms : Nat)
  /-- Call `input_report_abs(psmtcButtons[button].input_dev, ABS_DISTANCE, value)`. -/
  | input_report_abs (button : Nat) (input_dev : Option Nat) (value : Int)
  /-- Call `input_sync(psmtcButtons[button].input_dev)`. -/
  | input_sync (button : Nat) (input_dev : Option Nat)
  /-- Call `schedule_delayed_work(&this->i2c_watchdog_work, msecs_to_jiffies(delay))`. -/
  | schedule_watchdog (delay_ms : Nat)
  /-- Call `cancel_delayed_work(&this->dworker)`. -/
  | cancel_dworker
  /-- Call `schedule_delayed_work(&this->dworker, delay)`. -/
  | schedule_dworker (delay : Nat)
deriving DecidableEq, Repr

/-- One entry of the button table (`struct _buttonInfo`): `input_dev` is the handle of
the output sink, `none` for a null pointer. -/
structure buttonInfo where
  name : String
  enabled : Bool
  used : Bool
  state : Int
  ProxMask : Nat
  BodyMask : Nat
  input_dev : Option Nat
deriving DecidableEq, Repr

/-- The fields of `struct sx933x_platform_data` that the modelled functions use. The
register arrays are lists; their `_num` fields are the lengths. -/
structure sx933x_platform_data where
  reinit_on_i2c_failure : Bool
  pi2c_reg : List smtc_reg_data
  headset_operate_reg_bck : List smtc_reg_data
  phone_flip_update_regs : Bool
  phone_flip_state : Nat
  phone_flip_open_val : Nat
  flip_open_regs : List smtc_reg_data
  flip_closed_regs : List smtc_reg_data
deriving DecidableEq, Repr

/-- The device specific struct (`struct sx933x`). `buttons` tells whether
`pbuttonInformation->buttons` is non-null; probe (lines 1361-1362) points it at
`psmtcButtons` with `buttonSize` the size of that array. -/
structure sx933x where
  buttons : Bool
  hw : Option sx933x_platform_data
deriving DecidableEq, Repr

/-- The fields of the main device struct (`sx93XX_t`) that the modelled functions use.
`bus` and `get_nirq_low` tell whether the pointer is non-null; the function pointers
`refreshStatus` and `statusFunc` are arguments of the worker. -/
structure sx93XX where
  bus : Bool
  pDevice : Option sx933x
  get_nirq_low : Bool
  useIrqTimer : Bool
  irqTimeout : Nat
  irq_disabled : Int
  int_state : Int
  failStatusCode : Int
  reg_in_dts : Bool
  suspended : Bool
  init_busy : Int
  reset_count : Int
deriving DecidableEq, Repr

/-- The state the driver code runs on. `this` is the device object every function gets
as `this` and that `global_sx933x` points to (probe, line 1590), `none` for a null
pointer. `err_cnt` is the static local of the watchdog. `trace` lists the kernel calls
made so far, oldest first. `busCalls`, `regulatorCalls` and `nirqReads` count the oracle
answers consumed. `reinit_calls` is an auxiliary counter of the entries into
`sx933x_reinitialize`; no code reads it. `fault` is set once the code has dereferenced a
null pointer: the kernel kills the thread there, so the function in progress does not
return and nothing after the dereference is executed. -/
structure Driver where
  this : Option sx93XX
  psmtcButtons : List buttonInfo
  err_cnt : Int
  trace : List Effect
  busCalls : Nat
  regulatorCalls : Nat
  nirqReads : Nat
  reinit_calls : Nat
  fault : Bool := false
deriving DecidableEq, Repr

/-- Append kernel calls to the trace. -/
def Driver.emit (s : Driver) (es : List Effect) : Driver :=
  { s with trace := s.trace ++ es }

/-! ## Register transport (source lines 94-162) -/

/-- The six bytes `w_buf` that `sx933x_i2c_write_16bit` fills in for a `u16` address and
a `u32` value. -/
def write_payload (reg_addr buf : Nat) : List Nat :=
  let reg_addr := reg_addr % 2 ^ 16
  let buf := buf % 2 ^ 32
  [(reg_addr >>> 8) % 256, reg_addr % 256,
   (buf >>> 24) % 256, (buf >>> 16) % 256, (buf >>> 8) % 256, buf % 256]

/-- The value `sx933x_i2c_read_16bit` stores from the four bytes of the receive buffer. -/
def assemble32 (b0 b1 b2 b3 : Nat) : Nat :=
  ((b0 % 256) <<< 24) ||| ((b1 % 256) <<< 16) ||| ((b2 % 256) <<< 8) ||| (b3 % 256)

/-- Embedding of `sx933x_i2c_write_16bit`: returns the return value of the C function. -/
def sx933x_i2c_write_16bit (env : Env) (reg_addr buf : Nat) (s : Driver) : Int × Driver :=
  match s.this with
  | none => (-ENOMEM, s)
  | some d =>
    if d.bus then
      let ret := (env.i2c_transfer s.busCalls).ret
      (ret, { s with trace := s.trace ++ [Effect.i2c_write (write_payload reg_addr buf)],
                     busCalls := s.busCalls + 1 })
    else (-ENOMEM, s)

/-- Embedding of `sx933x_i2c_read_16bit`: `data32` is the content of the output cell
before the call; the result is the return value, the content of the cell afterwards and
the new state. -/
def sx933x_i2c_read_16bit (env : Env) (reg_addr : Nat) (data32 : Nat) (s : Driver) :
    Int × Nat × Driver :=
  match s.this with
  | none => (-ENOMEM, data32, s)
  | some d =>
    if d.bus then
      let reg_addr := reg_addr % 2 ^ 16
      let r := env.i2c_transfer s.busCalls
      (r.ret, assemble32 r.b0 r.b1 r.b2 r.b3,
        { s with trace := s.trace ++ [Effect.i2c_read [(reg_addr >>> 8) % 256, reg_addr % 256]],
                 busCalls := s.busCalls + 1 })
    else (-ENOMEM, data32, s)

/-- Embedding of `read_regStat` (lines 177-186). -/
def read_regStat (env : Env) (s : Driver) : Int × Driver :=
  match s.this with
  | none => (0, s)
  | some _ =>
    let r := sx933x_i2c_read_16bit env env.hdr.SX933X_HOSTIRQSRC_REG 0 s
    if r.1 > 0 then (((r.2.1 &&& 0x00FF : Nat) : Int), r.2.2) else (0, r.2.2)

/-- Embedding of `manual_offset_calibration` (lines 240-246). -/
def manual_offset_calibration (env : Env) (s : Driver) : Int × Driver :=
  sx933x_i2c_write_16bit env env.hdr.SX933X_CMD_REG env.hdr.I2C_REGCMD_COMPEN s

/-! ## Button state machine (source lines 801-882) -/

/-- The two calls `input_report_abs(input, ABS_DISTANCE, value); input_sync(input);`
followed by the assignment `pCurrentButton->state = state` for button `counter`. -/
def report_and_set (counter : Nat) (b : buttonInfo) (input : Nat) (value state : Int)
    (s : Driver) : Driver :=
  { s with
    trace := s.trace ++ [Effect.input_report_abs counter (some input) value,
                         Effect.input_sync counter (some input)],
    psmtcButtons := s.psmtcButtons.set counter { b with state := state } }

/-- The part of the loop body of `touchProcess` after the null checks (lines 850-879),
for button `b` at index `counter` with sink `input` and status word `i`. -/
def touchProcess_button (i : Nat) (counter : Nat) (b : buttonInfo) (input : Nat)
    (s : Driver) : Driver :=
  let touchFlag := i &&& (b.ProxMask ||| b.BodyMask)
  if touchFlag = (b.ProxMask ||| b.BodyMask) then
    if b.state = BODYACTIVE then s
    else report_and_set counter b input 2 BODYACTIVE s
  else if touchFlag = b.ProxMask then
    if b.state = PROXACTIVE then s
    else report_and_set counter b input 1 PROXACTIVE s
  else if touchFlag = 0 then
    if b.state = IDLE then s
    else report_and_set counter b input 0 IDLE s
  else s

/-- The `for` loop of `touchProcess` (lines 825-880): `n` iterations remain, starting at
index `counter`. A disabled or unused button is skipped (`continue`); an enabled, used
button without sink ends the function (`return`). -/
def touchProcess_loop (i : Nat) : Nat → Nat → Driver → Driver
  | 0, _, s => s
  | n + 1, counter, s =>
    match s.psmtcButtons[counter]? with
    | none => s
    | some b =>
      if b.enabled = false then touchProcess_loop i n (counter + 1) s
      else if b.used = false then touchProcess_loop i n (counter + 1) s
      else
        match b.input_dev with
        | none => s
        | some input => touchProcess_loop i n (counter + 1) (touchProcess_button i counter b input s)

/-- Embedding of `touchProcess` (lines 801-882). -/
def touchProcess (env : Env) (s : Driver) : Driver :=
  match s.this with
  | none => s
  | some d =>
    match d.pDevice with
    | none => s
    | some pDevice =>
      let r := sx933x_i2c_read_16bit env env.hdr.SX933X_STAT0_REG 0 s
      if pDevice.buttons = false then r.2.2
      else touchProcess_loop r.2.1 r.2.2.psmtcButtons.length 0 r.2.2

/-! ## Register programming (source lines 695-755) -/

/-- The value `tmpvalue` that `sx933x_reg_init` writes for an entry of the static table
(lines 712-720). -/
def reg_setup_value (hdr : Header) (e : smtc_reg_data) : Nat :=
  if e.reg = hdr.SX933X_GNRLCTRL2_REG then
    if e.val &&& 0x3F = 0 then e.val ||| 0x3F else e.val
  else e.val

/-- The first `while` loop of `sx933x_reg_init`: the static table, entry by entry. -/
def reg_init_static (env : Env) : List smtc_reg_data → Driver → Driver
  | [], s => s
  | e :: rest, s =>
    reg_init_static env rest (sx933x_i2c_write_16bit env e.reg (reg_setup_value env.hdr e) s).2

/-- A loop writing every entry of a register array as it stands (lines 727-734 and
1267-1274). -/
def write_regs (env : Env) : List smtc_reg_data → Driver → Driver
  | [], s => s
  | e :: rest, s => write_regs env rest (sx933x_i2c_write_16bit env e.reg e.val s).2

/-- The loop of `sx933x_reg_init` under `CONFIG_CAPSENSE_HEADSET_STATE` (lines 739-745):
reads each backup register into the `val` cell of its entry. -/
def headset_backup (env : Env) : List smtc_reg_data → Driver → List smtc_reg_data × Driver
  | [], s => ([], s)
  | e :: rest, s =>
    let r := sx933x_i2c_read_16bit env e.reg e.val s
    let t := headset_backup env rest r.2.2
    ({ e with val := r.2.1 } :: t.1, t.2)

/-- Store a new `headset_operate_reg_bck` array in the platform data of the device. -/
def store_headset_bck (bck : List smtc_reg_data) (s : Driver) : Driver :=
  match s.this with
  | none => s
  | some d =>
    match d.pDevice with
    | none => s
    | some pDevice =>
      match pDevice.hw with
      | none => s
      | some pdata =>
        let pdata1 : sx933x_platform_data := { pdata with headset_operate_reg_bck := bck }
        let pDevice1 : sx933x := { pDevice with hw := some pdata1 }
        { s with this := some { d with pDevice := some pDevice1 } }

/-- Embedding of `sx933x_reg_init` (lines 695-755). When the guard of line 702 fails, the
`else` branch evaluates `pDevice->hw` for its log line (line 752): with `pDevice` null
(the device or its device specific struct is null) that is a null dereference, recorded
in `fault`; with `pDevice` present and `hw` null only the log line is written. -/
def sx933x_reg_init (env : Env) (s : Driver) : Driver :=
  match s.this with
  | none => { s with fault := true }
  | some d =>
    match d.pDevice with
    | none => { s with fault := true }
    | some pDevice =>
      match pDevice.hw with
      | none => s
      | some pdata =>
        let s1 := reg_init_static env env.hdr.sx933x_i2c_reg_setup s
        let s2 := if d.reg_in_dts = true then write_regs env pdata.pi2c_reg s1 else s1
        let s3 :=
          if env.hdr.CONFIG_CAPSENSE_HEADSET_STATE then
            let r := headset_backup env pdata.headset_operate_reg_bck s2
            store_headset_bck r.1 r.2
          else s2
        (sx933x_i2c_write_16bit env env.hdr.SX933X_CMD_REG env.hdr.SX933X_PHASE_CONTROL s3).2

/-! ## Register overlay (source lines 1255-1297) -/

/-- The loop "if one of the sensors is on, re-enable it" (lines 1273-1279 and
1952-1957): one write of `temp | 0x1F` to the control register when some button is
enabled. -/
def reenable_if_on (env : Env) (temp : Nat) (s : Driver) : Driver :=
  if s.psmtcButtons.any (fun b => b.enabled) then
    (sx933x_i2c_write_16bit env env.hdr.SX933X_GNRLCTRL2_REG (temp ||| 0x0000001F) s).2
  else s

/-- Embedding of `write_flip_regs` (lines 1255-1280). -/
def write_flip_regs (env : Env) (regs : List smtc_reg_data) (s : Driver) : Driver :=
  let r := sx933x_i2c_read_16bit env env.hdr.SX933X_GNRLCTRL2_REG 0 s
  let temp := r.2.1
  let s1 := (sx933x_i2c_write_16bit env env.hdr.SX933X_GNRLCTRL2_REG (temp &&& 0xFFFFFFE0) r.2.2).2
  let s2 := write_regs env regs s1
  reenable_if_on env temp s2

/-- Embedding of `update_flip_regs` (lines 1282-1297). -/
def update_flip_regs (env : Env) (data : sx933x_platform_data) (state : Nat) (s : Driver) :
    Driver :=
  if data.phone_flip_update_regs then
    if state = data.phone_flip_open_val then write_flip_regs env data.flip_open_regs s
    else write_flip_regs env data.flip_closed_regs s
  else s

/-! ## Reinitialization (source lines 1900-1963) -/

/-- The soft reset loop `for (retry = 10; retry > 0; retry--)` (lines 770-776 and
1926-1931) with `retry` attempts left: stops at the first write that does not fail,
sleeps 10 ms after each failed one. -/
def reset_retry (env : Env) : Nat → Driver → Driver
  | 0, s => s
  | retry + 1, s =>
    let r := sx933x_i2c_write_16bit env env.hdr.SX933X_RESET_REG env.hdr.I2C_SOFTRESET_VALUE s
    if r.1 ≥ 0 then r.2
    else reset_retry env retry (r.2.emit [Effect.msleep 10])

/-- Assign the fields `init_busy` of the device object. -/
def set_init_busy (v : Int) (s : Driver) : Driver :=
  match s.this with
  | none => s
  | some d => { s with this := some { d with init_busy := v } }

/-- The value of a C `int` after an arithmetic result `x`: two's complement wrap-around
to the range from `-2^31` to `2^31 - 1` (the kernel is built with `-fno-strict-overflow`). -/
def wrap_int (x : Int) : Int :=
  (x + 2 ^ 31) % 2 ^ 32 - 2 ^ 31

/-- The statement `this->reset_count++` on the `int` field `reset_count`. -/
def incr_reset_count (s : Driver) : Driver :=
  match s.this with
  | none => s
  | some d => { s with this := some { d with reset_count := wrap_int (d.reset_count + 1) } }

/-- The call `regulator_enable(pdata->cap_vdd)`: its return value comes from the
environment. -/
def call_regulator_enable (env : Env) (s : Driver) : Int × Driver :=
  (env.regulator_enable s.regulatorCalls,
    { s with trace := s.trace ++ [Effect.regulator_enable],
             regulatorCalls := s.regulatorCalls + 1 })

/-- The body of `sx933x_reinitialize` once the token is taken (lines 1916-1961). The
return value of `regulator_enable` is only logged. The body runs inside the guard of
line 1909, with the device, its device specific struct and the platform data present,
so its call of `sx933x_reg_init` takes the configuration branch and returns. -/
def reinitialize_body (env : Env) (pdata : sx933x_platform_data) (s : Driver) : Driver :=
  let s := s.emit [Effect.disable_irq, Effect.regulator_disable, Effect.msleep 100]
  let s := (call_regulator_enable env s).2
  let s := s.emit [Effect.msleep 100]
  let s := reset_retry env 10 s
  let s := s.emit [Effect.msleep 100]
  let s := sx933x_reg_init env s
  let s := if env.hdr.CONFIG_CAPSENSE_FLIP_CAL then
      update_flip_regs env pdata pdata.phone_flip_state s else s
  let s := s.emit [Effect.enable_irq]
  let s := (read_regStat env s).2
  let r := sx933x_i2c_read_16bit env env.hdr.SX933X_GNRLCTRL2_REG 0 s
  let s := reenable_if_on env r.2.1 r.2.2
  let s := (manual_offset_calibration env s).2
  let s := set_init_busy 0 s
  incr_reset_count s

/-- Embedding of `sx933x_reinitialize` (lines 1900-1963). The first step counts the
entry in the auxiliary field `reinit_calls`. `atomic_add_unless(&init_busy, 1, 1)` adds 1
unless the value is 1 and tells whether it added. -/
def sx933x_reinitialize (env : Env) (s0 : Driver) : Driver :=
  let s := { s0 with reinit_calls := s0.reinit_calls + 1 }
  match s.this with
  | none => s
  | some d =>
    match d.pDevice with
    | none => s
    | some pDevice =>
      match pDevice.hw with
      | none => s
      | some pdata =>
        if pdata.reinit_on_i2c_failure = false then s
        else if d.init_busy = 1 then s
        else reinitialize_body env pdata (set_init_busy (d.init_busy + 1) s)

/-! ## Watchdog (source lines 1866-1898) -/

/-- Embedding of `sx933x_i2c_watchdog_work`. The device object comes from
`container_of` and is never null; the `none` case is there for totality. -/
def sx933x_i2c_watchdog_work (env : Env) (s : Driver) : Driver :=
  match s.this with
  | none => s
  | some d =>
    if d.suspended = false then
      let r := sx933x_i2c_read_16bit env env.hdr.SX933X_INFO_REG 0 s
      let s1 := r.2.2
      let s2 := if r.1 < 0 then { s1 with err_cnt := s1.err_cnt + 1 } else { s1 with err_cnt := 0 }
      let delay := if r.1 < 0 then SX933X_I2C_WATCHDOG_TIME_ERR else SX933X_I2C_WATCHDOG_TIME
      if (3 : Int) ≤ s2.err_cnt then
        ( sx933x_reinitialize env { s2 with err_cnt := 0 }).emit
          [Effect.schedule_watchdog SX933X_I2C_WATCHDOG_TIME]
      else s2.emit [Effect.schedule_watchdog delay]
    else s.emit [Effect.schedule_watchdog SX933X_I2C_WATCHDOG_TIME]

/-! ## Enable/disable entry point (source lines 1113-1160) -/

/-- The assignment `psmtcButtons[i].enabled = v`, where `b` is the entry at index `i`. -/
def set_enabled (i : Nat) (b : buttonInfo) (v : Bool) (s : Driver) : Driver :=
  { s with psmtcButtons := s.psmtcButtons.set i { b with enabled := v } }

/-- The first loop of `capsensor_set_enable` (lines 1120-1143) with `n` iterations left
from index `i`; `temp` is the local variable shared by the iterations. -/
def capsensor_set_enable_loop (env : Env) (name : String) (enable : Nat) :
    Nat → Nat → Nat → Driver → Nat × Driver
  | 0, _, temp, s => (temp, s)
  | n + 1, i, temp, s =>
    match s.psmtcButtons[i]? with
    | none => (temp, s)
    | some b =>
      if name = b.name then
        if enable = 1 then
          let r := sx933x_i2c_read_16bit env env.hdr.SX933X_GNRLCTRL2_REG temp s
          let temp := r.2.1 ||| 0x0000001F
          let s1 := (sx933x_i2c_write_16bit env env.hdr.SX933X_GNRLCTRL2_REG temp r.2.2).2
          let s2 := set_enabled i b true s1
          let s3 := s2.emit [Effect.input_report_abs i b.input_dev 0, Effect.input_sync i b.input_dev]
          let s4 := (manual_offset_calibration env s3).2
          capsensor_set_enable_loop env name enable n (i + 1) temp s4
        else if enable = 0 then
          let s1 := set_enabled i b false s
          let s2 := s1.emit [Effect.input_report_abs i b.input_dev (-1),
                             Effect.input_sync i b.input_dev]
          capsensor_set_enable_loop env name enable n (i + 1) temp s2
        else capsensor_set_enable_loop env name enable n (i + 1) temp s
      else capsensor_set_enable_loop env name enable n (i + 1) temp s

/-- Embedding of `capsensor_set_enable` for the class device named `name` (the
`sensors_cdev->name` of the call): returns the return value and the new state. -/
def capsensor_set_enable (env : Env) (name : String) (enable : Nat) (s : Driver) :
    Int × Driver :=
  let l := capsensor_set_enable_loop env name enable s.psmtcButtons.length 0 0 s
  let s1 := l.2
  if s1.psmtcButtons.any (fun b => b.enabled) then (0, s1)
  else
    let r := sx933x_i2c_read_16bit env env.hdr.SX933X_GNRLCTRL2_REG l.1 s1
    let temp := r.2.1 &&& 0xFFFFFFE0
    (0, (sx933x_i2c_write_16bit env env.hdr.SX933X_GNRLCTRL2_REG temp r.2.2).2)

/-! ## Deferred worker (source lines 1753-1840) -/

/-- Embedding of `sx933x_get_nirq_state`: one sample of the interrupt line. -/
def sx933x_get_nirq_state (env : Env) (s : Driver) : Bool × Driver :=
  (env.nirq_low s.nirqReads, { s with nirqReads := s.nirqReads + 1 })

/-- Embedding of `sx93XX_schedule_work` (lines 1753-1768); the spin lock is not modelled. -/
def sx93XX_schedule_work (delay : Nat) (s : Driver) : Driver :=
  match s.this with
  | none => s
  | some _ => s.emit [Effect.cancel_dworker, Effect.schedule_dworker delay]

/-- The `while((++counter) < MAX_NUM_STATUS_BITS)` loop of `sx93XX_worker_func` (lines
1821-1828) with `n` iterations left from index `counter`, on the status `status` and the
handler table `statusFunc` (`none` for a null slot). -/
def worker_dispatch (statusFunc : Nat → Option (Driver → Driver)) (status : Int) :
    Nat → Nat → Driver → Driver
  | 0, _, s => s
  | n + 1, counter, s =>
    if (status >>> counter) % 2 ≠ 0 then
      match statusFunc counter with
      | some f => worker_dispatch statusFunc status n (counter + 1) (f s)
      | none => worker_dispatch statusFunc status n (counter + 1) s
    else worker_dispatch statusFunc status n (counter + 1) s

/-- Embedding of `sx93XX_worker_func` (lines 1794-1840). `work` tells whether the work
pointer is non-null; `refreshStatus` and `statusFunc` are the function pointers of the
device object. -/
def sx93XX_worker_func (env : Env) (refreshStatus : Driver → Int × Driver)
    (statusFunc : Nat → Option (Driver → Driver)) (work : Bool) (s : Driver) : Driver :=
  if work then
    match s.this with
    | none => s
    | some d =>
      let p := if d.useIrqTimer then
          (if d.get_nirq_low then sx933x_get_nirq_state env s else (true, s))
        else (false, s)
      let nirqLow := p.1
      let r := refreshStatus p.2
      let s1 := worker_dispatch statusFunc r.1 env.hdr.MAX_NUM_STATUS_BITS 0 r.2
      if d.useIrqTimer && nirqLow then
        sx93XX_schedule_work (env.msecs_to_jiffies d.irqTimeout) s1
      else s1
  else s

/-! ## Vocabulary of the statements -/

/-- The status word `touchProcess` works on: the content of its local `i` after the
read of `SX933X_STAT0_REG`. -/
def touch_status (env : Env) (s : Driver) : Nat :=
  (sx933x_i2c_read_16bit env env.hdr.SX933X_STAT0_REG 0 s).2.1

/-- The kernel calls made on the way from state `s` to state `t`. -/
def new_calls (s t : Driver) : List Effect :=
  t.trace.drop s.trace.length

/-- The `ABS_DISTANCE` reports for button `k` among a list of calls, in order: the sink
they went to and the value. -/
def distance_events (k : Nat) : List Effect → List (Option Nat × Int)
  | [] => []
  | Effect.input_report_abs b dev v :: rest =>
    if b = k then (dev, v) :: distance_events k rest else distance_events k rest
  | _ :: rest => distance_events k rest

/-- Tells an input event (`input_report_abs`, `input_sync`) from the other kernel calls. -/
def Effect.is_input : Effect → Bool
  | Effect.input_report_abs _ _ _ => true
  | Effect.input_sync _ _ => true
  | _ => false

/-- Button `k` is reached by the loop of `touchProcess`: no enabled and used button
before it lacks a sink. -/
def reached (bs : List buttonInfo) (k : Nat) : Bool :=
  (bs.take k).all (fun b => !(b.enabled && b.used) || b.input_dev.isSome)

/-! ## The loop of `touchProcess` on the button list -/

/-- The state that lines 850-879 leave in button `b` for the status word `i`. -/
def next_state (i : Nat) (b : buttonInfo) : Int :=
  let touchFlag := i &&& (b.ProxMask ||| b.BodyMask)
  if touchFlag = (b.ProxMask ||| b.BodyMask) then BODYACTIVE
  else if touchFlag = b.ProxMask then PROXACTIVE
  else if touchFlag = 0 then IDLE
  else b.state

/-- The calls that lines 850-879 make for button `b` at index `counter`. -/
def button_events (i : Nat) (counter : Nat) (b : buttonInfo) (input : Nat) : List Effect :=
  let touchFlag := i &&& (b.ProxMask ||| b.BodyMask)
  if touchFlag = (b.ProxMask ||| b.BodyMask) then
    if b.state = BODYACTIVE then []
    else [Effect.input_report_abs counter (some input) 2, Effect.input_sync counter (some input)]
  else if touchFlag = b.ProxMask then
    if b.state = PROXACTIVE then []
    else [Effect.input_report_abs counter (some input) 1, Effect.input_sync counter (some input)]
  else if touchFlag = 0 then
    if b.state = IDLE then []
    else [Effect.input_report_abs counter (some input) 0, Effect.input_sync counter (some input)]
  else []

/-- The button list after the loop of `touchProcess` has run over it. -/
def scan_buttons (i : Nat) : List buttonInfo → List buttonInfo
  | [] => []
  | b :: rest =>
    if b.enabled = false then b :: scan_buttons i rest
    else if b.used = false then b :: scan_buttons i rest
    else
      match b.input_dev with
      | none => b :: rest
      | some _ => { b with state := next_state i b } :: scan_buttons i rest

/-- The calls the loop of `touchProcess` makes over a button list whose first index is
`counter`. -/
def scan_events (i : Nat) : Nat → List buttonInfo → List Effect
  | _, [] => []
  | counter, b :: rest =>
    if b.enabled = false then scan_events i (counter + 1) rest
    else if b.used = false then scan_events i (counter + 1) rest
    else
      match b.input_dev with
      | none => []
      | some input => button_events i counter b input ++ scan_events i (counter + 1) rest

/-- Tells whether `touchProcess` gets to its loop: device, device specific struct and
button array are all non-null. -/
def touch_runs (s : Driver) : Bool :=
  match s.this with
  | none => false
  | some d =>
    match d.pDevice with
    | none => false
    | some pDevice => pDevice.buttons

/-! ## Sample data for the worked instances -/

/-- A header instance for the worked instances: eight status bits, register numbers
chosen distinct, a two-entry static table. -/
def sample_hdr : Header :=
  { MAX_NUM_STATUS_BITS := 8,
    SX933X_HOSTIRQSRC_REG := 0x4000,
    SX933X_STAT0_REG := 0x8000,
    SX933X_INFO_REG := 0x42CC,
    SX933X_GNRLCTRL2_REG := 0x8028,
    SX933X_CMD_REG := 0x4280,
    SX933X_RESET_REG := 0x4240,
    I2C_SOFTRESET_VALUE := 0xDE,
    SX933X_PHASE_CONTROL := 0x0F,
    I2C_REGCMD_COMPEN := 0x0E,
    SX933X_WHOAMI_VALUE := 0x23,
    SX9338_DFN_WHOAMI_VALUE := 0x38,
    sx933x_i2c_reg_setup := [⟨0x8024, 0x10⟩, ⟨0x8028, 0x0⟩],
    CONFIG_CAPSENSE_HEADSET_STATE := false,
    CONFIG_CAPSENSE_FLIP_CAL := false }

/-- An environment in which every bus transfer gives the same reply. -/
def sample_env (reply : BusReply) : Env :=
  { hdr := sample_hdr,
    i2c_transfer := fun _ => reply,
    regulator_enable := fun _ => 0,
    nirq_low := fun _ => false,
    msecs_to_jiffies := fun ms => ms }

/-- Platform data with the reinitialization policy switched on and no overrides. -/
def sample_pdata : sx933x_platform_data :=
  { reinit_on_i2c_failure := true, pi2c_reg := [], headset_operate_reg_bck := [],
    phone_flip_update_regs := false, phone_flip_state := 0, phone_flip_open_val := 0,
    flip_open_regs := [], flip_closed_regs := [] }

/-- A probed, running device object. -/
def sample_dev : sx93XX :=
  { bus := true, pDevice := some { buttons := true, hw := some sample_pdata },
    get_nirq_low := true, useIrqTimer := false, irqTimeout := 0, irq_disabled := 0,
    int_state := 0, failStatusCode := 0, reg_in_dts := true, suspended := false,
    init_busy := 0, reset_count := 0 }

/-- A driver state around `sample_dev` with the given button table and nothing done yet. -/
def sample_driver (bs : List buttonInfo) : Driver :=
  { this := some sample_dev, psmtcButtons := bs, err_cnt := 0, trace := [], busCalls := 0,
    regulatorCalls := 0, nirqReads := 0, reinit_calls := 0 }

/-- Channel 0 of the sample table: idle, masks bit 0 / bit 8. -/
def sample_ch0 : buttonInfo :=
  { name := "ch0", enabled := true, used := true, state := 0, ProxMask := 0x1,
    BodyMask := 0x100, input_dev := some 10 }

/-- Channel 1 of the sample table: not used, no sink. -/
def sample_ch1 : buttonInfo :=
  { name := "ch1", enabled := false, used := false, state := 0, ProxMask := 0x2,
    BodyMask := 0x200, input_dev := none }

/-- Channel 2 of the sample table: in body state, masks bit 2 / bit 10. -/
def sample_ch2 : buttonInfo :=
  { name := "ch2", enabled := true, used := true, state := 2, ProxMask := 0x4,
    BodyMask := 0x400, input_dev := some 12 }

/-- A three-button table. -/
def sample_buttons : List buttonInfo :=
  [sample_ch0, sample_ch1, sample_ch2]

/-- A bus reply of a successful transfer whose receive buffer holds `b2`, `b3` in its
two low bytes. -/
def ok_reply (b2 b3 : Nat) : BusReply :=
  { ret := 2, b0 := 0, b1 := 0, b2 := b2, b3 := b3 }

/-- A button whose body mask adds no bit to the proximity mask. -/
def degenerate_body_button : buttonInfo :=
  { name := "ch0", enabled := true, used := true, state := 0, ProxMask := 0x1,
    BodyMask := 0x0, input_dev := some 10 }

/-- A button whose proximity mask is empty. -/
def empty_prox_button : buttonInfo :=
  { name := "ch0", enabled := true, used := true, state := 2, ProxMask := 0x0,
    BodyMask := 0x100, input_dev := some 10 }

/-- The handlers due for status `status` among the first `n` slots of the table, in
ascending slot order: those whose bit is set in `status` and whose slot is non-null. -/
def due_handlers (statusFunc : Nat → Option (Driver → Driver)) (status : Int) (n : Nat) :
    List (Driver → Driver) :=
  (List.range n).filterMap (fun i => if status.testBit i then statusFunc i else none)

/-- Run a list of handlers one after the other, the first of the list first. -/
def run_handlers (hs : List (Driver → Driver)) (s : Driver) : Driver :=
  hs.foldl (fun acc h => h acc) s

/-- A handler that does nothing but leave the mark `msleep i` in the trace. -/
def mark_handler (i : Nat) (s : Driver) : Driver :=
  s.emit [Effect.msleep i]

/-- A dispatch table with handlers in slots 2, 3, 4 and 6. -/
def sample_table (h2 h3 h4 h6 : Driver → Driver) (i : Nat) : Option (Driver → Driver) :=
  if i = 2 then some h2 else if i = 3 then some h3 else if i = 4 then some h4
  else if i = 6 then some h6 else none

/-- The relation between the states before and after a piece of code that leaves the
button table, the watchdog counter, the auxiliary entry counter and the `suspended`
flag alone and makes no input call: the trace only grows, by calls other than
`input_report_abs` and `input_sync`. -/
def Frame (s t : Driver) : Prop :=
  t.psmtcButtons = s.psmtcButtons ∧ t.err_cnt = s.err_cnt ∧
  t.reinit_calls = s.reinit_calls ∧
  t.this.map (fun d => d.suspended) = s.this.map (fun d => d.suspended) ∧
  ∃ evs, t.trace = s.trace ++ evs ∧ ∀ e ∈ evs, e.is_input = false

/-- The state before invocation `k` (counted from 0) of a run of consecutive watchdog
invocations that starts in state `s`. -/
def watchdog_run (env : Env) (s : Driver) : Nat → Driver
  | 0 => s
  | k + 1 => sx933x_i2c_watchdog_work env (watchdog_run env s k)

/-- The liveness probe made in state `s` fails: the read of `SX933X_INFO_REG` returns a
negative value. -/
def probe_fails (env : Env) (s : Driver) : Bool :=
  decide ((sx933x_i2c_read_16bit env env.hdr.SX933X_INFO_REG 0 s).1 < 0)

/-- The probe of invocation `k` of the run from `s` fails. -/
def fails_at (env : Env) (s : Driver) (k : Nat) : Bool :=
  probe_fails env (watchdog_run env s k)

/-- Invocation `k` of the run from `s` enters `sx933x_reinitialize`. -/
def triggers_at (env : Env) (s : Driver) (k : Nat) : Prop :=
  (watchdog_run env s (k + 1)).reinit_calls = (watchdog_run env s k).reinit_calls + 1

/-- An environment whose bus transfers fail (return -5) exactly at the transfer numbers
for which `bad` holds. -/
def flaky_env (bad : Nat → Bool) : Env :=
  { hdr := sample_hdr,
    i2c_transfer := fun k => if bad k then ⟨-5, 0, 0, 0, 0⟩ else ⟨2, 0, 0, 0, 0⟩,
    regulator_enable := fun _ => 0,
    nirq_low := fun _ => false,
    msecs_to_jiffies := fun ms => ms }

/-! ## The first loop of `capsensor_set_enable` on the button list -/

/-- The button `b` after the first loop of `capsensor_set_enable` has passed it. -/
def cap_button (name : String) (enable : Nat) (b : buttonInfo) : buttonInfo :=
  if name = b.name then
    if enable = 1 then { b with enabled := true }
    else if enable = 0 then { b with enabled := false }
    else b
  else b

/-- The distance reports the first loop of `capsensor_set_enable` makes for button `b`. -/
def cap_distance (name : String) (enable : Nat) (b : buttonInfo) : List (Option Nat × Int) :=
  if name = b.name then
    if enable = 1 then [(b.input_dev, 0)]
    else if enable = 0 then [(b.input_dev, -1)]
    else []
  else []

/-- The distance reports for button `k` that the first loop of `capsensor_set_enable`
makes over a button list whose first index is `c`. -/
def cap_events (name : String) (enable : Nat) : Nat → List buttonInfo → Nat →
    List (Option Nat × Int)
  | _, [], _ => []
  | c, b :: rest, k =>
    (if c = k then cap_distance name enable b else []) ++
      cap_events name enable (c + 1) rest k

/-! ## Attach-time functions and the interrupt handler -/

/-- Fault code `SX933x_ID_ERROR` (source line 57). -/
def SX933x_ID_ERROR : Int := 1

/-- Fault code `SX933x_NIRQ_ERROR` (source line 58). -/
def SX933x_NIRQ_ERROR : Int := 2

/-- Fault code `SX933x_CONN_ERROR` (source line 59). -/
def SX933x_CONN_ERROR : Int := 3

/-- Fault code `SX933x_I2C_ERROR` (source line 60). -/
def SX933x_I2C_ERROR : Int := 4

/-- The kernel value `IRQ_HANDLED` of `irqreturn_t`. -/
def IRQ_HANDLED : Int := 1

/-- The assignment `this->failStatusCode = v`. -/
def set_failStatusCode (v : Int) (s : Driver) : Driver :=
  match s.this with
  | none => s
  | some d => { s with this := some { d with failStatusCode := v } }

/-- The assignment `this->irq_disabled = v`. -/
def set_irq_disabled (v : Int) (s : Driver) : Driver :=
  match s.this with
  | none => s
  | some d => { s with this := some { d with irq_disabled := v } }

/-- The assignment `this->int_state = v`. -/
def set_int_state (v : Int) (s : Driver) : Driver :=
  match s.this with
  | none => s
  | some d => { s with this := some { d with int_state := v } }

/-- Embedding of `sx933x_global_variable_init` (lines 228-234). -/
def sx933x_global_variable_init (s : Driver) : Int × Driver :=
  match s.this with
  | none => (0, s)
  | some d =>
    let d1 : sx93XX := { d with irq_disabled := 0, failStatusCode := 0, reg_in_dts := true }
    (0, { s with this := some d1 })

/-- The start of `initialize` on a non-null device (lines 769-771): the interrupt is
marked and switched off. -/
def initialize_prologue (s : Driver) : Driver :=
  (set_irq_disabled 1 s).emit [Effect.disable_irq]

/-- The part of `initialize` after the reset loop (lines 777-791): the settle delay, the
reset of the in-memory state, the register programming and, unless that ended in a null
dereference, the interrupt switched on again and one status read. -/
def initialize_epilogue (env : Env) (s : Driver) : Driver :=
  let s := s.emit [Effect.msleep 100]
  let s := (sx933x_global_variable_init s).2
  let s := sx933x_reg_init env s
  if s.fault then s
  else (read_regStat env (s.emit [Effect.enable_irq])).2

/-- Embedding of the C function `initialize` (lines 763-795): the return value and the
state at the return, or `none` when the call does not return because the thread was
killed at a null dereference. -/
def initialize_ (env : Env) (s : Driver) : Option (Int × Driver) :=
  match s.this with
  | none => some (-ENOMEM, s)
  | some _ =>
    let t := initialize_epilogue env (reset_retry env 10 (initialize_prologue s))
    if t.fault then none else some (0, t)

/-- The `while` loop of `sx933x_Hardware_Check` (lines 196-205) with the counter at
`loop` and `fuel` iterations allowed; the counter is a `u8`. The loop ends when no level
check is installed, when the line reads idle, or with the line-stuck code when the
incremented counter exceeds 10. -/
def hardware_check_poll (env : Env) : Nat → Nat → Driver → Driver
  | 0, _, s => s
  | fuel + 1, loop, s =>
    match s.this with
    | none => s
    | some d =>
      if d.get_nirq_low then
        let p := sx933x_get_nirq_state env s
        if p.1 then
          let s1 := (read_regStat env p.2).2
          let s2 := s1.emit [Effect.msleep 100]
          if (loop + 1) % 256 > 10 then set_failStatusCode SX933x_NIRQ_ERROR s2
          else hardware_check_poll env fuel ((loop + 1) % 256) s2
        else p.2
      else s

/-- Embedding of `sx933x_Hardware_Check` (lines 188-226). `idCode0` is the content of
the uninitialised local `idCode` at entry; the counter of the loop passes 10 at its
eleventh round, so 11 rounds of fuel are enough. -/
def sx933x_Hardware_Check (env : Env) (idCode0 : Nat) (s : Driver) : Int × Driver :=
  let s := set_failStatusCode 0 s
  let s := hardware_check_poll env 11 0 s
  let r := sx933x_i2c_read_16bit env env.hdr.SX933X_INFO_REG idCode0 s
  let s := if r.1 < 0 then set_failStatusCode SX933x_I2C_ERROR r.2.2 else r.2.2
  let s := if r.2.1 ≠ env.hdr.SX933X_WHOAMI_VALUE then set_failStatusCode SX933x_ID_ERROR s
    else s
  let s := if r.2.1 = env.hdr.SX9338_DFN_WHOAMI_VALUE then set_failStatusCode 0 s else s
  (match s.this with
   | none => 0
   | some d => d.failStatusCode, s)

/-- Embedding of `sx93XX_irq` (lines 1770-1792) with the device object as `pvoid`. -/
def sx93XX_irq (env : Env) (s : Driver) : Int × Driver :=
  match s.this with
  | none => (IRQ_HANDLED, s)
  | some d =>
    let p := if d.get_nirq_low then sx933x_get_nirq_state env s else (true, s)
    if p.1 then (IRQ_HANDLED, set_int_state 1 (sx93XX_schedule_work 0 p.2))
    else (IRQ_HANDLED, p.2)

/-! ## More sample data -/

/-- The sample device while a reinitialization is in flight (`init_busy` is 1). -/
def busy_dev : sx93XX :=
  { sample_dev with init_busy := 1 }

/-- The sample device after `sx933x_suspend`. -/
def suspended_dev : sx93XX :=
  { sample_dev with suspended := true }

/-- A driver state around the device `d`, with the sample button table and nothing done
yet. -/
def driver_of (d : sx93XX) : Driver :=
  { sample_driver sample_buttons with this := some d }

/-- The sample environment with the interrupt line reading asserted at every sample. -/
def asserted_env : Env :=
  { sample_env (ok_reply 0 0) with nirq_low := fun _ => true }

/-! ## Vocabulary for the reset loop and the interrupt control -/

/-- The soft-reset write: the bus transfer that writes `I2C_SOFTRESET_VALUE` to
`SX933X_RESET_REG`. -/
def reset_write (hdr : Header) : Effect :=
  Effect.i2c_write (write_payload hdr.SX933X_RESET_REG hdr.I2C_SOFTRESET_VALUE)

/-- The kernel calls of `k` failed rounds of the reset loop: the write `w` followed by
the 10 ms sleep, `k` times over. -/
def failed_rounds (w : Effect) : Nat → List Effect
  | 0 => []
  | k + 1 => w :: Effect.msleep 10 :: failed_rounds w k

/-- Tells a bus transfer or a sleep from the other kernel calls. -/
def Effect.is_bus_or_sleep : Effect → Bool
  | Effect.i2c_write _ => true
  | Effect.i2c_read _ => true
  | Effect.msleep _ => true
  | _ => false

/-- The device object without its pointer to the device specific struct: every scalar
field of `sx93XX_t`. -/
def sx93XX.core (d : sx93XX) : sx93XX :=
  { d with pDevice := none }

/-- The relation between the states before and after a piece of code that only talks to
the bus and sleeps: the scalar fields of the device object are as before and the trace
grows by bus transfers and sleeps only. -/
def BusFrame (s t : Driver) : Prop :=
  t.this.map sx93XX.core = s.this.map sx93XX.core ∧
  ∃ evs, t.trace = s.trace ++ evs ∧ ∀ e ∈ evs, e.is_bus_or_sleep = true

/-- The steps of `reinitialize_body` between the call of `regulator_enable` and the call
of `enable_irq`: settle delay, reset loop, settle delay, register programming and the
register overlay. -/
def reinit_reset_and_program (env : Env) (pdata : sx933x_platform_data) (s : Driver) :
    Driver :=
  let s := s.emit [Effect.msleep 100]
  let s := reset_retry env 10 s
  let s := s.emit [Effect.msleep 100]
  let s := sx933x_reg_init env s
  if env.hdr.CONFIG_CAPSENSE_FLIP_CAL then
    update_flip_regs env pdata pdata.phone_flip_state s else s

/-- The steps of `reinitialize_body` between the call of `enable_irq` and the release of
the token: status flush, restoring of the enabled channels and recalibration. -/
def reinit_flush_and_restore (env : Env) (s : Driver) : Driver :=
  let s := (read_regStat env s).2
  let r := sx933x_i2c_read_16bit env env.hdr.SX933X_GNRLCTRL2_REG 0 s
  let s := reenable_if_on env r.2.1 r.2.2
  (manual_offset_calibration env s).2

/-- A table with the single enabled channel 0. -/
def single_button : List buttonInfo :=
  [sample_ch0]

/-! ## Sample data for the status read, the identity check and the policy flag -/

/-- The sample platform data with the policy flag `reinit_on_i2c_failure` off. -/
def no_reinit_pdata : sx933x_platform_data :=
  { sample_pdata with reinit_on_i2c_failure := false }

/-- The sample device on the platform data with the policy flag off. -/
def no_reinit_dev : sx93XX :=
  { sample_dev with pDevice := some { buttons := true, hw := some no_reinit_pdata } }

/-- The state of `initialize` on a non-null device right after the call of
`sx933x_global_variable_init` (line 778), that is just before `sx933x_reg_init`. -/
def initialize_reset_state (env : Env) (s : Driver) : Driver :=
  (sx933x_global_variable_init
    ((reset_retry env 10 (initialize_prologue s)).emit [Effect.msleep 100])).2

/-- The bus transfer of `read_regStat`: the read of `SX933X_HOSTIRQSRC_REG`. -/
def status_read (hdr : Header) : Effect :=
  Effect.i2c_read [((hdr.SX933X_HOSTIRQSRC_REG % 2 ^ 16) >>> 8) % 256,
    (hdr.SX933X_HOSTIRQSRC_REG % 2 ^ 16) % 256]

/-! ## Vocabulary for the line poll of `sx933x_Hardware_Check` -/

/-- One round of the `while` loop of `sx933x_Hardware_Check` that found the line
asserted (lines 196-200): the sample of the line, the status read and the 100 ms sleep. -/
def poll_round (env : Env) (s : Driver) : Driver :=
  ((read_regStat env (sx933x_get_nirq_state env s).2).2).emit [Effect.msleep 100]

/-- The kernel calls of `k` rounds of the `while` loop of `sx933x_Hardware_Check`: the
status read, which is a bus transfer only on a device with a bus, and the 100 ms sleep,
`k` times over. -/
def poll_calls (hdr : Header) (bus : Bool) : Nat → List Effect
  | 0 => []
  | k + 1 =>
    (if bus then [status_read hdr, Effect.msleep 100] else [Effect.msleep 100]) ++
      poll_calls hdr bus k

/-- The state of `sx933x_Hardware_Check` when its `while` loop is over (line 205). -/
def hardware_check_polled (env : Env) (s : Driver) : Driver :=
  hardware_check_poll env 11 0 (set_failStatusCode 0 s)

/-- The sample environment with the interrupt line reading asserted at the first `n`
samples and idle afterwards, and with the bus answering the identity `0x23`. -/
def asserted_for (n : Nat) : Env :=
  { sample_env (ok_reply 0 0x23) with nirq_low := fun k => decide (k < n) }

/-- Tells whether the interrupt line reads asserted at each of the next 11 samples taken
in state `s`. -/
def line_stuck (env : Env) (s : Driver) : Bool :=
  (List.range 11).all (fun j => env.nirq_low (s.nirqReads + j))

/-- Channel 1 enabled and used but without an output sink. -/
def sinkless_ch1 : buttonInfo :=
  { sample_ch1 with enabled := true, used := true }

/-- The sample table with the sinkless channel in the middle. -/
def sinkless_buttons : List buttonInfo :=
  [sample_ch0, sinkless_ch1, sample_ch2]

/-! ## Vocabulary and sample data for the register overrides -/

/-- Tells a bus write from the other kernel calls. -/
def Effect.is_write : Effect → Bool
  | Effect.i2c_write _ => true
  | _ => false

/-- The bus write of an entry `(reg, val)` with the value as it stands. -/
def plain_write (e : smtc_reg_data) : Effect :=
  Effect.i2c_write (write_payload e.reg e.val)

/-- The phase-control command that ends `sx933x_reg_init` (line 748). -/
def phase_write (hdr : Header) : Effect :=
  Effect.i2c_write (write_payload hdr.SX933X_CMD_REG hdr.SX933X_PHASE_CONTROL)

/-- Platform data with two overrides, the first one for the control register with the
low six bits of the value all zero. -/
def override_pdata : sx933x_platform_data :=
  { sample_pdata with pi2c_reg := [⟨0x8028, 0x40⟩, ⟨0x8024, 0x11⟩] }

/-- The sample device on the platform data with overrides. -/
def override_dev : sx93XX :=
  { sample_dev with pDevice := some { buttons := true, hw := some override_pdata } }

/-- Tells a rescheduling of the watchdog work from the other kernel calls. -/
def Effect.is_schedule : Effect → Bool
  | Effect.schedule_watchdog _ => true
  | _ => false

/-- The bus read of the register of an entry `(reg, val)`. -/
def plain_read (e : smtc_reg_data) : Effect :=
  Effect.i2c_read [((e.reg % 2 ^ 16) >>> 8) % 256, (e.reg % 2 ^ 16) % 256]

/-- The kernel calls of a complete register programming (lines 707-748) with the
overrides of the platform data `pdata` applied: one write per entry of the static
table, with the all-ones correction, one write per override entry with the value as it
stands, under `CONFIG_CAPSENSE_HEADSET_STATE` one read per headset backup register, and
the phase-control command. -/
def programming_calls (hdr : Header) (pdata : sx933x_platform_data) : List Effect :=
  hdr.sx933x_i2c_reg_setup.map (fun e =>
      Effect.i2c_write (write_payload e.reg
        (if e.reg = hdr.SX933X_GNRLCTRL2_REG ∧ e.val &&& 0x3F = 0 then e.val ||| 0x3F
         else e.val))) ++
    (pdata.pi2c_reg.map (fun e => Effect.i2c_write (write_payload e.reg e.val)) ++
      ((if hdr.CONFIG_CAPSENSE_HEADSET_STATE = true then
          pdata.headset_operate_reg_bck.map plain_read else []) ++
        [Effect.i2c_write (write_payload hdr.SX933X_CMD_REG hdr.SX933X_PHASE_CONTROL)]))

/-- The number of soft-reset writes that fail before the reset loop ends, when the loop
has `n` attempts left and its next bus answer is number `b`: the number of negative
results at the start of the next `n` bus answers. -/
def leading_failures (env : Env) : Nat → Nat → Nat
  | _, 0 => 0
  | b, n + 1 =>
    if (env.i2c_transfer b).ret < 0 then leading_failures env (b + 1) n + 1 else 0

/-! ## Properties -/

theorem touchProcess_button_eq (i counter : Nat) (b : buttonInfo) (input : Nat) (s : Driver)
    (pre post : List buttonInfo) (hs : s.psmtcButtons = pre ++ b :: post)
    (hc : counter = pre.length) :
    touchProcess_button i counter b input s =
      { s with psmtcButtons := pre ++ { b with state := next_state i b } :: post,
               trace := s.trace ++ button_events i counter b input } := by
  subst hc
  have hset : ∀ b1 : buttonInfo, s.psmtcButtons.set pre.length b1 = pre ++ b1 :: post := by
    intro b1; rw [hs]; simp
  have hid : ∀ v : Int, b.state = v → ({ b with state := v } : buttonInfo) = b := by
    intro v hv; subst hv; rfl
  unfold touchProcess_button next_state button_events report_and_set
  simp only []
  split_ifs <;> simp_all <;> (cases s; cases b; simp_all)

theorem touchProcess_loop_eq (i : Nat) :
    ∀ (post pre : List buttonInfo) (s : Driver), s.psmtcButtons = pre ++ post →
      touchProcess_loop i post.length pre.length s =
        { s with psmtcButtons := pre ++ scan_buttons i post,
                 trace := s.trace ++ scan_events i pre.length post } := by
  intro post
  induction post with
  | nil =>
    intro pre s hs
    cases s
    simp_all [touchProcess_loop, scan_buttons, scan_events]
  | cons b rest ih =>
    intro pre s hs
    have hget : s.psmtcButtons[pre.length]? = some b := by
      rw [hs, List.getElem?_append_right (le_refl _)]; simp
    simp only [List.length_cons, touchProcess_loop, hget, scan_buttons, scan_events]
    by_cases hen : b.enabled = false
    · simp only [if_pos hen]
      have h1 := ih (pre ++ [b]) s (by rw [hs]; simp)
      simp only [List.length_append, List.length_singleton] at h1
      rw [h1]; simp
    · by_cases hus : b.used = false
      · simp only [if_neg hen, if_pos hus]
        have h1 := ih (pre ++ [b]) s (by rw [hs]; simp)
        simp only [List.length_append, List.length_singleton] at h1
        rw [h1]; simp
      · simp only [if_neg hen, if_neg hus]
        cases hin : b.input_dev with
        | none =>
          simp only []
          cases s
          simp_all
        | some input =>
          simp only []
          have h1 := ih (pre ++ [{ b with state := next_state i b }])
            { s with psmtcButtons := pre ++ { b with state := next_state i b } :: rest,
                     trace := s.trace ++ button_events i pre.length b input } (by simp)
          simp only [List.length_append, List.length_singleton] at h1
          rw [touchProcess_button_eq i pre.length b input s pre rest hs rfl, h1]
          simp [hin]

theorem read_16bit_frame (env : Env) (reg v : Nat) (s : Driver) :
    ∃ evs n, (sx933x_i2c_read_16bit env reg v s).2.2 =
        { s with trace := s.trace ++ evs, busCalls := s.busCalls + n } ∧
      ∀ e ∈ evs, e.is_input = false := by
  unfold sx933x_i2c_read_16bit
  cases hthis : s.this with
  | none => exact ⟨[], 0, by cases s; simp_all, by simp⟩
  | some d =>
    by_cases hb : d.bus = true
    · simp only [hb, if_true]
      exact ⟨_, 1, rfl, by simp [Effect.is_input]⟩
    · simp only [hb]
      exact ⟨[], 0, by cases s; simp_all, by simp⟩

theorem write_16bit_frame (env : Env) (reg v : Nat) (s : Driver) :
    ∃ evs n, (sx933x_i2c_write_16bit env reg v s).2 =
        { s with trace := s.trace ++ evs, busCalls := s.busCalls + n } ∧
      ∀ e ∈ evs, e.is_input = false := by
  unfold sx933x_i2c_write_16bit
  cases hthis : s.this with
  | none => exact ⟨[], 0, by cases s; simp_all, by simp⟩
  | some d =>
    by_cases hb : d.bus = true
    · simp only [hb, if_true]
      exact ⟨_, 1, rfl, by simp [Effect.is_input]⟩
    · simp only [hb]
      exact ⟨[], 0, by cases s; simp_all, by simp⟩

theorem touchProcess_eq (env : Env) (s : Driver) :
    ∃ evs n, (∀ e ∈ evs, e.is_input = false) ∧
      touchProcess env s =
        { s with
          psmtcButtons :=
            if touch_runs s then scan_buttons (touch_status env s) s.psmtcButtons
            else s.psmtcButtons,
          trace := s.trace ++ (evs ++
            if touch_runs s then scan_events (touch_status env s) 0 s.psmtcButtons else []),
          busCalls := s.busCalls + n } := by
  unfold touchProcess touch_runs touch_status
  cases hthis : s.this with
  | none => exact ⟨[], 0, by simp, by cases s; simp_all⟩
  | some d =>
    cases hdev : d.pDevice with
    | none => exact ⟨[], 0, by simp, by cases s; simp_all⟩
    | some pDevice =>
      obtain ⟨evs, n, hr, hev⟩ := read_16bit_frame env env.hdr.SX933X_STAT0_REG 0 s
      refine ⟨evs, n, hev, ?_⟩
      simp only [hr, hdev]
      by_cases hb : pDevice.buttons = false
      · simp [hb, hthis]
      · simp only [hb, if_false]
        have h := touchProcess_loop_eq
          (sx933x_i2c_read_16bit env env.hdr.SX933X_STAT0_REG 0 s).2.1 s.psmtcButtons []
          { s with trace := s.trace ++ evs, busCalls := s.busCalls + n } (by simp)
        simp only [List.length_nil, List.nil_append] at h
        rw [h]
        simp [hb, hthis]

theorem new_calls_eq (s t : Driver) (evs : List Effect) (h : t.trace = s.trace ++ evs) :
    new_calls s t = evs := by
  simp [new_calls, h]

theorem distance_events_append (k : Nat) (l1 l2 : List Effect) :
    distance_events k (l1 ++ l2) = distance_events k l1 ++ distance_events k l2 := by
  induction l1 with
  | nil => rfl
  | cons e rest ih =>
    rw [List.cons_append]
    cases e <;> simp only [distance_events, ih]
    split_ifs <;> simp

theorem distance_events_of_not_input (k : Nat) (l : List Effect)
    (h : ∀ e ∈ l, e.is_input = false) : distance_events k l = [] := by
  induction l with
  | nil => rfl
  | cons e rest ih =>
    have hrest : ∀ x ∈ rest, x.is_input = false := fun x hx => h x (List.mem_cons_of_mem _ hx)
    have he := h e (List.mem_cons_self _ _)
    cases e <;> simp_all [distance_events, Effect.is_input]

theorem distance_events_button (i k c : Nat) (b : buttonInfo) (input : Nat) :
    distance_events k (button_events i c b input) =
      if c = k then (if next_state i b = b.state then [] else [(some input, next_state i b)])
      else [] := by
  unfold button_events next_state
  simp only []
  split_ifs <;> simp_all [distance_events, BODYACTIVE, PROXACTIVE, IDLE]

theorem distance_events_scan_lt (i : Nat) :
    ∀ (l : List buttonInfo) (c k : Nat), k < c → distance_events k (scan_events i c l) = [] := by
  intro l
  induction l with
  | nil => intro c k _; rfl
  | cons b rest ih =>
    intro c k hk
    have hne : ¬ c = k := by omega
    simp only [scan_events]
    split_ifs
    · exact ih (c + 1) k (by omega)
    · exact ih (c + 1) k (by omega)
    · cases hin : b.input_dev with
      | none => rfl
      | some input =>
        simp only [distance_events_append, distance_events_button, if_neg hne,
          ih (c + 1) k (by omega), List.append_nil]

theorem scan_processed (i : Nat) :
    ∀ (l : List buttonInfo) (k c : Nat) (b : buttonInfo) (input : Nat),
      reached l k = true → l[k]? = some b → b.enabled = true → b.used = true →
      b.input_dev = some input →
      (scan_buttons i l)[k]? = some { b with state := next_state i b } ∧
      distance_events (c + k) (scan_events i c l) =
        distance_events (c + k) (button_events i (c + k) b input) := by
  intro l
  induction l with
  | nil => intro k c b input _ hk; simp at hk
  | cons b0 rest ih =>
    intro k c b input hreach hk hen hus hin
    cases k with
    | zero =>
      simp only [List.getElem?_cons_zero, Option.some.injEq] at hk
      subst hk
      simp only [scan_buttons, scan_events, hen, hus, hin, Bool.true_eq_false, if_false,
        List.getElem?_cons_zero, Nat.add_zero, distance_events_append,
        distance_events_scan_lt i rest (c + 1) c (by omega), List.append_nil, and_self]
    | succ k =>
      simp only [List.getElem?_cons_succ] at hk
      simp only [reached, List.take_succ_cons, List.all_cons, Bool.and_eq_true] at hreach
      have hr : reached rest k = true := hreach.2
      have h := ih k (c + 1) b input hr hk hen hus hin
      have hidx : c + 1 + k = c + (k + 1) := by omega
      rw [hidx] at h
      have hne : ¬ c = c + (k + 1) := by omega
      simp only [scan_buttons, scan_events]
      by_cases hen0 : b0.enabled = false
      · simp only [if_pos hen0, List.getElem?_cons_succ]; exact h
      · by_cases hus0 : b0.used = false
        · simp only [if_neg hen0, if_pos hus0, List.getElem?_cons_succ]; exact h
        · simp only [if_neg hen0, if_neg hus0]
          cases hin0 : b0.input_dev with
          | none => simp_all
          | some input0 =>
            simp only [List.getElem?_cons_succ, distance_events_append,
              distance_events_button i (c + (k + 1)) c b0 input0, if_neg hne, List.nil_append]
            exact h

theorem scan_skipped (i : Nat) :
    ∀ (l : List buttonInfo) (k c : Nat) (b : buttonInfo),
      l[k]? = some b → (b.enabled = false ∨ b.used = false) →
      (scan_buttons i l)[k]? = some b ∧ distance_events (c + k) (scan_events i c l) = [] := by
  intro l
  induction l with
  | nil => intro k c b hk; simp at hk
  | cons b0 rest ih =>
    intro k c b hk hskip
    cases k with
    | zero =>
      simp only [List.getElem?_cons_zero, Option.some.injEq] at hk
      subst hk
      have hlt := distance_events_scan_lt i rest (c + 1) c (by omega)
      simp only [scan_buttons, scan_events, Nat.add_zero]
      rcases hskip with h | h
      · simp only [if_pos h, List.getElem?_cons_zero, hlt, and_self]
      · by_cases hen0 : b0.enabled = false
        · simp only [if_pos hen0, List.getElem?_cons_zero, hlt, and_self]
        · simp only [if_neg hen0, if_pos h, List.getElem?_cons_zero, hlt, and_self]
    | succ k =>
      simp only [List.getElem?_cons_succ] at hk
      have h := ih k (c + 1) b hk hskip
      have hidx : c + 1 + k = c + (k + 1) := by omega
      rw [hidx] at h
      have hne : ¬ c = c + (k + 1) := by omega
      simp only [scan_buttons, scan_events]
      by_cases hen0 : b0.enabled = false
      · simp only [if_pos hen0, List.getElem?_cons_succ]; exact h
      · by_cases hus0 : b0.used = false
        · simp only [if_neg hen0, if_pos hus0, List.getElem?_cons_succ]; exact h
        · simp only [if_neg hen0, if_neg hus0]
          cases hin0 : b0.input_dev with
          | none => simp [hk, distance_events]
          | some input0 =>
            simp only [List.getElem?_cons_succ, distance_events_append,
              distance_events_button i (c + (k + 1)) c b0 input0, if_neg hne, List.nil_append]
            exact h

theorem next_state_idem (i : Nat) (b : buttonInfo) :
    next_state i { b with state := next_state i b } = next_state i b := by
  unfold next_state
  simp only []
  split_ifs <;> rfl

theorem button_events_eq (i c : Nat) (b : buttonInfo) (input : Nat) :
    button_events i c b input =
      if next_state i b = b.state then []
      else [Effect.input_report_abs c (some input) (next_state i b),
            Effect.input_sync c (some input)] := by
  unfold button_events next_state
  simp only []
  split_ifs <;> simp_all [BODYACTIVE, PROXACTIVE, IDLE]

theorem scan_idem (i : Nat) :
    ∀ (l : List buttonInfo) (c : Nat),
      scan_buttons i (scan_buttons i l) = scan_buttons i l ∧
      scan_events i c (scan_buttons i l) = [] := by
  intro l
  induction l with
  | nil => intro c; simp [scan_buttons, scan_events]
  | cons b rest ih =>
    intro c
    by_cases hen : b.enabled = false
    · simp only [scan_buttons, scan_events, if_pos hen, (ih (c + 1)).2, (ih c).1, and_self]
    · by_cases hus : b.used = false
      · simp only [scan_buttons, if_neg hen, if_pos hus, scan_events, (ih (c + 1)).2,
          (ih c).1, and_self]
      · cases hin : b.input_dev with
        | none => simp [scan_buttons, scan_events, hen, hus, hin]
        | some input =>
          have hb := next_state_idem i b
          rw [hin] at hb
          simp only [scan_buttons, if_neg hen, if_neg hus, hin, scan_events, (ih (c + 1)).2,
            (ih c).1, List.append_nil, button_events_eq, hb, if_true, and_self]

theorem touchProcess_processed (env : Env) (s : Driver) (k : Nat) (b : buttonInfo)
    (input : Nat) (hrun : touch_runs s = true) (hk : s.psmtcButtons[k]? = some b)
    (hreach : reached s.psmtcButtons k = true) (hen : b.enabled = true)
    (hus : b.used = true) (hin : b.input_dev = some input) :
    (touchProcess env s).psmtcButtons[k]? =
        some { b with state := next_state (touch_status env s) b } ∧
      distance_events k (new_calls s (touchProcess env s)) =
        if next_state (touch_status env s) b = b.state then []
        else [(some input, next_state (touch_status env s) b)] := by
  obtain ⟨evs, n, hev, heq⟩ := touchProcess_eq env s
  have hp := scan_processed (touch_status env s) s.psmtcButtons k 0 b input hreach hk hen hus hin
  have htr : (touchProcess env s).trace = s.trace ++ (evs ++
      scan_events (touch_status env s) 0 s.psmtcButtons) := by rw [heq]; simp [hrun]
  have hbs : (touchProcess env s).psmtcButtons =
      scan_buttons (touch_status env s) s.psmtcButtons := by rw [heq]; simp [hrun]
  rw [new_calls_eq s _ _ htr, hbs, distance_events_append,
    distance_events_of_not_input k evs hev]
  simp only [Nat.zero_add] at hp
  rw [hp.1, List.nil_append, hp.2, distance_events_button]
  simp

theorem touchProcess_skipped (env : Env) (s : Driver) (k : Nat) (b : buttonInfo)
    (hk : s.psmtcButtons[k]? = some b) (hskip : b.enabled = false ∨ b.used = false) :
    (touchProcess env s).psmtcButtons[k]? = some b ∧
      distance_events k (new_calls s (touchProcess env s)) = [] := by
  obtain ⟨evs, n, hev, heq⟩ := touchProcess_eq env s
  have hp := scan_skipped (touch_status env s) s.psmtcButtons k 0 b hk hskip
  simp only [Nat.zero_add] at hp
  have htr : (touchProcess env s).trace = s.trace ++ (evs ++
      if touch_runs s then scan_events (touch_status env s) 0 s.psmtcButtons else []) := by
    rw [heq]
  have hbs : (touchProcess env s).psmtcButtons =
      if touch_runs s then scan_buttons (touch_status env s) s.psmtcButtons
      else s.psmtcButtons := by rw [heq]
  rw [new_calls_eq s _ _ htr, hbs, distance_events_append,
    distance_events_of_not_input k evs hev]
  cases hrun : touch_runs s
  · simp [hk, distance_events]
  · simp [hp.1, hp.2]

theorem lor_eq_zero_left (a b : Nat) (h : a ||| b = 0) : a = 0 := by
  apply Nat.eq_of_testBit_eq
  intro j
  have h1 := congrArg (fun x => Nat.testBit x j) h
  simp only [Nat.testBit_lor, Nat.zero_testBit, Bool.or_eq_false_iff] at h1
  simp [h1.1]

/-- C2: for every status word read by `touchProcess` and every button that its loop
reaches and that is enabled, used and has a sink, if the status word masked with
`ProxMask | BodyMask` equals `ProxMask | BodyMask`, the button is in state `BODYACTIVE`
after `touchProcess` (all its other fields as before). -/
theorem C2_body_target (env : Env) (s : Driver) (k : Nat) (b : buttonInfo) (input : Nat)
    (hrun : touch_runs s = true) (hk : s.psmtcButtons[k]? = some b)
    (hreach : reached s.psmtcButtons k = true) (hen : b.enabled = true)
    (hus : b.used = true) (hin : b.input_dev = some input)
    (hS : touch_status env s &&& (b.ProxMask ||| b.BodyMask) = b.ProxMask ||| b.BodyMask) :
    (touchProcess env s).psmtcButtons[k]? = some { b with state := BODYACTIVE } := by
  rw [(touchProcess_processed env s k b input hrun hk hreach hen hus hin).1]
  simp [next_state, hS]

/-- Instance of C2: status word `0x0101` takes channel 0 of the sample table from idle to
body state. -/
theorem C2_body_target_witness :
    (touchProcess (sample_env (ok_reply 1 1)) (sample_driver sample_buttons)).psmtcButtons[0]? =
      some { sample_ch0 with state := BODYACTIVE } :=
  C2_body_target (sample_env (ok_reply 1 1)) (sample_driver sample_buttons) 0 sample_ch0 10
    (by decide) (by decide) (by decide) (by decide) (by decide) (by decide) (by decide)

/-- C3, counterexample: a button whose body mask is empty (`ProxMask = 1`,
`BodyMask = 0`), reached, enabled, used and with a sink, under status word 1: the masked
status equals `ProxMask`, yet `touchProcess` leaves the button in `BODYACTIVE`, not in
`PROXACTIVE`, because the first test of the chain (`== ProxMask | BodyMask`) already
matches. -/
theorem C3_counterexample :
    touch_runs (sample_driver [degenerate_body_button]) = true ∧
    (sample_driver [degenerate_body_button]).psmtcButtons[0]? = some degenerate_body_button ∧
    reached (sample_driver [degenerate_body_button]).psmtcButtons 0 = true ∧
    degenerate_body_button.enabled = true ∧ degenerate_body_button.used = true ∧
    degenerate_body_button.input_dev = some 10 ∧
    touch_status (sample_env (ok_reply 0 1)) (sample_driver [degenerate_body_button]) &&&
        (degenerate_body_button.ProxMask ||| degenerate_body_button.BodyMask) =
      degenerate_body_button.ProxMask ∧
    (touchProcess (sample_env (ok_reply 0 1))
        (sample_driver [degenerate_body_button])).psmtcButtons[0]? =
      some { degenerate_body_button with state := BODYACTIVE } ∧
    (touchProcess (sample_env (ok_reply 0 1))
        (sample_driver [degenerate_body_button])).psmtcButtons[0]? ≠
      some { degenerate_body_button with state := PROXACTIVE } := by
  decide

/-- C3, amended: for every status word read by `touchProcess` and every button that its
loop reaches and that is enabled, used and has a sink, whose body mask has a bit outside
the proximity mask (`ProxMask | BodyMask ≠ ProxMask`): if the status word masked with
`ProxMask | BodyMask` equals `ProxMask`, the button is in state `PROXACTIVE` after
`touchProcess`. -/
theorem C3_prox_target (env : Env) (s : Driver) (k : Nat) (b : buttonInfo) (input : Nat)
    (hrun : touch_runs s = true) (hk : s.psmtcButtons[k]? = some b)
    (hreach : reached s.psmtcButtons k = true) (hen : b.enabled = true)
    (hus : b.used = true) (hin : b.input_dev = some input)
    (hmask : b.ProxMask ||| b.BodyMask ≠ b.ProxMask)
    (hS : touch_status env s &&& (b.ProxMask ||| b.BodyMask) = b.ProxMask) :
    (touchProcess env s).psmtcButtons[k]? = some { b with state := PROXACTIVE } := by
  rw [(touchProcess_processed env s k b input hrun hk hreach hen hus hin).1]
  have h1 : ¬ b.ProxMask = b.ProxMask ||| b.BodyMask := fun h => hmask h.symm
  simp [next_state, hS, h1]

/-- Instance of the amended C3: status word `0x0001` takes channel 0 of the sample table
from idle to proximity state. -/
theorem C3_prox_target_witness :
    (touchProcess (sample_env (ok_reply 0 1)) (sample_driver sample_buttons)).psmtcButtons[0]? =
      some { sample_ch0 with state := PROXACTIVE } :=
  C3_prox_target (sample_env (ok_reply 0 1)) (sample_driver sample_buttons) 0 sample_ch0 10
    (by decide) (by decide) (by decide) (by decide) (by decide) (by decide) (by decide)
    (by decide)

/-- C4, counterexample: a button whose proximity mask is empty (`ProxMask = 0`,
`BodyMask = 0x100`), reached, enabled, used, with a sink and in state `BODYACTIVE`,
under status word 0: the masked status is 0, yet `touchProcess` puts the button in
`PROXACTIVE`, not in `IDLE`, because the test `== ProxMask` comes before the test `== 0`. -/
theorem C4_counterexample :
    touch_runs (sample_driver [empty_prox_button]) = true ∧
    (sample_driver [empty_prox_button]).psmtcButtons[0]? = some empty_prox_button ∧
    reached (sample_driver [empty_prox_button]).psmtcButtons 0 = true ∧
    empty_prox_button.enabled = true ∧ empty_prox_button.used = true ∧
    empty_prox_button.input_dev = some 10 ∧
    touch_status (sample_env (ok_reply 0 0)) (sample_driver [empty_prox_button]) &&&
        (empty_prox_button.ProxMask ||| empty_prox_button.BodyMask) = 0 ∧
    (touchProcess (sample_env (ok_reply 0 0))
        (sample_driver [empty_prox_button])).psmtcButtons[0]? =
      some { empty_prox_button with state := PROXACTIVE } ∧
    (touchProcess (sample_env (ok_reply 0 0))
        (sample_driver [empty_prox_button])).psmtcButtons[0]? ≠
      some { empty_prox_button with state := IDLE } := by
  decide

/-- C4, amended: for every status word read by `touchProcess` and every button that its
loop reaches and that is enabled, used and has a sink, whose proximity mask is not
empty (`ProxMask ≠ 0`): if the status word masked with `ProxMask | BodyMask` is 0, the
button is in state `IDLE` after `touchProcess`. -/
theorem C4_idle_target (env : Env) (s : Driver) (k : Nat) (b : buttonInfo) (input : Nat)
    (hrun : touch_runs s = true) (hk : s.psmtcButtons[k]? = some b)
    (hreach : reached s.psmtcButtons k = true) (hen : b.enabled = true)
    (hus : b.used = true) (hin : b.input_dev = some input)
    (hmask : b.ProxMask ≠ 0)
    (hS : touch_status env s &&& (b.ProxMask ||| b.BodyMask) = 0) :
    (touchProcess env s).psmtcButtons[k]? = some { b with state := IDLE } := by
  rw [(touchProcess_processed env s k b input hrun hk hreach hen hus hin).1]
  have h1 : ¬ (0 : Nat) = b.ProxMask := fun h => hmask h.symm
  have h2 : ¬ (0 : Nat) = b.ProxMask ||| b.BodyMask := by
    intro h
    exact hmask (lor_eq_zero_left _ _ h.symm)
  simp [next_state, hS, h1, h2]

/-- Instance of the amended C4: status word 0 takes channel 2 of the sample table from
body state to idle. -/
theorem C4_idle_target_witness :
    (touchProcess (sample_env (ok_reply 0 0)) (sample_driver sample_buttons)).psmtcButtons[2]? =
      some { sample_ch2 with state := IDLE } :=
  C4_idle_target (sample_env (ok_reply 0 0)) (sample_driver sample_buttons) 2 sample_ch2 12
    (by decide) (by decide) (by decide) (by decide) (by decide) (by decide) (by decide)
    (by decide)

/-- C5: for every status word read by `touchProcess` and every processed button
(reached by the loop, enabled, used, with a sink): if the status word masked with
`ProxMask | BodyMask` is none of `ProxMask | BodyMask`, `ProxMask` and 0, then the
button is the same after `touchProcess` as before (state included) and no distance
event is reported for it. -/
theorem C5_other_combination (env : Env) (s : Driver) (k : Nat) (b : buttonInfo)
    (input : Nat) (hrun : touch_runs s = true) (hk : s.psmtcButtons[k]? = some b)
    (hreach : reached s.psmtcButtons k = true) (hen : b.enabled = true)
    (hus : b.used = true) (hin : b.input_dev = some input)
    (h1 : touch_status env s &&& (b.ProxMask ||| b.BodyMask) ≠ b.ProxMask ||| b.BodyMask)
    (h2 : touch_status env s &&& (b.ProxMask ||| b.BodyMask) ≠ b.ProxMask)
    (h3 : touch_status env s &&& (b.ProxMask ||| b.BodyMask) ≠ 0) :
    (touchProcess env s).psmtcButtons[k]? = some b ∧
      distance_events k (new_calls s (touchProcess env s)) = [] := by
  have hp := touchProcess_processed env s k b input hrun hk hreach hen hus hin
  have hn : next_state (touch_status env s) b = b.state := by
    simp [next_state, h1, h2, h3]
  rw [hp.1, hp.2, hn]
  simp

/-- Instance of C5: status word `0x0100` (body bit without proximity bit) leaves channel
0 of the sample table as it is and reports nothing for it. -/
theorem C5_other_combination_witness :
    (touchProcess (sample_env (ok_reply 1 0)) (sample_driver sample_buttons)).psmtcButtons[0]? =
        some sample_ch0 ∧
      distance_events 0 (new_calls (sample_driver sample_buttons)
        (touchProcess (sample_env (ok_reply 1 0)) (sample_driver sample_buttons))) = [] :=
  C5_other_combination (sample_env (ok_reply 1 0)) (sample_driver sample_buttons) 0
    sample_ch0 10 (by decide) (by decide) (by decide) (by decide) (by decide) (by decide)
    (by decide) (by decide) (by decide)

/-- C6: for every status word and every processed button (reached by the loop,
enabled, used, with sink `input`), `touchProcess` leaves the button with some state
`st` and all other fields as before; if `st` is the state the button had, no distance
event is reported for it; if `st` differs, exactly one distance event is reported for
it, on its sink, with value 0 when `st` is `IDLE`, 1 when `st` is `PROXACTIVE` and 2 when
`st` is `BODYACTIVE`. -/
theorem C6_event_iff_change (env : Env) (s : Driver) (k : Nat) (b : buttonInfo)
    (input : Nat) (hrun : touch_runs s = true) (hk : s.psmtcButtons[k]? = some b)
    (hreach : reached s.psmtcButtons k = true) (hen : b.enabled = true)
    (hus : b.used = true) (hin : b.input_dev = some input) :
    ∃ st : Int,
      (touchProcess env s).psmtcButtons[k]? = some { b with state := st } ∧
      (st = b.state → distance_events k (new_calls s (touchProcess env s)) = []) ∧
      (st ≠ b.state →
        (st = IDLE ∧
          distance_events k (new_calls s (touchProcess env s)) = [(some input, 0)]) ∨
        (st = PROXACTIVE ∧
          distance_events k (new_calls s (touchProcess env s)) = [(some input, 1)]) ∨
        (st = BODYACTIVE ∧
          distance_events k (new_calls s (touchProcess env s)) = [(some input, 2)])) := by
  have hp := touchProcess_processed env s k b input hrun hk hreach hen hus hin
  refine ⟨next_state (touch_status env s) b, hp.1, ?_, ?_⟩
  · intro h
    rw [hp.2, if_pos h]
  · intro h
    rw [hp.2, if_neg h]
    unfold next_state at h ⊢
    simp only [] at h ⊢
    split_ifs at h ⊢
    · right; right; exact ⟨rfl, rfl⟩
    · right; left; exact ⟨rfl, rfl⟩
    · left; exact ⟨rfl, rfl⟩
    · exact absurd rfl h

/-- Instance of C6: on status word `0x0101` channel 0 of the sample table changes state
and gets one report. -/
theorem C6_event_iff_change_witness :
    ∃ st : Int,
      (touchProcess (sample_env (ok_reply 1 1))
        (sample_driver sample_buttons)).psmtcButtons[0]? = some { sample_ch0 with state := st } ∧
      (st = sample_ch0.state → distance_events 0 (new_calls (sample_driver sample_buttons)
        (touchProcess (sample_env (ok_reply 1 1)) (sample_driver sample_buttons))) = []) ∧
      (st ≠ sample_ch0.state →
        (st = IDLE ∧ distance_events 0 (new_calls (sample_driver sample_buttons)
          (touchProcess (sample_env (ok_reply 1 1)) (sample_driver sample_buttons))) =
            [(some 10, 0)]) ∨
        (st = PROXACTIVE ∧ distance_events 0 (new_calls (sample_driver sample_buttons)
          (touchProcess (sample_env (ok_reply 1 1)) (sample_driver sample_buttons))) =
            [(some 10, 1)]) ∨
        (st = BODYACTIVE ∧ distance_events 0 (new_calls (sample_driver sample_buttons)
          (touchProcess (sample_env (ok_reply 1 1)) (sample_driver sample_buttons))) =
            [(some 10, 2)])) :=
  C6_event_iff_change (sample_env (ok_reply 1 1)) (sample_driver sample_buttons) 0
    sample_ch0 10 (by decide) (by decide) (by decide) (by decide) (by decide) (by decide)

theorem touch_runs_touchProcess (env : Env) (s : Driver) :
    touch_runs (touchProcess env s) = touch_runs s := by
  obtain ⟨evs, n, _, heq⟩ := touchProcess_eq env s
  rw [heq]
  rfl

/-- C7: idempotence of `touchProcess`. For every state and every bus behaviour, if a
second run of `touchProcess` straight after a first one reads the same status word, the
second run leaves the whole button table (every state, every flag) as the first run
left it and makes no input call (`input_report_abs`, `input_sync`) at all. -/
theorem C7_idempotent (env : Env) (s : Driver)
    (hS : touch_status env (touchProcess env s) = touch_status env s) :
    (touchProcess env (touchProcess env s)).psmtcButtons = (touchProcess env s).psmtcButtons ∧
      ∀ e ∈ new_calls (touchProcess env s) (touchProcess env (touchProcess env s)),
        e.is_input = false := by
  obtain ⟨evs1, n1, _, heq1⟩ := touchProcess_eq env s
  obtain ⟨evs2, n2, hev2, heq2⟩ := touchProcess_eq env (touchProcess env s)
  have hbs1 : (touchProcess env s).psmtcButtons =
      if touch_runs s then scan_buttons (touch_status env s) s.psmtcButtons
      else s.psmtcButtons := by rw [heq1]
  have hbs2 : (touchProcess env (touchProcess env s)).psmtcButtons =
      if touch_runs s then
        scan_buttons (touch_status env s) (touchProcess env s).psmtcButtons
      else (touchProcess env s).psmtcButtons := by
    rw [heq2, touch_runs_touchProcess, hS]
  have htr2 : (touchProcess env (touchProcess env s)).trace = (touchProcess env s).trace ++
      (evs2 ++ if touch_runs s then
        scan_events (touch_status env s) 0 (touchProcess env s).psmtcButtons else []) := by
    rw [heq2, touch_runs_touchProcess, hS]
  rw [new_calls_eq _ _ _ htr2, hbs2]
  cases hrun : touch_runs s
  · simp only [Bool.false_eq_true, if_false, List.append_nil, true_and]
    exact hev2
  · simp only [hrun, if_true] at hbs1
    simp only [if_true, hbs1, (scan_idem (touch_status env s) s.psmtcButtons 0).1,
      (scan_idem (touch_status env s) s.psmtcButtons 0).2, List.append_nil, true_and]
    exact hev2

/-- Instance of C7: two runs on the sample table with status word `0x0101` both times. -/
theorem C7_idempotent_witness :
    (touchProcess (sample_env (ok_reply 1 1)) (touchProcess (sample_env (ok_reply 1 1))
        (sample_driver sample_buttons))).psmtcButtons =
      (touchProcess (sample_env (ok_reply 1 1)) (sample_driver sample_buttons)).psmtcButtons ∧
      ∀ e ∈ new_calls (touchProcess (sample_env (ok_reply 1 1)) (sample_driver sample_buttons))
          (touchProcess (sample_env (ok_reply 1 1)) (touchProcess (sample_env (ok_reply 1 1))
            (sample_driver sample_buttons))),
        e.is_input = false :=
  C7_idempotent (sample_env (ok_reply 1 1)) (sample_driver sample_buttons) (by decide)

/-- C8: for every status word, `touchProcess` leaves every button whose `enabled` flag
or whose `used` flag is false exactly as it was (state included) and reports no
distance event for it, whatever its mask bits in the status word are and whatever the
device state is. -/
theorem C8_skipped_untouched (env : Env) (s : Driver) (k : Nat) (b : buttonInfo)
    (hk : s.psmtcButtons[k]? = some b) (hskip : b.enabled = false ∨ b.used = false) :
    (touchProcess env s).psmtcButtons[k]? = some b ∧
      distance_events k (new_calls s (touchProcess env s)) = [] :=
  touchProcess_skipped env s k b hk hskip

/-- Instance of C8: channel 1 of the sample table (disabled and unused) under a status
word with all its mask bits set. -/
theorem C8_skipped_untouched_witness :
    (touchProcess (sample_env (ok_reply 0xFF 0xFF))
        (sample_driver sample_buttons)).psmtcButtons[1]? = some sample_ch1 ∧
      distance_events 1 (new_calls (sample_driver sample_buttons)
        (touchProcess (sample_env (ok_reply 0xFF 0xFF)) (sample_driver sample_buttons))) = [] :=
  C8_skipped_untouched (sample_env (ok_reply 0xFF 0xFF)) (sample_driver sample_buttons) 1
    sample_ch1 (by decide) (by decide)

theorem status_bit_iff (status : Int) (counter : Nat) :
    (status >>> counter) % 2 ≠ 0 ↔ status.testBit counter = true := by
  cases status with
  | ofNat m =>
    show (Int.ofNat (m >>> counter)) % 2 ≠ 0 ↔ Nat.testBit m counter = true
    rw [Nat.testBit_to_div_mod, Nat.shiftRight_eq_div_pow]
    simp only [Int.ofNat_eq_coe, decide_eq_true_eq]
    omega
  | negSucc m =>
    show (Int.negSucc (m >>> counter)) % 2 ≠ 0 ↔ (!Nat.testBit m counter) = true
    rw [Nat.testBit_to_div_mod, Nat.shiftRight_eq_div_pow, Int.negSucc_eq]
    simp only [Bool.not_eq_true', decide_eq_false_iff_not]
    omega

theorem worker_dispatch_eq (statusFunc : Nat → Option (Driver → Driver)) (status : Int) :
    ∀ (n counter : Nat) (s : Driver),
      worker_dispatch statusFunc status n counter s =
        run_handlers ((List.range' counter n).filterMap
          (fun i => if status.testBit i then statusFunc i else none)) s := by
  intro n
  induction n with
  | zero => intro counter s; rfl
  | succ n ih =>
    intro counter s
    simp only [worker_dispatch, List.range'_succ, List.filterMap_cons]
    by_cases hbit : status.testBit counter = true
    · have h1 := (status_bit_iff status counter).2 hbit
      simp only [if_pos h1, hbit, if_true]
      cases hf : statusFunc counter with
      | none => simp only [ih]
      | some f => simp only [ih, run_handlers, List.foldl_cons]
    · have h1 : ¬ (status >>> counter) % 2 ≠ 0 := fun h => hbit ((status_bit_iff _ _).1 h)
      simp only [if_neg h1, hbit, if_false, ih]
      rfl

/-- C1: for every status value the status read returns and every dispatch table, one
run of `sx93XX_worker_func` on a non-null work item reads the status once (after the
single line sample of the timer mode, if that mode is on) and then runs exactly the
handlers `statusFunc[i]` for the indices `i` below `MAX_NUM_STATUS_BITS` whose bit `i` is
set in the status and whose slot is non-null, each once, in ascending order of `i`,
before the optional rescheduling of the timer mode. In particular, with eight status
bits, status bits 2, 3, 5 set and handlers in slots 2, 3, 4, 6, the run consists of
handler 2 followed by handler 3. -/
theorem C1_dispatch (env : Env) (refreshStatus : Driver → Int × Driver)
    (statusFunc : Nat → Option (Driver → Driver)) (s : Driver) (d : sx93XX)
    (hthis : s.this = some d) :
    sx93XX_worker_func env refreshStatus statusFunc true s =
        (if d.useIrqTimer && (if d.useIrqTimer then
              (if d.get_nirq_low then sx933x_get_nirq_state env s else (true, s))
            else (false, s)).1 then
          sx93XX_schedule_work (env.msecs_to_jiffies d.irqTimeout)
        else id)
        (run_handlers
          (due_handlers statusFunc
            (refreshStatus (if d.useIrqTimer then
              (if d.get_nirq_low then sx933x_get_nirq_state env s else (true, s))
              else (false, s)).2).1
            env.hdr.MAX_NUM_STATUS_BITS)
          (refreshStatus (if d.useIrqTimer then
              (if d.get_nirq_low then sx933x_get_nirq_state env s else (true, s))
              else (false, s)).2).2) ∧
      (d.useIrqTimer = false →
        sx93XX_worker_func env refreshStatus statusFunc true s =
          run_handlers
            (due_handlers statusFunc (refreshStatus s).1 env.hdr.MAX_NUM_STATUS_BITS)
            (refreshStatus s).2) ∧
      (∀ h2 h3 h4 h6 : Driver → Driver,
        d.useIrqTimer = false → env.hdr.MAX_NUM_STATUS_BITS = 8 →
        (refreshStatus s).1 = 2 ^ 2 + 2 ^ 3 + 2 ^ 5 →
        sx93XX_worker_func env refreshStatus (sample_table h2 h3 h4 h6) true s =
          h3 (h2 (refreshStatus s).2)) := by
  have hgen : ∀ sf : Nat → Option (Driver → Driver),
      d.useIrqTimer = false →
      sx93XX_worker_func env refreshStatus sf true s =
        run_handlers (due_handlers sf (refreshStatus s).1 env.hdr.MAX_NUM_STATUS_BITS)
          (refreshStatus s).2 := by
    intro sf hT
    simp only [sx93XX_worker_func, hthis, if_true, worker_dispatch_eq, due_handlers,
      List.range_eq_range', hT, Bool.false_and, Bool.false_eq_true, if_false]
  refine ⟨?_, hgen statusFunc, ?_⟩
  · simp only [sx93XX_worker_func, hthis, if_true, worker_dispatch_eq, due_handlers,
      List.range_eq_range']
    split_ifs <;> rfl
  · intro h2 h3 h4 h6 hT hmax hst
    rw [hgen _ hT, hmax, hst]
    simp only [due_handlers, run_handlers, sample_table]
    rfl

/-- Instance of C1: the sample device, whose status read yields `0x2C` (bits 2, 3, 5),
with mark handlers in slots 2, 3, 4, 6: the trace shows the read, then handler 2, then
handler 3. -/
theorem C1_dispatch_witness :
    sx93XX_worker_func (sample_env (ok_reply 0 0x2C)) (read_regStat (sample_env (ok_reply 0 0x2C)))
        (sample_table (mark_handler 2) (mark_handler 3) (mark_handler 4) (mark_handler 6))
        true (sample_driver sample_buttons) =
      run_handlers
        (due_handlers
          (sample_table (mark_handler 2) (mark_handler 3) (mark_handler 4) (mark_handler 6))
          (read_regStat (sample_env (ok_reply 0 0x2C)) (sample_driver sample_buttons)).1 8)
        (read_regStat (sample_env (ok_reply 0 0x2C)) (sample_driver sample_buttons)).2 ∧
    (sx93XX_worker_func (sample_env (ok_reply 0 0x2C)) (read_regStat (sample_env (ok_reply 0 0x2C)))
        (sample_table (mark_handler 2) (mark_handler 3) (mark_handler 4) (mark_handler 6))
        true (sample_driver sample_buttons)).trace =
      [Effect.i2c_read [0x40, 0x00], Effect.msleep 2, Effect.msleep 3] :=
  ⟨(C1_dispatch (sample_env (ok_reply 0 0x2C)) (read_regStat (sample_env (ok_reply 0 0x2C)))
      (sample_table (mark_handler 2) (mark_handler 3) (mark_handler 4) (mark_handler 6))
      (sample_driver sample_buttons) sample_dev rfl).2.1 rfl, by decide⟩

theorem Frame.refl (s : Driver) : Frame s s :=
  ⟨rfl, rfl, rfl, rfl, [], by simp, by simp⟩

theorem Frame.trans {s t u : Driver} (h1 : Frame s t) (h2 : Frame t u) : Frame s u := by
  obtain ⟨a1, b1, c1, d1, e1, t1, i1⟩ := h1
  obtain ⟨a2, b2, c2, d2, e2, t2, i2⟩ := h2
  refine ⟨a2.trans a1, b2.trans b1, c2.trans c1, d2.trans d1, e1 ++ e2, ?_, ?_⟩
  · rw [t2, t1, List.append_assoc]
  · intro e he
    rcases List.mem_append.1 he with h | h
    · exact i1 e h
    · exact i2 e h

theorem frame_emit (s : Driver) (es : List Effect) (h : ∀ e ∈ es, e.is_input = false) :
    Frame s (s.emit es) :=
  ⟨rfl, rfl, rfl, rfl, es, rfl, h⟩

theorem frame_read (env : Env) (reg v : Nat) (s : Driver) :
    Frame s (sx933x_i2c_read_16bit env reg v s).2.2 := by
  obtain ⟨evs, n, h, hev⟩ := read_16bit_frame env reg v s
  rw [h]
  exact ⟨rfl, rfl, rfl, rfl, evs, rfl, hev⟩

theorem frame_write (env : Env) (reg v : Nat) (s : Driver) :
    Frame s (sx933x_i2c_write_16bit env reg v s).2 := by
  obtain ⟨evs, n, h, hev⟩ := write_16bit_frame env reg v s
  rw [h]
  exact ⟨rfl, rfl, rfl, rfl, evs, rfl, hev⟩

theorem frame_read_regStat (env : Env) (s : Driver) : Frame s (read_regStat env s).2 := by
  unfold read_regStat
  cases hthis : s.this with
  | none => exact Frame.refl s
  | some d =>
    simp only []
    split_ifs
    · exact frame_read env _ 0 s
    · exact frame_read env _ 0 s

theorem frame_manual_offset_calibration (env : Env) (s : Driver) :
    Frame s (manual_offset_calibration env s).2 :=
  frame_write env _ _ s

theorem frame_reg_init_static (env : Env) :
    ∀ (l : List smtc_reg_data) (s : Driver), Frame s (reg_init_static env l s) := by
  intro l
  induction l with
  | nil => intro s; exact Frame.refl s
  | cons e rest ih =>
    intro s
    exact Frame.trans (frame_write env _ _ s) (ih _)

theorem frame_write_regs (env : Env) :
    ∀ (l : List smtc_reg_data) (s : Driver), Frame s (write_regs env l s) := by
  intro l
  induction l with
  | nil => intro s; exact Frame.refl s
  | cons e rest ih =>
    intro s
    exact Frame.trans (frame_write env _ _ s) (ih _)

theorem frame_headset_backup (env : Env) :
    ∀ (l : List smtc_reg_data) (s : Driver), Frame s (headset_backup env l s).2 := by
  intro l
  induction l with
  | nil => intro s; exact Frame.refl s
  | cons e rest ih =>
    intro s
    exact Frame.trans (frame_read env _ _ s) (ih _)

theorem frame_store_headset_bck (bck : List smtc_reg_data) (s : Driver) :
    Frame s (store_headset_bck bck s) := by
  unfold store_headset_bck
  cases hthis : s.this with
  | none => exact Frame.refl s
  | some d =>
    simp only []
    cases hdev : d.pDevice with
    | none => exact Frame.refl s
    | some pDevice =>
      simp only []
      cases hhw : pDevice.hw with
      | none => exact Frame.refl s
      | some pdata => exact ⟨rfl, rfl, rfl, by simp [hthis], [], by simp, by simp⟩

theorem frame_reg_init (env : Env) (s : Driver) : Frame s (sx933x_reg_init env s) := by
  unfold sx933x_reg_init
  cases hthis : s.this with
  | none => exact ⟨rfl, rfl, rfl, by simp [hthis], [], by simp, by simp⟩
  | some d =>
    simp only []
    cases hdev : d.pDevice with
    | none => exact ⟨rfl, rfl, rfl, by simp [hthis], [], by simp, by simp⟩
    | some pDevice =>
      simp only []
      cases hhw : pDevice.hw with
      | none => exact Frame.refl s
      | some pdata =>
        simp only []
        refine Frame.trans ?_ (frame_write env _ _ _)
        have h1 := frame_reg_init_static env env.hdr.sx933x_i2c_reg_setup s
        have h2 : Frame s (if d.reg_in_dts = true then
            write_regs env pdata.pi2c_reg (reg_init_static env env.hdr.sx933x_i2c_reg_setup s)
            else reg_init_static env env.hdr.sx933x_i2c_reg_setup s) := by
          split_ifs
          · exact Frame.trans h1 (frame_write_regs env _ _)
          · exact h1
        generalize (if d.reg_in_dts = true then
            write_regs env pdata.pi2c_reg (reg_init_static env env.hdr.sx933x_i2c_reg_setup s)
            else reg_init_static env env.hdr.sx933x_i2c_reg_setup s) = s2 at h2 ⊢
        by_cases hc : env.hdr.CONFIG_CAPSENSE_HEADSET_STATE = true
        · simp only [hc, if_true]
          exact Frame.trans h2 (Frame.trans (frame_headset_backup env _ _)
            (frame_store_headset_bck _ _))
        · simp only [hc]
          exact h2

theorem frame_reenable_if_on (env : Env) (temp : Nat) (s : Driver) :
    Frame s (reenable_if_on env temp s) := by
  unfold reenable_if_on
  split_ifs
  · exact frame_write env _ _ s
  · exact Frame.refl s

theorem frame_write_flip_regs (env : Env) (regs : List smtc_reg_data) (s : Driver) :
    Frame s (write_flip_regs env regs s) := by
  unfold write_flip_regs
  exact Frame.trans (frame_read env _ _ s) (Frame.trans (frame_write env _ _ _)
    (Frame.trans (frame_write_regs env _ _) (frame_reenable_if_on env _ _)))

theorem frame_update_flip_regs (env : Env) (data : sx933x_platform_data) (state : Nat)
    (s : Driver) : Frame s (update_flip_regs env data state s) := by
  unfold update_flip_regs
  split_ifs
  · exact frame_write_flip_regs env _ s
  · exact frame_write_flip_regs env _ s
  · exact Frame.refl s

theorem frame_reset_retry (env : Env) :
    ∀ (retry : Nat) (s : Driver), Frame s (reset_retry env retry s) := by
  intro retry
  induction retry with
  | zero => intro s; exact Frame.refl s
  | succ n ih =>
    intro s
    simp only [reset_retry]
    split_ifs
    · exact frame_write env _ _ s
    · exact Frame.trans (frame_write env _ _ s)
        (Frame.trans (frame_emit _ _ (by simp [Effect.is_input])) (ih _))

theorem frame_set_init_busy (v : Int) (s : Driver) : Frame s (set_init_busy v s) := by
  unfold set_init_busy
  cases hthis : s.this with
  | none => exact Frame.refl s
  | some d => exact ⟨rfl, rfl, rfl, by simp [hthis], [], by simp, by simp⟩

theorem frame_incr_reset_count (s : Driver) : Frame s (incr_reset_count s) := by
  unfold incr_reset_count
  cases hthis : s.this with
  | none => exact Frame.refl s
  | some d => exact ⟨rfl, rfl, rfl, by simp [hthis], [], by simp, by simp⟩

theorem frame_call_regulator_enable (env : Env) (s : Driver) :
    Frame s (call_regulator_enable env s).2 :=
  ⟨rfl, rfl, rfl, rfl, [Effect.regulator_enable], rfl, by simp [Effect.is_input]⟩

theorem frame_flip_step (env : Env) (pdata : sx933x_platform_data) (s : Driver) :
    Frame s (if env.hdr.CONFIG_CAPSENSE_FLIP_CAL then
      update_flip_regs env pdata pdata.phone_flip_state s else s) := by
  split_ifs
  · exact frame_update_flip_regs env _ _ _
  · exact Frame.refl _

theorem frame_reinitialize_body (env : Env) (pdata : sx933x_platform_data) (s : Driver) :
    Frame s (reinitialize_body env pdata s) := by
  unfold reinitialize_body
  simp only []
  refine Frame.trans ?_ (frame_incr_reset_count _)
  refine Frame.trans ?_ (frame_set_init_busy 0 _)
  refine Frame.trans ?_ (frame_manual_offset_calibration env _)
  refine Frame.trans ?_ (frame_reenable_if_on env _ _)
  refine Frame.trans ?_ (frame_read env _ 0 _)
  refine Frame.trans ?_ (frame_read_regStat env _)
  refine Frame.trans ?_ (frame_emit _ [Effect.enable_irq] (by simp [Effect.is_input]))
  refine Frame.trans ?_ (frame_flip_step env pdata _)
  refine Frame.trans ?_ (frame_reg_init env _)
  refine Frame.trans ?_ (frame_emit _ [Effect.msleep 100] (by simp [Effect.is_input]))
  refine Frame.trans ?_ (frame_reset_retry env 10 _)
  refine Frame.trans ?_ (frame_emit _ [Effect.msleep 100] (by simp [Effect.is_input]))
  refine Frame.trans ?_ (frame_call_regulator_enable env _)
  exact frame_emit s [Effect.disable_irq, Effect.regulator_disable, Effect.msleep 100]
    (by simp [Effect.is_input])

theorem frame_reinitialize (env : Env) (s : Driver) :
    Frame { s with reinit_calls := s.reinit_calls + 1 } ( sx933x_reinitialize env s) := by
  unfold sx933x_reinitialize
  simp only []
  cases hthis : s.this with
  | none => exact Frame.refl _
  | some d =>
    simp only []
    cases hdev : d.pDevice with
    | none => exact Frame.refl _
    | some pDevice =>
      simp only []
      cases hhw : pDevice.hw with
      | none => exact Frame.refl _
      | some pdata =>
        simp only []
        split_ifs
        · exact Frame.refl _
        · exact Frame.refl _
        · exact Frame.trans (frame_set_init_busy _ _) (frame_reinitialize_body env pdata _)

theorem watchdog_step (env : Env) (s : Driver) (d : sx93XX) (hthis : s.this = some d)
    (hs : d.suspended = false) :
    (sx933x_i2c_watchdog_work env s).this.map (fun x => x.suspended) = some false ∧
    (sx933x_i2c_watchdog_work env s).err_cnt =
      (if probe_fails env s = true then (if 3 ≤ s.err_cnt + 1 then 0 else s.err_cnt + 1)
       else 0) ∧
    (sx933x_i2c_watchdog_work env s).reinit_calls =
      s.reinit_calls + (if probe_fails env s = true ∧ 3 ≤ s.err_cnt + 1 then 1 else 0) ∧
    (sx933x_i2c_watchdog_work env s).psmtcButtons = s.psmtcButtons := by
  obtain ⟨a, b, c, e, _⟩ := frame_read env env.hdr.SX933X_INFO_REG 0 s
  have hsus : s.this.map (fun x => x.suspended) = some false := by simp [hthis, hs]
  unfold sx933x_i2c_watchdog_work probe_fails
  simp only [hthis, hs, if_true, decide_eq_true_eq]
  by_cases hf : (sx933x_i2c_read_16bit env env.hdr.SX933X_INFO_REG 0 s).1 < 0
  · simp only [hf, if_true, b]
    by_cases h3 : (3 : Int) ≤ s.err_cnt + 1
    · simp only [h3, if_true, and_self, Driver.emit]
      obtain ⟨a2, b2, c2, e2, _⟩ := frame_reinitialize env
        { (sx933x_i2c_read_16bit env env.hdr.SX933X_INFO_REG 0 s).2.2 with err_cnt := 0 }
      simp only [] at a2 b2 c2 e2
      refine ⟨?_, b2, ?_, ?_⟩
      · rw [e2, e, hsus]
      · rw [c2, c]
      · rw [a2, a]
    · simp only [h3, if_false, and_false, Driver.emit, Nat.add_zero]
      exact ⟨by rw [e, hsus], trivial, c, a⟩
  · have h30 : ¬ (3 : Int) ≤ 0 := by norm_num
    simp only [hf, if_false, false_and, Driver.emit, Nat.add_zero, h30]
    exact ⟨by rw [e, hsus], trivial, c, a⟩

theorem watchdog_run_inv (env : Env) (s : Driver) (d : sx93XX) (hthis : s.this = some d)
    (hs : d.suspended = false) (hcnt : s.err_cnt = 0) :
    ∀ k, (watchdog_run env s k).this.map (fun x => x.suspended) = some false ∧
      ((watchdog_run env s k).err_cnt = 0 ∨ (watchdog_run env s k).err_cnt = 1 ∨
        (watchdog_run env s k).err_cnt = 2) := by
  intro k
  induction k with
  | zero => exact ⟨by simp [watchdog_run, hthis, hs], Or.inl hcnt⟩
  | succ k ih =>
    obtain ⟨hsus, hc⟩ := ih
    cases hthis2 : (watchdog_run env s k).this with
    | none => simp [hthis2] at hsus
    | some d2 =>
      have hs2 : d2.suspended = false := by simpa [hthis2] using hsus
      obtain ⟨h1, h2, _, _⟩ := watchdog_step env (watchdog_run env s k) d2 hthis2 hs2
      refine ⟨h1, ?_⟩
      have hrun : watchdog_run env s (k + 1) =
          sx933x_i2c_watchdog_work env (watchdog_run env s k) := rfl
      rw [hrun, h2]
      rcases hc with h | h | h <;> rw [h] <;>
        cases probe_fails env (watchdog_run env s k) <;> simp

theorem watchdog_run_step (env : Env) (s : Driver) (d : sx93XX) (hthis : s.this = some d)
    (hs : d.suspended = false) (hcnt : s.err_cnt = 0) (k : Nat) :
    (watchdog_run env s (k + 1)).err_cnt =
        (if fails_at env s k = true then
          (if (watchdog_run env s k).err_cnt = 2 then 0
           else (watchdog_run env s k).err_cnt + 1)
         else 0) ∧
      (triggers_at env s k ↔ fails_at env s k = true ∧ (watchdog_run env s k).err_cnt = 2) ∧
      (¬ triggers_at env s k →
        (watchdog_run env s (k + 1)).reinit_calls = (watchdog_run env s k).reinit_calls) := by
  obtain ⟨hsus, hc⟩ := watchdog_run_inv env s d hthis hs hcnt k
  cases hthis2 : (watchdog_run env s k).this with
  | none => simp [hthis2] at hsus
  | some d2 =>
    have hs2 : d2.suspended = false := by simpa [hthis2] using hsus
    obtain ⟨_, h2, h3, _⟩ := watchdog_step env (watchdog_run env s k) d2 hthis2 hs2
    have h32 : (3 : Int) ≤ (watchdog_run env s k).err_cnt + 1 ↔
        (watchdog_run env s k).err_cnt = 2 := by
      rcases hc with h | h | h <;> rw [h] <;> norm_num
    unfold triggers_at fails_at
    show (sx933x_i2c_watchdog_work env (watchdog_run env s k)).err_cnt = _ ∧
      ((sx933x_i2c_watchdog_work env (watchdog_run env s k)).reinit_calls = _ ↔ _) ∧
      (¬ (sx933x_i2c_watchdog_work env (watchdog_run env s k)).reinit_calls = _ →
        (sx933x_i2c_watchdog_work env (watchdog_run env s k)).reinit_calls = _)
    rw [h2, h3]
    simp only [h32]
    refine ⟨trivial, ?_, ?_⟩
    · split_ifs with h
      · simp [h]
      · simp [h]
    · split_ifs with h
      · simp
      · simp

/-- C10: on a device that is not suspended and starts with failure counter 0, along
every run of consecutive invocations of `sx933x_i2c_watchdog_work` and for every
pattern of probe outcomes: invocation `k` enters `sx933x_reinitialize` if and only if
its probe fails and it is the third failure in a row counted from the start, from the
last successful probe or from the last invocation that entered reinitialization
(probes `k`, `k-1`, `k-2` fail, and what precedes probe `k-2` is the start, a success or
an entry into reinitialization); an invocation that does not enter leaves the entry
count unchanged; a successful probe leaves the counter at 0; a failure at the start or
right after a success leaves it at 1 (so fail, success, fail gives 1); and the second
failure in a row never enters reinitialization and leaves the counter at 2. -/
theorem C10_watchdog_escalation (env : Env) (s : Driver) (d : sx93XX)
    (hthis : s.this = some d) (hs : d.suspended = false) (hcnt : s.err_cnt = 0) (k : Nat) :
    (triggers_at env s k ↔
      fails_at env s k = true ∧
      ∃ j, k = j + 2 ∧ fails_at env s (j + 1) = true ∧ fails_at env s j = true ∧
        (j = 0 ∨ fails_at env s (j - 1) = false ∨ triggers_at env s (j - 1))) ∧
    (¬ triggers_at env s k →
      (watchdog_run env s (k + 1)).reinit_calls = (watchdog_run env s k).reinit_calls) ∧
    (fails_at env s k = false → (watchdog_run env s (k + 1)).err_cnt = 0) ∧
    (fails_at env s k = true → (k = 0 ∨ fails_at env s (k - 1) = false) →
      (watchdog_run env s (k + 1)).err_cnt = 1) ∧
    (fails_at env s k = true → 1 ≤ k → fails_at env s (k - 1) = true →
      (k = 1 ∨ fails_at env s (k - 2) = false) →
      ¬ triggers_at env s k ∧ (watchdog_run env s (k + 1)).err_cnt = 2) := by
  have step := watchdog_run_step env s d hthis hs hcnt
  have inv := watchdog_run_inv env s d hthis hs hcnt
  have c0 : (watchdog_run env s 0).err_cnt = 0 := hcnt
  obtain ⟨hk1, hk2, hk3⟩ := step k
  refine ⟨?_, hk3, ?_, ?_, ?_⟩
  · rw [hk2]
    match k, hk1, hk2, hk3 with
    | 0, _, _, _ => simp [c0]
    | 1, _, _, _ =>
      have h0 := (step 0).1
      rw [c0] at h0
      constructor
      · rintro ⟨_, h2⟩
        rw [h0] at h2
        split_ifs at h2 <;> simp at h2
      · rintro ⟨_, j, hj, _⟩
        omega
    | j + 2, _, _, _ =>
      have h1 := (step (j + 1)).1
      have h0 : (watchdog_run env s (j + 1)).err_cnt = 1 ↔
          fails_at env s j = true ∧ (watchdog_run env s j).err_cnt = 0 := by
        rw [(step j).1]
        rcases (inv j).2 with h | h | h <;> rw [h] <;> split_ifs <;> simp_all
      have h2 : (watchdog_run env s (j + 2)).err_cnt = 2 ↔
          fails_at env s (j + 1) = true ∧ (watchdog_run env s (j + 1)).err_cnt = 1 := by
        rw [h1]
        rcases (inv (j + 1)).2 with h | h | h <;> rw [h] <;> split_ifs <;> simp_all
      have hz : (watchdog_run env s j).err_cnt = 0 ↔
          (j = 0 ∨ fails_at env s (j - 1) = false ∨ triggers_at env s (j - 1)) := by
        cases j with
        | zero => simp [c0]
        | succ i =>
          simp only [Nat.add_sub_cancel, Nat.succ_ne_zero, false_or, Nat.add_eq_zero,
            one_ne_zero, and_false]
          rw [(step i).1, (step i).2.1]
          rcases (inv i).2 with h | h | h <;> rw [h] <;>
            cases hf : fails_at env s i <;> simp
      rw [h2, h0, hz]
      constructor
      · rintro ⟨hf, hf1, hf0, hrest⟩
        exact ⟨hf, j, rfl, hf1, hf0, hrest⟩
      · rintro ⟨hf, j2, hj, hf1, hf0, hrest⟩
        have : j2 = j := by omega
        subst this
        exact ⟨hf, hf1, hf0, hrest⟩
  · intro hf
    rw [hk1, hf]
    simp
  · intro hf hprev
    rw [hk1, if_pos hf]
    have hz : (watchdog_run env s k).err_cnt = 0 := by
      cases k with
      | zero => exact c0
      | succ i =>
        rcases hprev with h | h
        · omega
        · simp only [Nat.add_sub_cancel] at h
          rw [(step i).1, h]
          simp
    rw [hz]
    norm_num
  · intro hf hk hprev hprev2
    obtain ⟨i, rfl⟩ : ∃ i, k = i + 1 := ⟨k - 1, by omega⟩
    simp only [Nat.add_sub_cancel] at hprev
    have hz : (watchdog_run env s i).err_cnt = 0 := by
      cases i with
      | zero => exact c0
      | succ i2 =>
        rcases hprev2 with h | h
        · omega
        · have h5 : fails_at env s i2 = false := by simpa using h
          rw [(step i2).1, h5]
          simp
    have h1 : (watchdog_run env s (i + 1)).err_cnt = 1 := by
      rw [(step i).1, if_pos hprev, hz]
      norm_num
    refine ⟨?_, ?_⟩
    · rw [hk2, h1]
      simp
    · rw [hk1, if_pos hf, h1]
      norm_num

/-- Instance of C10: with every bus transfer failing, the third invocation (number 2)
is characterised by the theorem, and it is the first to enter reinitialization; with
transfers 0 and 2 failing and transfer 1 succeeding (fail, success, fail) the counter
is 1 after the third invocation and reinitialization was never entered. -/
theorem C10_watchdog_escalation_witness :
    (triggers_at (flaky_env (fun _ => true)) (sample_driver sample_buttons) 2 ↔
      fails_at (flaky_env (fun _ => true)) (sample_driver sample_buttons) 2 = true ∧
      ∃ j, 2 = j + 2 ∧
        fails_at (flaky_env (fun _ => true)) (sample_driver sample_buttons) (j + 1) = true ∧
        fails_at (flaky_env (fun _ => true)) (sample_driver sample_buttons) j = true ∧
        (j = 0 ∨
          fails_at (flaky_env (fun _ => true)) (sample_driver sample_buttons) (j - 1) = false ∨
          triggers_at (flaky_env (fun _ => true)) (sample_driver sample_buttons) (j - 1))) ∧
    (watchdog_run (flaky_env (fun _ => true)) (sample_driver sample_buttons) 2).reinit_calls = 0 ∧
    (watchdog_run (flaky_env (fun _ => true)) (sample_driver sample_buttons) 3).reinit_calls = 1 ∧
    (watchdog_run (flaky_env (fun k => k == 0 || k == 2))
      (sample_driver sample_buttons) 3).err_cnt = 1 ∧
    (watchdog_run (flaky_env (fun k => k == 0 || k == 2))
      (sample_driver sample_buttons) 3).reinit_calls = 0 :=
  ⟨(C10_watchdog_escalation (flaky_env (fun _ => true)) (sample_driver sample_buttons)
      sample_dev rfl rfl rfl 2).1, by decide, by decide, by decide, by decide⟩

theorem cap_events_lt (name : String) (enable : Nat) :
    ∀ (l : List buttonInfo) (c k : Nat), k < c → cap_events name enable c l k = [] := by
  intro l
  induction l with
  | nil => intro c k _; rfl
  | cons b rest ih =>
    intro c k hk
    have hne : ¬ c = k := by omega
    simp only [cap_events, if_neg hne, List.nil_append]
    exact ih (c + 1) k (by omega)

theorem cap_events_get (name : String) (enable : Nat) :
    ∀ (l : List buttonInfo) (c k : Nat) (b : buttonInfo), l[k]? = some b →
      cap_events name enable c l (c + k) = cap_distance name enable b := by
  intro l
  induction l with
  | nil => intro c k b hk; simp at hk
  | cons b0 rest ih =>
    intro c k b hk
    cases k with
    | zero =>
      simp only [List.getElem?_cons_zero, Option.some.injEq] at hk
      subst hk
      simp only [cap_events, Nat.add_zero, if_true,
        cap_events_lt name enable rest (c + 1) c (by omega), List.append_nil]
    | succ k =>
      simp only [List.getElem?_cons_succ] at hk
      have hne : ¬ c = c + (k + 1) := by omega
      have hidx : c + 1 + k = c + (k + 1) := by omega
      simp only [cap_events, if_neg hne, List.nil_append]
      rw [← hidx]
      exact ih (c + 1) k b hk

theorem cap_loop_eq (env : Env) (name : String) (enable : Nat) :
    ∀ (post pre : List buttonInfo) (s : Driver) (temp : Nat),
      s.psmtcButtons = pre ++ post →
      (capsensor_set_enable_loop env name enable post.length pre.length temp s).2.psmtcButtons =
          pre ++ post.map (cap_button name enable) ∧
        ∃ evs, (capsensor_set_enable_loop env name enable post.length pre.length temp s).2.trace =
            s.trace ++ evs ∧
          ∀ k, distance_events k evs = cap_events name enable pre.length post k := by
  intro post
  induction post with
  | nil =>
    intro pre s temp hs
    simp only [List.length_nil, capsensor_set_enable_loop, List.map_nil, List.append_nil]
    rw [List.append_nil] at hs
    exact ⟨hs, [], by simp, fun k => rfl⟩
  | cons b rest ih =>
    intro pre s temp hs
    have hget : s.psmtcButtons[pre.length]? = some b := by
      rw [hs, List.getElem?_append_right (le_refl _)]; simp
    have hset : ∀ b1 : buttonInfo, s.psmtcButtons.set pre.length b1 = (pre ++ [b1]) ++ rest := by
      intro b1; rw [hs]; simp
    have hlen : ∀ b1 : buttonInfo, (pre ++ [b1]).length = pre.length + 1 := by
      intro b1; simp
    have hsame : s.psmtcButtons = (pre ++ [b]) ++ rest := by rw [hs]; simp
    simp only [List.length_cons, capsensor_set_enable_loop, hget, List.map_cons, cap_events]
    by_cases hname : name = b.name
    · by_cases h1 : enable = 1
      · simp only [if_pos hname, if_pos h1]
        obtain ⟨a1, _, _, _, e1, t1, i1⟩ :=
          frame_read env env.hdr.SX933X_GNRLCTRL2_REG temp s
        obtain ⟨a2, _, _, _, e2, t2, i2⟩ :=
          frame_write env env.hdr.SX933X_GNRLCTRL2_REG
            ((sx933x_i2c_read_16bit env env.hdr.SX933X_GNRLCTRL2_REG temp s).2.1 ||| 0x0000001F)
            (sx933x_i2c_read_16bit env env.hdr.SX933X_GNRLCTRL2_REG temp s).2.2
        generalize (sx933x_i2c_write_16bit env env.hdr.SX933X_GNRLCTRL2_REG
            ((sx933x_i2c_read_16bit env env.hdr.SX933X_GNRLCTRL2_REG temp s).2.1 ||| 0x0000001F)
            (sx933x_i2c_read_16bit env env.hdr.SX933X_GNRLCTRL2_REG temp s).2.2).2 = s1
          at a2 t2 ⊢
        generalize ((sx933x_i2c_read_16bit env env.hdr.SX933X_GNRLCTRL2_REG temp s).2.1
          ||| 0x0000001F) = temp1
        obtain ⟨a3, _, _, _, e3, t3, i3⟩ := frame_manual_offset_calibration env
          (Driver.emit (set_enabled pre.length b true s1)
            [Effect.input_report_abs pre.length b.input_dev 0,
             Effect.input_sync pre.length b.input_dev])
        generalize (manual_offset_calibration env
          (Driver.emit (set_enabled pre.length b true s1)
            [Effect.input_report_abs pre.length b.input_dev 0,
             Effect.input_sync pre.length b.input_dev])).2 = s4 at a3 t3 ⊢
        simp only [Driver.emit, set_enabled] at a3 t3
        have hb4 : s4.psmtcButtons = (pre ++ [{ b with enabled := true }]) ++ rest := by
          rw [a3, a2, a1, hset]
        obtain ⟨hB, evs, hT, hD⟩ := ih (pre ++ [{ b with enabled := true }]) s4 temp1 hb4
        rw [hlen] at hB hT hD
        refine ⟨?_, e1 ++ e2 ++ [Effect.input_report_abs pre.length b.input_dev 0,
          Effect.input_sync pre.length b.input_dev] ++ e3 ++ evs, ?_, ?_⟩
        · rw [hB]; simp [cap_button, hname, h1]
        · rw [hT, t3, t2, t1]; simp
        · intro k
          simp only [distance_events_append, distance_events_of_not_input k e1 i1,
            distance_events_of_not_input k e2 i2, distance_events_of_not_input k e3 i3, hD,
            List.nil_append, List.append_nil, distance_events, cap_distance, if_pos hname,
            if_pos h1]
      · by_cases h0 : enable = 0
        · simp only [if_pos hname, if_neg h1, if_pos h0]
          have hb4 : (Driver.emit (set_enabled pre.length b false s)
              [Effect.input_report_abs pre.length b.input_dev (-1),
               Effect.input_sync pre.length b.input_dev]).psmtcButtons =
              (pre ++ [{ b with enabled := false }]) ++ rest := hset _
          obtain ⟨hB, evs, hT, hD⟩ := ih (pre ++ [{ b with enabled := false }]) _ temp hb4
          rw [hlen] at hB hT hD
          refine ⟨?_, [Effect.input_report_abs pre.length b.input_dev (-1),
            Effect.input_sync pre.length b.input_dev] ++ evs, ?_, ?_⟩
          · rw [hB]; simp [cap_button, hname, h1, h0]
          · rw [hT]; simp [Driver.emit, set_enabled]
          · intro k
            simp only [distance_events_append, hD, distance_events, cap_distance,
              if_pos hname, if_neg h1, if_pos h0]
            split_ifs <;> simp [hD]
        · simp only [if_pos hname, if_neg h1, if_neg h0]
          obtain ⟨hB, evs, hT, hD⟩ := ih (pre ++ [b]) s temp hsame
          rw [hlen] at hB hT hD
          refine ⟨?_, evs, hT, ?_⟩
          · rw [hB]; simp [cap_button, hname, h1, h0]
          · intro k
            simp only [hD, cap_distance, if_pos hname, if_neg h1, if_neg h0, ite_self,
              List.nil_append]
    · simp only [if_neg hname]
      obtain ⟨hB, evs, hT, hD⟩ := ih (pre ++ [b]) s temp hsame
      rw [hlen] at hB hT hD
      refine ⟨?_, evs, hT, ?_⟩
      · rw [hB]; simp [cap_button, hname]
      · intro k
        simp only [hD, cap_distance, if_neg hname, ite_self, List.nil_append]

theorem cap_eq (env : Env) (name : String) (enable : Nat) (s : Driver) :
    (capsensor_set_enable env name enable s).2.psmtcButtons =
        s.psmtcButtons.map (cap_button name enable) ∧
      ∃ evs, (capsensor_set_enable env name enable s).2.trace = s.trace ++ evs ∧
        ∀ k, distance_events k evs = cap_events name enable 0 s.psmtcButtons k := by
  obtain ⟨hB, evs, hT, hD⟩ := cap_loop_eq env name enable s.psmtcButtons [] s 0 (by simp)
  simp only [List.length_nil, List.nil_append] at hB hT hD
  unfold capsensor_set_enable
  simp only []
  generalize capsensor_set_enable_loop env name enable s.psmtcButtons.length 0 0 s = l
    at hB hT ⊢
  split_ifs
  · exact ⟨hB, evs, hT, hD⟩
  · have hF : Frame l.2 (sx933x_i2c_write_16bit env env.hdr.SX933X_GNRLCTRL2_REG
        ((sx933x_i2c_read_16bit env env.hdr.SX933X_GNRLCTRL2_REG l.1 l.2).2.1 &&& 0xFFFFFFE0)
        (sx933x_i2c_read_16bit env env.hdr.SX933X_GNRLCTRL2_REG l.1 l.2).2.2).2 :=
      Frame.trans (frame_read env env.hdr.SX933X_GNRLCTRL2_REG l.1 l.2)
        (frame_write env env.hdr.SX933X_GNRLCTRL2_REG _ _)
    obtain ⟨a, _, _, _, e2, t2, i2⟩ := hF
    refine ⟨a.trans hB, evs ++ e2, ?_, ?_⟩
    · rw [t2, hT, List.append_assoc]
    · intro k
      rw [distance_events_append, distance_events_of_not_input k e2 i2, List.append_nil, hD]

theorem cap_button_at (env : Env) (name : String) (enable : Nat) (s : Driver) (k : Nat)
    (b : buttonInfo) (hk : s.psmtcButtons[k]? = some b) :
    (capsensor_set_enable env name enable s).2.psmtcButtons[k]? =
        some (cap_button name enable b) ∧
      distance_events k (new_calls s (capsensor_set_enable env name enable s).2) =
        cap_distance name enable b := by
  obtain ⟨hB, evs, hT, hD⟩ := cap_eq env name enable s
  rw [new_calls_eq s _ evs hT, hB, hD]
  refine ⟨by simp [hk], ?_⟩
  have h := cap_events_get name enable s.psmtcButtons 0 k b hk
  rwa [Nat.zero_add] at h

theorem reinitialize_buttons (env : Env) (s : Driver) (k : Nat) :
    ( sx933x_reinitialize env s).psmtcButtons = s.psmtcButtons ∧
      distance_events k (new_calls s ( sx933x_reinitialize env s)) = [] := by
  obtain ⟨a, _, _, _, evs, t, i⟩ := frame_reinitialize env s
  exact ⟨a, by rw [new_calls_eq s _ evs t]; exact distance_events_of_not_input k evs i⟩

/-- C9: over `touchProcess`, `capsensor_set_enable` and `sx933x_reinitialize`, a button
whose `used` flag is false keeps its state (and its `used` flag) and no distance event
is reported for it. `capsensor_set_enable` is the enable callback of a sensor class
device, which probe registers for used buttons only and under the name of the button
(lines 1447-1480): the sensor name of a call is the name of used buttons only. -/
theorem C9_unused_invariant (env : Env) (s : Driver) (name : String) (enable : Nat)
    (k : Nat) (b : buttonInfo) (hk : s.psmtcButtons[k]? = some b) (hused : b.used = false)
    (hcall : ∀ b1 ∈ s.psmtcButtons, name = b1.name → b1.used = true) :
    ((touchProcess env s).psmtcButtons[k]? = some b ∧
      distance_events k (new_calls s (touchProcess env s)) = []) ∧
    ((capsensor_set_enable env name enable s).2.psmtcButtons[k]? = some b ∧
      distance_events k (new_calls s (capsensor_set_enable env name enable s).2) = []) ∧
    (( sx933x_reinitialize env s).psmtcButtons[k]? = some b ∧
      distance_events k (new_calls s ( sx933x_reinitialize env s)) = []) := by
  have hne : name ≠ b.name := by
    intro h
    have := hcall b (List.mem_iff_getElem?.2 ⟨k, hk⟩) h
    rw [hused] at this
    exact Bool.false_ne_true this
  refine ⟨touchProcess_skipped env s k b hk (Or.inr hused), ⟨?_, ?_⟩, ?_⟩
  · rw [(cap_button_at env name enable s k b hk).1]
    simp [cap_button, hne]
  · rw [(cap_button_at env name enable s k b hk).2]
    simp [cap_distance, hne]
  · rw [(reinitialize_buttons env s k).1]
    exact ⟨hk, (reinitialize_buttons env s k).2⟩

/-- Instance of C9: the unused channel 1 of the sample table, with `capsensor_set_enable`
called for the name of the used channel 0. -/
theorem C9_unused_invariant_witness :
    ((touchProcess (sample_env (ok_reply 1 1)) (sample_driver sample_buttons)).psmtcButtons[1]? =
        some sample_ch1 ∧
      distance_events 1 (new_calls (sample_driver sample_buttons)
        (touchProcess (sample_env (ok_reply 1 1)) (sample_driver sample_buttons))) = []) ∧
    ((capsensor_set_enable (sample_env (ok_reply 1 1)) "ch0" 1
          (sample_driver sample_buttons)).2.psmtcButtons[1]? = some sample_ch1 ∧
      distance_events 1 (new_calls (sample_driver sample_buttons)
        (capsensor_set_enable (sample_env (ok_reply 1 1)) "ch0" 1
          (sample_driver sample_buttons)).2) = []) ∧
    (( sx933x_reinitialize (sample_env (ok_reply 1 1))
        (sample_driver sample_buttons)).psmtcButtons[1]? = some sample_ch1 ∧
      distance_events 1 (new_calls (sample_driver sample_buttons)
        ( sx933x_reinitialize (sample_env (ok_reply 1 1)) (sample_driver sample_buttons))) = []) :=
  C9_unused_invariant (sample_env (ok_reply 1 1)) (sample_driver sample_buttons) "ch0" 1 1
    sample_ch1 (by decide) (by decide) (by decide)

/-- C11: a call of `sx933x_reinitialize` on a device whose token `init_busy` is 1 changes
nothing but the auxiliary entry counter: it makes no kernel call at all (no interrupt
disable or enable, no regulator action, no bus transfer), consumes no bus or regulator
answer, and leaves the device object as it was, so `init_busy` stays 1 and `reset_count`
keeps its value; the button table is untouched too. -/
theorem C11_reinit_dropped (env : Env) (s : Driver) (d : sx93XX) (hthis : s.this = some d)
    (hbusy : d.init_busy = 1) :
    sx933x_reinitialize env s = { s with reinit_calls := s.reinit_calls + 1 } ∧
    new_calls s ( sx933x_reinitialize env s) = [] ∧
    ( sx933x_reinitialize env s).busCalls = s.busCalls ∧
    ( sx933x_reinitialize env s).regulatorCalls = s.regulatorCalls ∧
    ( sx933x_reinitialize env s).this = some d ∧
    ( sx933x_reinitialize env s).psmtcButtons = s.psmtcButtons := by
  have h : sx933x_reinitialize env s = { s with reinit_calls := s.reinit_calls + 1 } := by
    unfold sx933x_reinitialize
    simp only [hthis]
    cases hdev : d.pDevice with
    | none => rfl
    | some pDevice =>
      simp only []
      cases hhw : pDevice.hw with
      | none => rfl
      | some pdata =>
        simp only [hbusy, if_true]
        split_ifs <;> rfl
  rw [h]
  exact ⟨rfl, by simp [new_calls], rfl, rfl, hthis, rfl⟩

/-- Instance of C11: the sample device with `init_busy` equal to 1. -/
theorem C11_reinit_dropped_witness :
    sx933x_reinitialize (sample_env (ok_reply 0 0)) (driver_of busy_dev) =
      { driver_of busy_dev with reinit_calls := (driver_of busy_dev).reinit_calls + 1 } ∧
    new_calls (driver_of busy_dev)
      ( sx933x_reinitialize (sample_env (ok_reply 0 0)) (driver_of busy_dev)) = [] ∧
    ( sx933x_reinitialize (sample_env (ok_reply 0 0)) (driver_of busy_dev)).busCalls =
      (driver_of busy_dev).busCalls ∧
    ( sx933x_reinitialize (sample_env (ok_reply 0 0)) (driver_of busy_dev)).regulatorCalls =
      (driver_of busy_dev).regulatorCalls ∧
    ( sx933x_reinitialize (sample_env (ok_reply 0 0)) (driver_of busy_dev)).this =
      some busy_dev ∧
    ( sx933x_reinitialize (sample_env (ok_reply 0 0)) (driver_of busy_dev)).psmtcButtons =
      (driver_of busy_dev).psmtcButtons :=
  C11_reinit_dropped (sample_env (ok_reply 0 0)) (driver_of busy_dev) busy_dev rfl rfl

/-- C17: on a device whose `suspended` flag is set, one invocation of
`sx933x_i2c_watchdog_work` makes exactly one kernel call, the rescheduling of itself
with the nominal period of 10000 ms: no bus transfer is made and no bus answer
consumed, `sx933x_reinitialize` is not entered, and the failure counter, the device
object and the button table keep their values. -/
theorem C17_suspended_watchdog (env : Env) (s : Driver) (d : sx93XX)
    (hthis : s.this = some d) (hs : d.suspended = true) :
    sx933x_i2c_watchdog_work env s = s.emit [Effect.schedule_watchdog 10000] ∧
    new_calls s (sx933x_i2c_watchdog_work env s) = [Effect.schedule_watchdog 10000] ∧
    (sx933x_i2c_watchdog_work env s).busCalls = s.busCalls ∧
    (sx933x_i2c_watchdog_work env s).reinit_calls = s.reinit_calls ∧
    (sx933x_i2c_watchdog_work env s).err_cnt = s.err_cnt ∧
    (sx933x_i2c_watchdog_work env s).this = some d := by
  have h : sx933x_i2c_watchdog_work env s = s.emit [Effect.schedule_watchdog 10000] := by
    unfold sx933x_i2c_watchdog_work
    simp [hthis, hs, SX933X_I2C_WATCHDOG_TIME]
  rw [h]
  exact ⟨rfl, by simp [new_calls, Driver.emit], rfl, rfl, rfl, hthis⟩

/-- Instance of C17: the suspended sample device, on a bus that would fail. -/
theorem C17_suspended_watchdog_witness :
    sx933x_i2c_watchdog_work (flaky_env (fun _ => true)) (driver_of suspended_dev) =
      (driver_of suspended_dev).emit [Effect.schedule_watchdog 10000] ∧
    new_calls (driver_of suspended_dev)
        (sx933x_i2c_watchdog_work (flaky_env (fun _ => true)) (driver_of suspended_dev)) =
      [Effect.schedule_watchdog 10000] ∧
    (sx933x_i2c_watchdog_work (flaky_env (fun _ => true)) (driver_of suspended_dev)).busCalls =
      (driver_of suspended_dev).busCalls ∧
    (sx933x_i2c_watchdog_work (flaky_env (fun _ => true))
      (driver_of suspended_dev)).reinit_calls = (driver_of suspended_dev).reinit_calls ∧
    (sx933x_i2c_watchdog_work (flaky_env (fun _ => true)) (driver_of suspended_dev)).err_cnt =
      (driver_of suspended_dev).err_cnt ∧
    (sx933x_i2c_watchdog_work (flaky_env (fun _ => true)) (driver_of suspended_dev)).this =
      some suspended_dev :=
  C17_suspended_watchdog (flaky_env (fun _ => true)) (driver_of suspended_dev) suspended_dev
    rfl rfl

/-- C20: `sx93XX_irq` on a non-null device returns `IRQ_HANDLED` and makes no bus
transfer in every case. If no level check is installed, or the level check (one sample
of the line) reports the line asserted, its kernel calls are the cancellation of the
pending deferred work followed by the scheduling of new deferred work with delay 0, and
`int_state` becomes 1 (nothing else changes in the device object). Otherwise it makes
no kernel call and leaves the device object, `int_state` included, as it was. -/
theorem C20_irq_handler (env : Env) (s : Driver) (d : sx93XX) (hthis : s.this = some d) :
    (sx93XX_irq env s).1 = IRQ_HANDLED ∧
    (sx93XX_irq env s).2.busCalls = s.busCalls ∧
    ((d.get_nirq_low = false ∨ env.nirq_low s.nirqReads = true) →
      new_calls s (sx93XX_irq env s).2 = [Effect.cancel_dworker, Effect.schedule_dworker 0] ∧
      (sx93XX_irq env s).2.this = some { d with int_state := 1 }) ∧
    (¬ (d.get_nirq_low = false ∨ env.nirq_low s.nirqReads = true) →
      new_calls s (sx93XX_irq env s).2 = [] ∧ (sx93XX_irq env s).2.this = some d) := by
  unfold sx93XX_irq
  simp only [hthis]
  cases hg : d.get_nirq_low
  · simp [new_calls, sx93XX_schedule_work, set_int_state, Driver.emit, hthis, hg]
  · cases hl : env.nirq_low s.nirqReads
    · simp [new_calls, sx933x_get_nirq_state, hl, hthis, hg]
    · simp [new_calls, sx933x_get_nirq_state, hl, sx93XX_schedule_work, set_int_state,
        Driver.emit, hthis, hg]

/-- Instance of C20: the sample device, which has a level check installed, with the
line reading asserted. -/
theorem C20_irq_handler_witness :
    (sx93XX_irq asserted_env (driver_of sample_dev)).1 = IRQ_HANDLED ∧
    (sx93XX_irq asserted_env (driver_of sample_dev)).2.busCalls =
      (driver_of sample_dev).busCalls ∧
    ((sample_dev.get_nirq_low = false ∨
        asserted_env.nirq_low (driver_of sample_dev).nirqReads = true) →
      new_calls (driver_of sample_dev) (sx93XX_irq asserted_env (driver_of sample_dev)).2 =
        [Effect.cancel_dworker, Effect.schedule_dworker 0] ∧
      (sx93XX_irq asserted_env (driver_of sample_dev)).2.this =
        some { sample_dev with int_state := 1 }) ∧
    (¬ (sample_dev.get_nirq_low = false ∨
        asserted_env.nirq_low (driver_of sample_dev).nirqReads = true) →
      new_calls (driver_of sample_dev) (sx93XX_irq asserted_env (driver_of sample_dev)).2 = [] ∧
      (sx93XX_irq asserted_env (driver_of sample_dev)).2.this = some sample_dev) :=
  C20_irq_handler asserted_env (driver_of sample_dev) sample_dev rfl

theorem and_255 (x : Nat) : x &&& 0xFF = x % 256 := by
  have h := Nat.and_pow_two_sub_one_eq_mod x 8
  simpa using h

theorem write_payload_eq (a v : Nat) (ha : a < 2 ^ 16) (hv : v < 2 ^ 32) :
    write_payload a v =
      [a >>> 8, a &&& 0xFF, v >>> 24, (v >>> 16) &&& 0xFF, (v >>> 8) &&& 0xFF, v &&& 0xFF] := by
  have h1 : a % 2 ^ 16 = a := Nat.mod_eq_of_lt ha
  have h2 : v % 2 ^ 32 = v := Nat.mod_eq_of_lt hv
  have h3 : (a >>> 8) % 256 = a >>> 8 := by
    apply Nat.mod_eq_of_lt
    rw [Nat.shiftRight_eq_div_pow]
    omega
  have h4 : (v >>> 24) % 256 = v >>> 24 := by
    apply Nat.mod_eq_of_lt
    rw [Nat.shiftRight_eq_div_pow]
    omega
  simp only [write_payload, h1, h2, h3, h4, and_255]

theorem assemble_bytes (v : Nat) (hv : v < 2 ^ 32) :
    assemble32 ((v >>> 24) % 256) ((v >>> 16) % 256) ((v >>> 8) % 256) (v % 256) = v := by
  have e : (256 : Nat) = 2 ^ 8 := by norm_num
  apply Nat.eq_of_testBit_eq
  intro j
  simp only [assemble32, e, Nat.testBit_or, Nat.testBit_shiftLeft, Nat.testBit_mod_two_pow,
    Nat.testBit_shiftRight, Nat.mod_mod]
  by_cases h8 : j < 8
  · simp [h8, show ¬ j ≥ 24 by omega, show ¬ j ≥ 16 by omega, show ¬ j ≥ 8 by omega]
  · by_cases h16 : j < 16
    · have : 8 + (j - 8) = j := by omega
      simp [h8, h16, show ¬ j ≥ 24 by omega, show ¬ j ≥ 16 by omega, show j ≥ 8 by omega,
        show j - 8 < 8 by omega, this]
    · by_cases h24 : j < 24
      · have : 16 + (j - 16) = j := by omega
        simp [h8, h16, h24, show ¬ j ≥ 24 by omega, show j ≥ 16 by omega, show j ≥ 8 by omega,
          show j - 16 < 8 by omega, show ¬ j - 8 < 8 by omega, this]
      · by_cases h32 : j < 32
        · have : 24 + (j - 24) = j := by omega
          simp [h8, h16, h24, show j ≥ 24 by omega, show j ≥ 16 by omega, show j ≥ 8 by omega,
            show j - 24 < 8 by omega, show ¬ j - 8 < 8 by omega, show ¬ j - 16 < 8 by omega,
            this]
        · have hz : v.testBit j = false := by
            apply Nat.testBit_lt_two_pow
            calc v < 2 ^ 32 := hv
              _ ≤ 2 ^ j := Nat.pow_le_pow_right (by norm_num) (by omega)
          simp [h8, show j ≥ 24 by omega, show j ≥ 16 by omega, show j ≥ 8 by omega,
            show ¬ j - 24 < 8 by omega, show ¬ j - 8 < 8 by omega, show ¬ j - 16 < 8 by omega,
            hz]

theorem lor_3f (v : Nat) : (v ||| 0x3F) &&& 0x3F = 0x3F ∧ (v ||| 0x3F) >>> 6 = v >>> 6 := by
  constructor
  · apply Nat.eq_of_testBit_eq
    intro j
    simp only [Nat.testBit_and, Nat.testBit_or]
    cases h : Nat.testBit 0x3F j <;> simp [h]
  · apply Nat.eq_of_testBit_eq
    intro j
    have h : Nat.testBit 0x3F (6 + j) = false := by
      apply Nat.testBit_lt_two_pow
      calc (0x3F : Nat) < 2 ^ 6 := by norm_num
        _ ≤ 2 ^ (6 + j) := Nat.pow_le_pow_right (by norm_num) (by omega)
    simp only [Nat.testBit_shiftRight, Nat.testBit_or, h, Bool.or_false]

theorem write_bus (env : Env) (reg v : Nat) (s : Driver) (d : sx93XX)
    (hthis : s.this = some d) (hbus : d.bus = true) :
    sx933x_i2c_write_16bit env reg v s =
      ((env.i2c_transfer s.busCalls).ret,
        { s with trace := s.trace ++ [Effect.i2c_write (write_payload reg v)],
                 busCalls := s.busCalls + 1 }) := by
  simp [sx933x_i2c_write_16bit, hthis, hbus]

theorem read_bus (env : Env) (reg x : Nat) (s : Driver) (d : sx93XX)
    (hthis : s.this = some d) (hbus : d.bus = true) :
    sx933x_i2c_read_16bit env reg x s =
      ((env.i2c_transfer s.busCalls).ret,
        assemble32 (env.i2c_transfer s.busCalls).b0 (env.i2c_transfer s.busCalls).b1
          (env.i2c_transfer s.busCalls).b2 (env.i2c_transfer s.busCalls).b3,
        { s with trace := s.trace ++
                   [Effect.i2c_read [((reg % 2 ^ 16) >>> 8) % 256, (reg % 2 ^ 16) % 256]],
                 busCalls := s.busCalls + 1 }) := by
  simp [sx933x_i2c_read_16bit, hthis, hbus]

/-- C14: for every 16-bit address `a` and 32-bit value `v`, `sx933x_i2c_write_16bit` on a
device with a bus makes exactly one kernel call, a single bus transfer (one bus answer
consumed, no retry) whose payload is the six bytes
`[a>>8, a&0xFF, v>>24, (v>>16)&0xFF, (v>>8)&0xFF, v&0xFF]`, and returns the result of
that transfer, whatever it is (a negative value when the transfer failed). -/
theorem C14_write_transfer (env : Env) (s : Driver) (d : sx93XX) (a v : Nat)
    (hthis : s.this = some d) (hbus : d.bus = true) (ha : a < 2 ^ 16) (hv : v < 2 ^ 32) :
    new_calls s (sx933x_i2c_write_16bit env a v s).2 =
      [Effect.i2c_write
        [a >>> 8, a &&& 0xFF, v >>> 24, (v >>> 16) &&& 0xFF, (v >>> 8) &&& 0xFF, v &&& 0xFF]] ∧
    (sx933x_i2c_write_16bit env a v s).2.busCalls = s.busCalls + 1 ∧
    (sx933x_i2c_write_16bit env a v s).1 = (env.i2c_transfer s.busCalls).ret := by
  rw [write_bus env a v s d hthis hbus, write_payload_eq a v ha hv]
  exact ⟨by simp [new_calls], rfl, rfl⟩

/-- Instance of C14: address `0x8028` and value `0x12345678` on the sample device with a
failing bus: one transfer of `80 28 12 34 56 78`, result -5. -/
theorem C14_write_transfer_witness :
    new_calls (driver_of sample_dev)
        (sx933x_i2c_write_16bit (flaky_env (fun _ => true)) 0x8028 0x12345678
          (driver_of sample_dev)).2 =
      [Effect.i2c_write [0x80, 0x28, 0x12, 0x34, 0x56, 0x78]] ∧
    (sx933x_i2c_write_16bit (flaky_env (fun _ => true)) 0x8028 0x12345678
      (driver_of sample_dev)).2.busCalls = 1 ∧
    (sx933x_i2c_write_16bit (flaky_env (fun _ => true)) 0x8028 0x12345678
      (driver_of sample_dev)).1 = -5 :=
  C14_write_transfer (flaky_env (fun _ => true)) (driver_of sample_dev) sample_dev 0x8028
    0x12345678 rfl rfl (by decide) (by decide)

/-- C15: for every 32-bit value `v` the payload that `sx933x_i2c_write_16bit` transmits
ends in four value bytes whose assembly by the rule of `sx933x_i2c_read_16bit` gives `v`
again; and on a device with a bus, whatever the four bytes of the receive buffer are,
the value that `sx933x_i2c_read_16bit` stores is `b0<<24 | b1<<16 | b2<<8 | b3`. -/
theorem C15_round_trip (env : Env) (s : Driver) (d : sx93XX) (reg x v : Nat)
    (hthis : s.this = some d) (hbus : d.bus = true) (hv : v < 2 ^ 32) :
    (∃ a0 a1 b0 b1 b2 b3, write_payload reg v = [a0, a1, b0, b1, b2, b3] ∧
      assemble32 b0 b1 b2 b3 = v) ∧
    ((env.i2c_transfer s.busCalls).b0 < 256 → (env.i2c_transfer s.busCalls).b1 < 256 →
      (env.i2c_transfer s.busCalls).b2 < 256 → (env.i2c_transfer s.busCalls).b3 < 256 →
      (sx933x_i2c_read_16bit env reg x s).2.1 =
        ((env.i2c_transfer s.busCalls).b0 <<< 24) ||| ((env.i2c_transfer s.busCalls).b1 <<< 16)
          ||| ((env.i2c_transfer s.busCalls).b2 <<< 8) ||| (env.i2c_transfer s.busCalls).b3) := by
  constructor
  · refine ⟨_, _, _, _, _, _, rfl, ?_⟩
    rw [Nat.mod_eq_of_lt hv]
    exact assemble_bytes v hv
  · intro h0 h1 h2 h3
    rw [read_bus env reg x s d hthis hbus]
    simp only [assemble32, Nat.mod_eq_of_lt h0, Nat.mod_eq_of_lt h1, Nat.mod_eq_of_lt h2,
      Nat.mod_eq_of_lt h3]

/-- Instance of C15: the value `0x12345678`, and a read on the sample device whose
receive buffer holds `0, 0, 1, 1`. -/
theorem C15_round_trip_witness :
    (∃ a0 a1 b0 b1 b2 b3, write_payload 0x8028 0x12345678 = [a0, a1, b0, b1, b2, b3] ∧
      assemble32 b0 b1 b2 b3 = 0x12345678) ∧
    (((sample_env (ok_reply 1 1)).i2c_transfer (driver_of sample_dev).busCalls).b0 < 256 →
      ((sample_env (ok_reply 1 1)).i2c_transfer (driver_of sample_dev).busCalls).b1 < 256 →
      ((sample_env (ok_reply 1 1)).i2c_transfer (driver_of sample_dev).busCalls).b2 < 256 →
      ((sample_env (ok_reply 1 1)).i2c_transfer (driver_of sample_dev).busCalls).b3 < 256 →
      (sx933x_i2c_read_16bit (sample_env (ok_reply 1 1)) 0x8028 0 (driver_of sample_dev)).2.1 =
        (((sample_env (ok_reply 1 1)).i2c_transfer (driver_of sample_dev).busCalls).b0 <<< 24)
          ||| (((sample_env (ok_reply 1 1)).i2c_transfer (driver_of sample_dev).busCalls).b1
            <<< 16)
          ||| (((sample_env (ok_reply 1 1)).i2c_transfer (driver_of sample_dev).busCalls).b2
            <<< 8)
          ||| ((sample_env (ok_reply 1 1)).i2c_transfer (driver_of sample_dev).busCalls).b3) :=
  C15_round_trip (sample_env (ok_reply 1 1)) (driver_of sample_dev) sample_dev 0x8028 0
    0x12345678 rfl rfl (by decide)

theorem reg_setup_value_eq (hdr : Header) (e : smtc_reg_data) :
    reg_setup_value hdr e =
      if e.reg = hdr.SX933X_GNRLCTRL2_REG ∧ e.val &&& 0x3F = 0 then e.val ||| 0x3F
      else e.val := by
  unfold reg_setup_value
  split_ifs <;> simp_all

theorem reg_init_static_bus (env : Env) (d : sx93XX) (hbus : d.bus = true) :
    ∀ (l : List smtc_reg_data) (s : Driver), s.this = some d →
      reg_init_static env l s =
        { s with
          trace := s.trace ++ l.map (fun e =>
            Effect.i2c_write (write_payload e.reg (reg_setup_value env.hdr e))),
          busCalls := s.busCalls + l.length } := by
  intro l
  induction l with
  | nil => intro s _; cases s; simp [reg_init_static]
  | cons e rest ih =>
    intro s hthis
    simp only [reg_init_static, write_bus env _ _ s d hthis hbus]
    rw [ih]
    · simp only [List.map_cons, List.length_cons, List.append_assoc, List.singleton_append]
      congr 1
      omega
    · exact hthis

theorem frame_reg_init_tail (env : Env) (s : Driver) (d : sx93XX) (pDevice : sx933x)
    (pdata : sx933x_platform_data) (hthis : s.this = some d)
    (hdev : d.pDevice = some pDevice) (hhw : pDevice.hw = some pdata) :
    Frame (reg_init_static env env.hdr.sx933x_i2c_reg_setup s) (sx933x_reg_init env s) := by
  unfold sx933x_reg_init
  simp only [hthis, hdev, hhw]
  refine Frame.trans ?_ (frame_write env _ _ _)
  have h2 : Frame (reg_init_static env env.hdr.sx933x_i2c_reg_setup s)
      (if d.reg_in_dts = true then
        write_regs env pdata.pi2c_reg (reg_init_static env env.hdr.sx933x_i2c_reg_setup s)
        else reg_init_static env env.hdr.sx933x_i2c_reg_setup s) := by
    split_ifs
    · exact frame_write_regs env _ _
    · exact Frame.refl _
  generalize (if d.reg_in_dts = true then
      write_regs env pdata.pi2c_reg (reg_init_static env env.hdr.sx933x_i2c_reg_setup s)
      else reg_init_static env env.hdr.sx933x_i2c_reg_setup s) = s2 at h2 ⊢
  by_cases hc : env.hdr.CONFIG_CAPSENSE_HEADSET_STATE = true
  · simp only [hc, if_true]
    exact Frame.trans h2 (Frame.trans (frame_headset_backup env _ _)
      (frame_store_headset_bck _ _))
  · simp only [hc]
    exact h2

/-- C13: on a device with a bus and platform data, the kernel calls of `sx933x_reg_init`
start with one bus write per entry `(r, v)` of the static table, in table order, to
register `r` with the value `v | 0x3F` when `r` is `SX933X_GNRLCTRL2_REG` and
`v & 0x3F == 0`, and with exactly `v` otherwise (the control register with non-zero low
six bits, or any other register); and `v | 0x3F` has its low six bits all ones and the
bits above them as in `v`. -/
theorem C13_control_correction (env : Env) (s : Driver) (d : sx93XX) (pDevice : sx933x)
    (pdata : sx933x_platform_data) (hthis : s.this = some d) (hbus : d.bus = true)
    (hdev : d.pDevice = some pDevice) (hhw : pDevice.hw = some pdata) :
    (∃ rest, new_calls s (sx933x_reg_init env s) =
      env.hdr.sx933x_i2c_reg_setup.map (fun e =>
        Effect.i2c_write (write_payload e.reg
          (if e.reg = env.hdr.SX933X_GNRLCTRL2_REG ∧ e.val &&& 0x3F = 0 then e.val ||| 0x3F
           else e.val))) ++ rest) ∧
    (∀ v : Nat, (v ||| 0x3F) &&& 0x3F = 0x3F ∧ (v ||| 0x3F) >>> 6 = v >>> 6) := by
  refine ⟨?_, lor_3f⟩
  obtain ⟨_, _, _, _, evs, ht, _⟩ := frame_reg_init_tail env s d pDevice pdata hthis hdev hhw
  refine ⟨evs, ?_⟩
  rw [reg_init_static_bus env d hbus _ s hthis] at ht
  simp only [reg_setup_value_eq] at ht
  simp only [List.append_assoc] at ht
  exact new_calls_eq s _ _ ht

/-- Instance of C13: the sample static table, whose second entry programs the control
register `0x8028` with value 0; the write carries `0x3F`. -/
theorem C13_control_correction_witness :
    (∃ rest, new_calls (driver_of sample_dev)
        (sx933x_reg_init (sample_env (ok_reply 0 0)) (driver_of sample_dev)) =
      (sample_env (ok_reply 0 0)).hdr.sx933x_i2c_reg_setup.map (fun e =>
        Effect.i2c_write (write_payload e.reg
          (if e.reg = (sample_env (ok_reply 0 0)).hdr.SX933X_GNRLCTRL2_REG ∧
              e.val &&& 0x3F = 0 then e.val ||| 0x3F
           else e.val))) ++ rest) ∧
    (∀ v : Nat, (v ||| 0x3F) &&& 0x3F = 0x3F ∧ (v ||| 0x3F) >>> 6 = v >>> 6) ∧
    new_calls (driver_of sample_dev)
        (sx933x_reg_init (sample_env (ok_reply 0 0)) (driver_of sample_dev)) =
      [Effect.i2c_write [0x80, 0x24, 0, 0, 0, 0x10], Effect.i2c_write [0x80, 0x28, 0, 0, 0, 0x3F],
       Effect.i2c_write [0x42, 0x80, 0, 0, 0, 0x0F]] :=
  ⟨(C13_control_correction (sample_env (ok_reply 0 0)) (driver_of sample_dev) sample_dev
      { buttons := true, hw := some sample_pdata } sample_pdata rfl rfl rfl rfl).1,
    (C13_control_correction (sample_env (ok_reply 0 0)) (driver_of sample_dev) sample_dev
      { buttons := true, hw := some sample_pdata } sample_pdata rfl rfl rfl rfl).2,
    by decide⟩

theorem reset_retry_success (env : Env) (d : sx93XX) (hbus : d.bus = true) :
    ∀ (k n : Nat) (s : Driver), s.this = some d → k < n →
      (∀ j, j < k → (env.i2c_transfer (s.busCalls + j)).ret < 0) →
      0 ≤ (env.i2c_transfer (s.busCalls + k)).ret →
      reset_retry env n s =
        { s with trace := s.trace ++ (failed_rounds (reset_write env.hdr) k ++
                   [reset_write env.hdr]),
                 busCalls := s.busCalls + (k + 1) } := by
  intro k
  induction k with
  | zero =>
    intro n s hthis hn _ hok
    obtain ⟨m, rfl⟩ : ∃ m, n = m + 1 := ⟨n - 1, by omega⟩
    simp only [reset_retry, write_bus env _ _ s d hthis hbus]
    rw [if_pos (by simpa using hok)]
    simp [failed_rounds, reset_write]
  | succ k ih =>
    intro n s hthis hn hfail hok
    obtain ⟨m, rfl⟩ : ∃ m, n = m + 1 := ⟨n - 1, by omega⟩
    have h0 : ¬ (env.i2c_transfer s.busCalls).ret ≥ 0 := by
      have := hfail 0 (by omega)
      simp only [Nat.add_zero] at this
      omega
    simp only [reset_retry, write_bus env _ _ s d hthis hbus, if_neg h0, Driver.emit]
    rw [ih m]
    · simp only [failed_rounds, reset_write, List.append_assoc, List.singleton_append,
        List.cons_append, List.nil_append]
      congr 1
      omega
    · exact hthis
    · omega
    · intro j hj
      have := hfail (j + 1) (by omega)
      simpa [Nat.add_assoc, Nat.add_comm 1 j] using this
    · simpa [Nat.add_assoc, Nat.add_comm 1 k] using hok

theorem reset_retry_all_fail (env : Env) (d : sx93XX) (hbus : d.bus = true) :
    ∀ (n : Nat) (s : Driver), s.this = some d →
      (∀ j, j < n → (env.i2c_transfer (s.busCalls + j)).ret < 0) →
      reset_retry env n s =
        { s with trace := s.trace ++ failed_rounds (reset_write env.hdr) n,
                 busCalls := s.busCalls + n } := by
  intro n
  induction n with
  | zero => intro s _ _; cases s; simp [reset_retry, failed_rounds]
  | succ n ih =>
    intro s hthis hfail
    have h0 : ¬ (env.i2c_transfer s.busCalls).ret ≥ 0 := by
      have := hfail 0 (by omega)
      simp only [Nat.add_zero] at this
      omega
    simp only [reset_retry, write_bus env _ _ s d hthis hbus, if_neg h0, Driver.emit]
    rw [ih]
    · simp only [failed_rounds, reset_write, List.append_assoc, List.singleton_append,
        List.cons_append, List.nil_append]
      congr 1
      omega
    · exact hthis
    · intro j hj
      have := hfail (j + 1) (by omega)
      simpa [Nat.add_assoc, Nat.add_comm 1 j] using this

theorem count_failed_rounds (hdr : Header) (k : Nat) :
    (failed_rounds (reset_write hdr) k).count (reset_write hdr) = k := by
  induction k with
  | zero => rfl
  | succ k ih =>
    simp only [failed_rounds, List.count_cons, ih]
    simp [reset_write]

theorem frame_global_variable_init (s : Driver) : Frame s (sx933x_global_variable_init s).2 := by
  unfold sx933x_global_variable_init
  cases hthis : s.this with
  | none => exact Frame.refl s
  | some d => exact ⟨rfl, rfl, rfl, by simp [hthis], [], by simp, by simp⟩

theorem initialize_prologue_eq (s : Driver) (d : sx93XX) (hthis : s.this = some d) :
    initialize_prologue s =
      { s with this := some { d with irq_disabled := 1 },
               trace := s.trace ++ [Effect.disable_irq] } := by
  simp [initialize_prologue, set_irq_disabled, hthis, Driver.emit]

theorem bus_refl (s : Driver) : BusFrame s s :=
  ⟨rfl, [], by simp, by simp⟩

theorem bus_trans {s t u : Driver} (h1 : BusFrame s t) (h2 : BusFrame t u) :
    BusFrame s u := by
  obtain ⟨a1, e1, t1, i1⟩ := h1
  obtain ⟨a2, e2, t2, i2⟩ := h2
  refine ⟨a2.trans a1, e1 ++ e2, ?_, ?_⟩
  · rw [t2, t1, List.append_assoc]
  · intro e he
    rcases List.mem_append.1 he with h | h
    · exact i1 e h
    · exact i2 e h

theorem bus_emit (s : Driver) (es : List Effect) (h : ∀ e ∈ es, e.is_bus_or_sleep = true) :
    BusFrame s (s.emit es) :=
  ⟨rfl, es, rfl, h⟩

theorem bus_read (env : Env) (reg v : Nat) (s : Driver) :
    BusFrame s (sx933x_i2c_read_16bit env reg v s).2.2 := by
  unfold sx933x_i2c_read_16bit
  cases hthis : s.this with
  | none => exact bus_refl s
  | some d =>
    by_cases hb : d.bus = true
    · simp only [hb, if_true]
      exact ⟨by simp [hthis], _, rfl, by simp [Effect.is_bus_or_sleep]⟩
    · simp only [hb]
      exact bus_refl s

theorem bus_write (env : Env) (reg v : Nat) (s : Driver) :
    BusFrame s (sx933x_i2c_write_16bit env reg v s).2 := by
  unfold sx933x_i2c_write_16bit
  cases hthis : s.this with
  | none => exact bus_refl s
  | some d =>
    by_cases hb : d.bus = true
    · simp only [hb, if_true]
      exact ⟨by simp [hthis], _, rfl, by simp [Effect.is_bus_or_sleep]⟩
    · simp only [hb]
      exact bus_refl s

theorem bus_read_regStat (env : Env) (s : Driver) : BusFrame s (read_regStat env s).2 := by
  unfold read_regStat
  cases hthis : s.this with
  | none => exact bus_refl s
  | some d =>
    simp only []
    split_ifs
    · exact bus_read env _ 0 s
    · exact bus_read env _ 0 s

theorem bus_manual_offset_calibration (env : Env) (s : Driver) :
    BusFrame s (manual_offset_calibration env s).2 :=
  bus_write env _ _ s

theorem bus_reg_init_static (env : Env) :
    ∀ (l : List smtc_reg_data) (s : Driver), BusFrame s (reg_init_static env l s) := by
  intro l
  induction l with
  | nil => intro s; exact bus_refl s
  | cons e rest ih =>
    intro s
    exact bus_trans (bus_write env _ _ s) (ih _)

theorem bus_write_regs (env : Env) :
    ∀ (l : List smtc_reg_data) (s : Driver), BusFrame s (write_regs env l s) := by
  intro l
  induction l with
  | nil => intro s; exact bus_refl s
  | cons e rest ih =>
    intro s
    exact bus_trans (bus_write env _ _ s) (ih _)

theorem bus_headset_backup (env : Env) :
    ∀ (l : List smtc_reg_data) (s : Driver), BusFrame s (headset_backup env l s).2 := by
  intro l
  induction l with
  | nil => intro s; exact bus_refl s
  | cons e rest ih =>
    intro s
    exact bus_trans (bus_read env _ _ s) (ih _)

theorem bus_store_headset_bck (bck : List smtc_reg_data) (s : Driver) :
    BusFrame s (store_headset_bck bck s) := by
  unfold store_headset_bck
  cases hthis : s.this with
  | none => exact bus_refl s
  | some d =>
    simp only []
    cases hdev : d.pDevice with
    | none => exact bus_refl s
    | some pDevice =>
      simp only []
      cases hhw : pDevice.hw with
      | none => exact bus_refl s
      | some pdata => exact ⟨by simp [hthis, sx93XX.core], [], by simp, by simp⟩

theorem bus_reg_init (env : Env) (s : Driver) : BusFrame s (sx933x_reg_init env s) := by
  unfold sx933x_reg_init
  cases hthis : s.this with
  | none => exact ⟨by simp [hthis], [], by simp, by simp⟩
  | some d =>
    simp only []
    cases hdev : d.pDevice with
    | none => exact ⟨by simp [hthis], [], by simp, by simp⟩
    | some pDevice =>
      simp only []
      cases hhw : pDevice.hw with
      | none => exact bus_refl s
      | some pdata =>
        simp only []
        refine bus_trans ?_ (bus_write env _ _ _)
        have h1 := bus_reg_init_static env env.hdr.sx933x_i2c_reg_setup s
        have h2 : BusFrame s (if d.reg_in_dts = true then
            write_regs env pdata.pi2c_reg (reg_init_static env env.hdr.sx933x_i2c_reg_setup s)
            else reg_init_static env env.hdr.sx933x_i2c_reg_setup s) := by
          split_ifs
          · exact bus_trans h1 (bus_write_regs env _ _)
          · exact h1
        generalize (if d.reg_in_dts = true then
            write_regs env pdata.pi2c_reg (reg_init_static env env.hdr.sx933x_i2c_reg_setup s)
            else reg_init_static env env.hdr.sx933x_i2c_reg_setup s) = s2 at h2 ⊢
        by_cases hc : env.hdr.CONFIG_CAPSENSE_HEADSET_STATE = true
        · simp only [hc, if_true]
          exact bus_trans h2 (bus_trans (bus_headset_backup env _ _)
            (bus_store_headset_bck _ _))
        · simp only [hc]
          exact h2

theorem bus_reenable_if_on (env : Env) (temp : Nat) (s : Driver) :
    BusFrame s (reenable_if_on env temp s) := by
  unfold reenable_if_on
  split_ifs
  · exact bus_write env _ _ s
  · exact bus_refl s

theorem bus_write_flip_regs (env : Env) (regs : List smtc_reg_data) (s : Driver) :
    BusFrame s (write_flip_regs env regs s) := by
  unfold write_flip_regs
  exact bus_trans (bus_read env _ _ s) (bus_trans (bus_write env _ _ _)
    (bus_trans (bus_write_regs env _ _) (bus_reenable_if_on env _ _)))

theorem bus_flip_step (env : Env) (pdata : sx933x_platform_data) (s : Driver) :
    BusFrame s (if env.hdr.CONFIG_CAPSENSE_FLIP_CAL then
      update_flip_regs env pdata pdata.phone_flip_state s else s) := by
  unfold update_flip_regs
  split_ifs
  · exact bus_write_flip_regs env _ s
  · exact bus_write_flip_regs env _ s
  · exact bus_refl _
  · exact bus_refl _

theorem bus_reset_retry (env : Env) :
    ∀ (retry : Nat) (s : Driver), BusFrame s (reset_retry env retry s) := by
  intro retry
  induction retry with
  | zero => intro s; exact bus_refl s
  | succ n ih =>
    intro s
    simp only [reset_retry]
    split_ifs
    · exact bus_write env _ _ s
    · exact bus_trans (bus_write env _ _ s)
        (bus_trans (bus_emit _ _ (by simp [Effect.is_bus_or_sleep])) (ih _))

theorem count_of_bus_or_sleep (l : List Effect) (h : ∀ e ∈ l, e.is_bus_or_sleep = true) :
    l.count Effect.disable_irq = 0 ∧ l.count Effect.enable_irq = 0 := by
  constructor
  · apply List.count_eq_zero.2
    intro hm
    have := h _ hm
    simp [Effect.is_bus_or_sleep] at this
  · apply List.count_eq_zero.2
    intro hm
    have := h _ hm
    simp [Effect.is_bus_or_sleep] at this

theorem reinitialize_body_eq (env : Env) (pdata : sx933x_platform_data) (s : Driver) :
    reinitialize_body env pdata s =
      incr_reset_count (set_init_busy 0 (reinit_flush_and_restore env
        ((reinit_reset_and_program env pdata
          (call_regulator_enable env
            (s.emit [Effect.disable_irq, Effect.regulator_disable, Effect.msleep 100])).2).emit
          [Effect.enable_irq]))) :=
  rfl

theorem bus_reinit_reset_and_program (env : Env) (pdata : sx933x_platform_data)
    (s : Driver) : BusFrame s (reinit_reset_and_program env pdata s) := by
  unfold reinit_reset_and_program
  simp only []
  refine bus_trans ?_ (bus_flip_step env pdata _)
  refine bus_trans ?_ (bus_reg_init env _)
  refine bus_trans ?_ (bus_emit _ [Effect.msleep 100] (by simp [Effect.is_bus_or_sleep]))
  refine bus_trans ?_ (bus_reset_retry env 10 _)
  exact bus_emit s [Effect.msleep 100] (by simp [Effect.is_bus_or_sleep])

theorem bus_reinit_flush_and_restore (env : Env) (s : Driver) :
    BusFrame s (reinit_flush_and_restore env s) := by
  unfold reinit_flush_and_restore
  simp only []
  refine bus_trans ?_ (bus_manual_offset_calibration env _)
  refine bus_trans ?_ (bus_reenable_if_on env _ _)
  refine bus_trans ?_ (bus_read env _ 0 _)
  exact bus_read_regStat env s

theorem wrap_int_id (x : Int) (hlo : -2147483648 ≤ x) (hhi : x ≤ 2147483647) :
    wrap_int x = x := by
  unfold wrap_int
  norm_num
  omega

/-- C16: for every call of `sx933x_reinitialize` that takes the token (device, device
specific struct and platform data present, policy flag set, `init_busy` 0 at entry) and
for every behaviour of the bus and of the regulator: the kernel calls of the call are
`disable_irq`, `regulator_disable`, a 100 ms sleep, `regulator_enable`, then bus
transfers and sleeps only, then `enable_irq`, then bus transfers and sleeps only; so
`disable_irq` and `enable_irq` are each called exactly once, in that order. At the end
`init_busy` is 0 and `reset_count` is the `int` value of its value at entry plus 1, that
is exactly one more than at entry for every value of the `int` field below `INT_MAX`. -/
theorem C16_reinit_completes (env : Env) (s : Driver) (d : sx93XX) (pDevice : sx933x)
    (pdata : sx933x_platform_data) (hthis : s.this = some d)
    (hdev : d.pDevice = some pDevice) (hhw : pDevice.hw = some pdata)
    (hpol : pdata.reinit_on_i2c_failure = true) (hbusy : d.init_busy = 0) :
    (∃ A B, new_calls s ( sx933x_reinitialize env s) =
        [Effect.disable_irq, Effect.regulator_disable, Effect.msleep 100,
          Effect.regulator_enable] ++ A ++ [Effect.enable_irq] ++ B ∧
      (∀ e ∈ A, e.is_bus_or_sleep = true) ∧ (∀ e ∈ B, e.is_bus_or_sleep = true)) ∧
    (new_calls s ( sx933x_reinitialize env s)).count Effect.disable_irq = 1 ∧
    (new_calls s ( sx933x_reinitialize env s)).count Effect.enable_irq = 1 ∧
    (∃ d1, ( sx933x_reinitialize env s).this = some d1 ∧ d1.init_busy = 0 ∧
      d1.reset_count = wrap_int (d.reset_count + 1) ∧
      (-2147483648 ≤ d.reset_count → d.reset_count < 2147483647 →
        d1.reset_count = d.reset_count + 1)) := by
  have hre : sx933x_reinitialize env s =
      reinitialize_body env pdata
        (set_init_busy (d.init_busy + 1) { s with reinit_calls := s.reinit_calls + 1 }) := by
    unfold sx933x_reinitialize
    simp [hthis, hdev, hhw, hpol, hbusy]
  have hs1t : (set_init_busy (d.init_busy + 1)
      { s with reinit_calls := s.reinit_calls + 1 }).trace = s.trace := by
    simp [set_init_busy, hthis]
  have hs1this : (set_init_busy (d.init_busy + 1)
      { s with reinit_calls := s.reinit_calls + 1 }).this =
      some { d with init_busy := d.init_busy + 1 } := by
    simp [set_init_busy, hthis]
  rw [hre, reinitialize_body_eq]
  generalize set_init_busy (d.init_busy + 1) { s with reinit_calls := s.reinit_calls + 1 } = s1
    at hs1t hs1this ⊢
  obtain ⟨cA, A, tA, iA⟩ := bus_reinit_reset_and_program env pdata
    (call_regulator_enable env
      (s1.emit [Effect.disable_irq, Effect.regulator_disable, Effect.msleep 100])).2
  generalize reinit_reset_and_program env pdata
    (call_regulator_enable env
      (s1.emit [Effect.disable_irq, Effect.regulator_disable, Effect.msleep 100])).2 = y
    at cA tA ⊢
  obtain ⟨cB, B, tB, iB⟩ := bus_reinit_flush_and_restore env (y.emit [Effect.enable_irq])
  generalize reinit_flush_and_restore env (y.emit [Effect.enable_irq]) = x at cB tB ⊢
  simp only [call_regulator_enable, Driver.emit] at cA tA cB tB
  have htrace : (incr_reset_count (set_init_busy 0 x)).trace =
      s.trace ++ ([Effect.disable_irq, Effect.regulator_disable, Effect.msleep 100,
        Effect.regulator_enable] ++ A ++ [Effect.enable_irq] ++ B) := by
    have h1 : (incr_reset_count (set_init_busy 0 x)).trace = x.trace := by
      cases hx : x.this <;> simp [incr_reset_count, set_init_busy, hx]
    rw [h1, tB, tA, hs1t]
    simp
  have hcore : x.this.map sx93XX.core =
      some (sx93XX.core { d with init_busy := d.init_busy + 1 }) := by
    rw [cB, cA, hs1this]
    rfl
  have hnew := new_calls_eq s _ _ htrace
  have cAz := count_of_bus_or_sleep A iA
  have cBz := count_of_bus_or_sleep B iB
  refine ⟨⟨A, B, hnew, iA, iB⟩, ?_, ?_, ?_⟩
  · rw [hnew]
    simp only [List.count_append, cAz.1, cBz.1]
    decide
  · rw [hnew]
    simp only [List.count_append, cAz.2, cBz.2]
    decide
  · cases hx : x.this with
    | none => simp [hx] at hcore
    | some dx =>
      simp only [hx, Option.map_some', Option.some.injEq] at hcore
      have h : dx.reset_count = d.reset_count := by
        have h := congrArg (fun z => z.reset_count) hcore
        simpa [sx93XX.core] using h
      refine ⟨{ dx with init_busy := 0, reset_count := wrap_int (dx.reset_count + 1) }, ?_, rfl,
        ?_, ?_⟩
      · simp [incr_reset_count, set_init_busy, hx]
      · simp only []
        rw [h]
      · intro hlo hhi
        simp only []
        rw [h]
        exact wrap_int_id _ (by omega) (by omega)

/-- Instance of C16: the sample device with every bus transfer failing. -/
theorem C16_reinit_completes_witness :
    (new_calls (driver_of sample_dev)
      ( sx933x_reinitialize (flaky_env (fun _ => true)) (driver_of sample_dev))).count
        Effect.disable_irq = 1 ∧
    (new_calls (driver_of sample_dev)
      ( sx933x_reinitialize (flaky_env (fun _ => true)) (driver_of sample_dev))).count
        Effect.enable_irq = 1 ∧
    (∃ d1, ( sx933x_reinitialize (flaky_env (fun _ => true)) (driver_of sample_dev)).this =
        some d1 ∧ d1.init_busy = 0 ∧
      d1.reset_count = wrap_int (sample_dev.reset_count + 1) ∧
      (-2147483648 ≤ sample_dev.reset_count → sample_dev.reset_count < 2147483647 →
        d1.reset_count = sample_dev.reset_count + 1)) :=
  (C16_reinit_completes (flaky_env (fun _ => true)) (driver_of sample_dev) sample_dev
    { buttons := true, hw := some sample_pdata } sample_pdata rfl rfl rfl rfl rfl).2

theorem read_this (env : Env) (reg v : Nat) (s : Driver) :
    (sx933x_i2c_read_16bit env reg v s).2.2.this = s.this := by
  obtain ⟨evs, n, h, _⟩ := read_16bit_frame env reg v s
  rw [h]

theorem write_this (env : Env) (reg v : Nat) (s : Driver) :
    (sx933x_i2c_write_16bit env reg v s).2.this = s.this := by
  obtain ⟨evs, n, h, _⟩ := write_16bit_frame env reg v s
  rw [h]

theorem cap_loop_this (env : Env) (name : String) (enable : Nat) :
    ∀ (n i temp : Nat) (s : Driver),
      (capsensor_set_enable_loop env name enable n i temp s).2.this = s.this := by
  intro n
  induction n with
  | zero => intro i temp s; rfl
  | succ n ih =>
    intro i temp s
    simp only [capsensor_set_enable_loop]
    cases hget : s.psmtcButtons[i]? with
    | none => rfl
    | some b =>
      simp only []
      split_ifs
      · rw [ih]
        simp only [manual_offset_calibration, write_this, Driver.emit, set_enabled, read_this]
      · rw [ih]
        simp only [Driver.emit, set_enabled]
      · exact ih _ _ _
      · exact ih _ _ _

/-- C19: for every sensor name and enable value, on a device with a bus,
`capsensor_set_enable` returns 0, and once its first loop has applied the request to the
button table (every button of that name enabled for 1, disabled for 0): if some button
is enabled it does nothing more; if no button is enabled it makes exactly two more
kernel calls, a read of `SX933X_GNRLCTRL2_REG` and a write to `SX933X_GNRLCTRL2_REG` of
the value just read with the low five bits cleared (`value & 0xFFFFFFE0`). -/
theorem C19_power_down (env : Env) (s : Driver) (d : sx93XX) (name : String) (enable : Nat)
    (hthis : s.this = some d) (hbus : d.bus = true) :
    (capsensor_set_enable env name enable s).1 = 0 ∧
    (capsensor_set_enable_loop env name enable s.psmtcButtons.length 0 0 s).2.psmtcButtons =
      s.psmtcButtons.map (cap_button name enable) ∧
    ((s.psmtcButtons.map (cap_button name enable)).any (fun b => b.enabled) = true →
      (capsensor_set_enable env name enable s).2 =
        (capsensor_set_enable_loop env name enable s.psmtcButtons.length 0 0 s).2) ∧
    ((s.psmtcButtons.map (cap_button name enable)).any (fun b => b.enabled) = false →
      new_calls (capsensor_set_enable_loop env name enable s.psmtcButtons.length 0 0 s).2
          (capsensor_set_enable env name enable s).2 =
        [Effect.i2c_read [((env.hdr.SX933X_GNRLCTRL2_REG % 2 ^ 16) >>> 8) % 256,
            (env.hdr.SX933X_GNRLCTRL2_REG % 2 ^ 16) % 256],
         Effect.i2c_write (write_payload env.hdr.SX933X_GNRLCTRL2_REG
           ((sx933x_i2c_read_16bit env env.hdr.SX933X_GNRLCTRL2_REG
              (capsensor_set_enable_loop env name enable s.psmtcButtons.length 0 0 s).1
              (capsensor_set_enable_loop env name enable s.psmtcButtons.length 0 0 s).2).2.1
             &&& 0xFFFFFFE0))] ∧
      (sx933x_i2c_read_16bit env env.hdr.SX933X_GNRLCTRL2_REG
          (capsensor_set_enable_loop env name enable s.psmtcButtons.length 0 0 s).1
          (capsensor_set_enable_loop env name enable s.psmtcButtons.length 0 0 s).2).2.1 =
        assemble32
          (env.i2c_transfer (capsensor_set_enable_loop env name enable
            s.psmtcButtons.length 0 0 s).2.busCalls).b0
          (env.i2c_transfer (capsensor_set_enable_loop env name enable
            s.psmtcButtons.length 0 0 s).2.busCalls).b1
          (env.i2c_transfer (capsensor_set_enable_loop env name enable
            s.psmtcButtons.length 0 0 s).2.busCalls).b2
          (env.i2c_transfer (capsensor_set_enable_loop env name enable
            s.psmtcButtons.length 0 0 s).2.busCalls).b3) := by
  obtain ⟨hB, _⟩ := cap_loop_eq env name enable s.psmtcButtons [] s 0 (by simp)
  simp only [List.length_nil, List.nil_append] at hB
  have hL := cap_loop_this env name enable s.psmtcButtons.length 0 0 s
  rw [hthis] at hL
  unfold capsensor_set_enable
  simp only []
  generalize capsensor_set_enable_loop env name enable s.psmtcButtons.length 0 0 s = l
    at hB hL ⊢
  refine ⟨by split_ifs <;> rfl, hB, ?_, ?_⟩
  · intro hany
    rw [← hB] at hany
    rw [if_pos hany]
  · intro hany
    rw [← hB] at hany
    have hn : ¬ (l.2.psmtcButtons.any (fun b => b.enabled) = true) := by simp [hany]
    rw [if_neg hn]
    have hr := read_bus env env.hdr.SX933X_GNRLCTRL2_REG l.1 l.2 d hL hbus
    have hrthis : (sx933x_i2c_read_16bit env env.hdr.SX933X_GNRLCTRL2_REG l.1 l.2).2.2.this =
        some d := by rw [read_this, hL]
    rw [write_bus env _ _ _ d hrthis hbus]
    refine ⟨?_, by rw [hr]⟩
    apply new_calls_eq
    simp only [hr, List.append_assoc, List.singleton_append]

/-- Instance of C19: disabling the only enabled channel on the sample device, where the
control register reads `0x013F`: the register is read and `0x0120` is written back. -/
theorem C19_power_down_witness :
    (capsensor_set_enable (sample_env (ok_reply 1 0x3F)) "ch0" 0 (sample_driver single_button)).1
      = 0 ∧
    new_calls
        (capsensor_set_enable_loop (sample_env (ok_reply 1 0x3F)) "ch0" 0
          (sample_driver single_button).psmtcButtons.length 0 0 (sample_driver single_button)).2
        (capsensor_set_enable (sample_env (ok_reply 1 0x3F)) "ch0" 0
          (sample_driver single_button)).2 =
      [Effect.i2c_read [0x80, 0x28], Effect.i2c_write [0x80, 0x28, 0, 0, 0x01, 0x20]] :=
  ⟨(C19_power_down (sample_env (ok_reply 1 0x3F)) (sample_driver single_button) sample_dev
      "ch0" 0 rfl rfl).1,
    ((C19_power_down (sample_env (ok_reply 1 0x3F)) (sample_driver single_button) sample_dev
      "ch0" 0 rfl rfl).2.2.2 (by decide)).1⟩

/-- C18, evaluation at the failing input: on the sample device (line idle, identity
value `0x23`) with a bus whose transfers fail with -5 and leave zeros in the receive
buffer, the identity read of `sx933x_Hardware_Check` returns a negative value, yet the
check returns `SX933x_ID_ERROR` and stores it in `failStatusCode`, not
`SX933x_I2C_ERROR`. -/
theorem C18_bus_error_overwritten :
    (sx933x_i2c_read_16bit (flaky_env (fun _ => true))
        (flaky_env (fun _ => true)).hdr.SX933X_INFO_REG 0 (driver_of sample_dev)).1 < 0 ∧
    (sx933x_Hardware_Check (flaky_env (fun _ => true)) 0 (driver_of sample_dev)).1 =
      SX933x_ID_ERROR ∧
    (sx933x_Hardware_Check (flaky_env (fun _ => true)) 0 (driver_of sample_dev)).2.this.map
      (fun d => d.failStatusCode) = some SX933x_ID_ERROR ∧
    SX933x_ID_ERROR ≠ SX933x_I2C_ERROR := by
  decide

/-- C29: when the platform policy flag `reinit_on_i2c_failure` is false, a call of
`sx933x_reinitialize` changes nothing but the auxiliary entry counter, for every device
state: it makes no kernel call (no interrupt, regulator or bus action), consumes no bus
or regulator answer, and leaves the device object (so `init_busy`, the token, and
`reset_count`) and the button table as they were. -/
theorem C29_policy_off (env : Env) (s : Driver) (d : sx93XX) (pDevice : sx933x)
    (pdata : sx933x_platform_data) (hthis : s.this = some d)
    (hdev : d.pDevice = some pDevice) (hhw : pDevice.hw = some pdata)
    (hpol : pdata.reinit_on_i2c_failure = false) :
    sx933x_reinitialize env s = { s with reinit_calls := s.reinit_calls + 1 } ∧
    new_calls s ( sx933x_reinitialize env s) = [] ∧
    ( sx933x_reinitialize env s).busCalls = s.busCalls ∧
    ( sx933x_reinitialize env s).regulatorCalls = s.regulatorCalls ∧
    ( sx933x_reinitialize env s).this = some d ∧
    ( sx933x_reinitialize env s).psmtcButtons = s.psmtcButtons := by
  have h : sx933x_reinitialize env s = { s with reinit_calls := s.reinit_calls + 1 } := by
    unfold sx933x_reinitialize
    simp only [hthis, hdev, hhw, hpol, if_true]
  rw [h]
  exact ⟨rfl, by simp [new_calls], rfl, rfl, hthis, rfl⟩

/-- Instance of C29: the sample device on platform data with the policy flag off, its
token free (`init_busy` is 0) and the bus failing. -/
theorem C29_policy_off_witness :
    sx933x_reinitialize (flaky_env (fun _ => true)) (driver_of no_reinit_dev) =
      { driver_of no_reinit_dev with
        reinit_calls := (driver_of no_reinit_dev).reinit_calls + 1 } ∧
    new_calls (driver_of no_reinit_dev)
      ( sx933x_reinitialize (flaky_env (fun _ => true)) (driver_of no_reinit_dev)) = [] ∧
    ( sx933x_reinitialize (flaky_env (fun _ => true)) (driver_of no_reinit_dev)).busCalls =
      (driver_of no_reinit_dev).busCalls ∧
    ( sx933x_reinitialize (flaky_env (fun _ => true))
      (driver_of no_reinit_dev)).regulatorCalls = (driver_of no_reinit_dev).regulatorCalls ∧
    ( sx933x_reinitialize (flaky_env (fun _ => true)) (driver_of no_reinit_dev)).this =
      some no_reinit_dev ∧
    ( sx933x_reinitialize (flaky_env (fun _ => true)) (driver_of no_reinit_dev)).psmtcButtons =
      (driver_of no_reinit_dev).psmtcButtons :=
  C29_policy_off (flaky_env (fun _ => true)) (driver_of no_reinit_dev) no_reinit_dev
    { buttons := true, hw := some no_reinit_pdata } no_reinit_pdata rfl rfl rfl rfl

theorem read_regStat_bus (env : Env) (s : Driver) (d : sx93XX) (hthis : s.this = some d)
    (hbus : d.bus = true) :
    (read_regStat env s).2 =
      { s with trace := s.trace ++
                 [Effect.i2c_read [((env.hdr.SX933X_HOSTIRQSRC_REG % 2 ^ 16) >>> 8) % 256,
                   (env.hdr.SX933X_HOSTIRQSRC_REG % 2 ^ 16) % 256]],
               busCalls := s.busCalls + 1 } := by
  unfold read_regStat
  simp only [hthis, read_bus env _ _ s d hthis hbus]
  split_ifs <;> rfl

theorem reset_retry_calls (env : Env) (d : sx93XX) (hbus : d.bus = true) :
    ∀ (retry : Nat) (s : Driver), s.this = some d →
      ∃ evs, (reset_retry env retry s).trace = s.trace ++ evs ∧
        (reset_retry env retry s).this = some d ∧
        ∀ e ∈ evs, e = reset_write env.hdr ∨ e = Effect.msleep 10 := by
  intro retry
  induction retry with
  | zero => intro s hthis; exact ⟨[], by simp [reset_retry], hthis, by simp⟩
  | succ n ih =>
    intro s hthis
    simp only [reset_retry, write_bus env _ _ s d hthis hbus]
    split_ifs
    · exact ⟨[reset_write env.hdr], rfl, hthis, by simp⟩
    · obtain ⟨evs, ht, hd, hev⟩ := ih
        (Driver.emit { s with trace := s.trace ++ [Effect.i2c_write (write_payload
          env.hdr.SX933X_RESET_REG env.hdr.I2C_SOFTRESET_VALUE)], busCalls := s.busCalls + 1 }
          [Effect.msleep 10]) hthis
      refine ⟨reset_write env.hdr :: Effect.msleep 10 :: evs, ?_, hd, ?_⟩
      · rw [ht]
        simp [Driver.emit, reset_write]
      · intro e he
        simp only [List.mem_cons] at he
        rcases he with h | h | h
        · exact Or.inl h
        · exact Or.inr h
        · exact hev e h

theorem read_regStat_eq (env : Env) (s : Driver) :
    ∃ evs n, (read_regStat env s).2 =
        { s with trace := s.trace ++ evs, busCalls := s.busCalls + n } ∧
      ∀ e ∈ evs, e = status_read env.hdr := by
  cases hthis : s.this with
  | none => exact ⟨[], 0, by unfold read_regStat; cases s; simp_all, by simp⟩
  | some d =>
    by_cases hb : d.bus = true
    · exact ⟨[status_read env.hdr], 1,
        by rw [read_regStat_bus env s d hthis hb]; simp [status_read, hthis], by simp⟩
    · refine ⟨[], 0, ?_, by simp⟩
      unfold read_regStat sx933x_i2c_read_16bit
      simp only [hthis, hb]
      cases s
      simp_all

theorem poll_round_eq (env : Env) (s : Driver) (d : sx93XX) (hthis : s.this = some d) :
    ∃ n, poll_round env s =
        { s with nirqReads := s.nirqReads + 1,
                 trace := s.trace ++
                   (if d.bus then [status_read env.hdr, Effect.msleep 100]
                    else [Effect.msleep 100]),
                 busCalls := s.busCalls + n } := by
  by_cases hb : d.bus = true
  · refine ⟨1, ?_⟩
    unfold poll_round
    rw [read_regStat_bus env (sx933x_get_nirq_state env s).2 d
      (by simp [sx933x_get_nirq_state, hthis]) hb]
    simp [Driver.emit, sx933x_get_nirq_state, status_read, hb]
  · refine ⟨0, ?_⟩
    unfold poll_round read_regStat sx933x_i2c_read_16bit
    simp [Driver.emit, sx933x_get_nirq_state, hthis, hb]

theorem count_poll_calls (hdr : Header) (bus : Bool) (k : Nat) :
    (poll_calls hdr bus k).count (Effect.msleep 100) = k := by
  induction k with
  | zero => rfl
  | succ k ih =>
    simp only [poll_calls, List.count_append, ih]
    cases bus <;> simp [status_read] <;> omega

theorem poll_step_asserted (env : Env) (fuel loop : Nat) (s : Driver) (d : sx93XX)
    (hthis : s.this = some d) (hget : d.get_nirq_low = true)
    (ha : env.nirq_low s.nirqReads = true) :
    hardware_check_poll env (fuel + 1) loop s =
      if (loop + 1) % 256 > 10 then set_failStatusCode SX933x_NIRQ_ERROR (poll_round env s)
      else hardware_check_poll env fuel ((loop + 1) % 256) (poll_round env s) := by
  simp [hardware_check_poll, hthis, hget, sx933x_get_nirq_state, ha, poll_round]

theorem poll_step_idle (env : Env) (fuel loop : Nat) (s : Driver) (d : sx93XX)
    (hthis : s.this = some d) (hget : d.get_nirq_low = true)
    (ha : env.nirq_low s.nirqReads = false) :
    hardware_check_poll env (fuel + 1) loop s = { s with nirqReads := s.nirqReads + 1 } := by
  simp [hardware_check_poll, hthis, hget, sx933x_get_nirq_state, ha]

theorem poll_idle (env : Env) (d : sx93XX) (hget : d.get_nirq_low = true) :
    ∀ (k fuel loop : Nat) (s : Driver), s.this = some d → k < fuel → loop + k ≤ 10 →
      (∀ j, j < k → env.nirq_low (s.nirqReads + j) = true) →
      env.nirq_low (s.nirqReads + k) = false →
      (hardware_check_poll env fuel loop s).this = some d ∧
      (hardware_check_poll env fuel loop s).nirqReads = s.nirqReads + k + 1 ∧
      (hardware_check_poll env fuel loop s).trace = s.trace ++ poll_calls env.hdr d.bus k := by
  intro k
  induction k with
  | zero =>
    intro fuel loop s hthis hk _ _ hidle
    obtain ⟨f, rfl⟩ : ∃ f, fuel = f + 1 := ⟨fuel - 1, by omega⟩
    rw [poll_step_idle env f loop s d hthis hget (by simpa using hidle)]
    exact ⟨hthis, rfl, by simp [poll_calls]⟩
  | succ k ih =>
    intro fuel loop s hthis hk hl hall hidle
    obtain ⟨f, rfl⟩ : ∃ f, fuel = f + 1 := ⟨fuel - 1, by omega⟩
    rw [poll_step_asserted env f loop s d hthis hget (by simpa using hall 0 (by omega))]
    have hmod : (loop + 1) % 256 = loop + 1 := Nat.mod_eq_of_lt (by omega)
    rw [hmod, if_neg (by omega)]
    obtain ⟨n, hr⟩ := poll_round_eq env s d hthis
    have h := ih f (loop + 1) (poll_round env s) (by rw [hr]; exact hthis) (by omega)
      (by omega)
      (by
        intro j hj
        have := hall (j + 1) (by omega)
        rw [hr]
        simpa [Nat.add_assoc, Nat.add_comm 1 j] using this)
      (by
        rw [hr]
        simpa [Nat.add_assoc, Nat.add_comm 1 k] using hidle)
    obtain ⟨h1, h2, h3⟩ := h
    refine ⟨h1, ?_, ?_⟩
    · rw [h2, hr]
      simp only []
      omega
    · rw [h3, hr]
      simp [poll_calls]

theorem poll_stuck (env : Env) (d : sx93XX) (hget : d.get_nirq_low = true) :
    ∀ (fuel loop : Nat) (s : Driver), s.this = some d → 0 < fuel → loop + fuel = 11 →
      (∀ j, j < fuel → env.nirq_low (s.nirqReads + j) = true) →
      (hardware_check_poll env fuel loop s).this =
        some { d with failStatusCode := SX933x_NIRQ_ERROR } ∧
      (hardware_check_poll env fuel loop s).nirqReads = s.nirqReads + fuel ∧
      (hardware_check_poll env fuel loop s).trace =
        s.trace ++ poll_calls env.hdr d.bus fuel := by
  intro fuel
  induction fuel with
  | zero => intro loop s _ h; omega
  | succ f ih =>
    intro loop s hthis _ hl hall
    rw [poll_step_asserted env f loop s d hthis hget (by simpa using hall 0 (by omega))]
    have hmod : (loop + 1) % 256 = loop + 1 := Nat.mod_eq_of_lt (by omega)
    obtain ⟨n, hr⟩ := poll_round_eq env s d hthis
    rw [hmod]
    by_cases hf : f = 0
    · subst hf
      rw [if_pos (by omega), hr]
      refine ⟨by simp [set_failStatusCode, hthis], by simp [set_failStatusCode, hthis], ?_⟩
      simp [set_failStatusCode, hthis, poll_calls]
    · rw [if_neg (by omega)]
      have h := ih (loop + 1) (poll_round env s) (by rw [hr]; exact hthis) (by omega)
        (by omega)
        (by
          intro j hj
          have := hall (j + 1) (by omega)
          rw [hr]
          simpa [Nat.add_assoc, Nat.add_comm 1 j] using this)
      obtain ⟨h1, h2, h3⟩ := h
      refine ⟨h1, ?_, ?_⟩
      · rw [h2, hr]
        simp only []
        omega
      · rw [h3, hr]
        simp [poll_calls]

theorem polled_idle (env : Env) (s : Driver) (d : sx93XX) (hthis : s.this = some d)
    (hget : d.get_nirq_low = true) (k : Nat) (hk : k < 11)
    (hall : ∀ j, j < k → env.nirq_low (s.nirqReads + j) = true)
    (hidle : env.nirq_low (s.nirqReads + k) = false) :
    (hardware_check_polled env s).this = some { d with failStatusCode := 0 } ∧
    (hardware_check_polled env s).nirqReads = s.nirqReads + k + 1 ∧
    (new_calls s (hardware_check_polled env s)).count (Effect.msleep 100) = k ∧
    new_calls s (hardware_check_polled env s) = poll_calls env.hdr d.bus k := by
  have h0 : (set_failStatusCode 0 s).this = some { d with failStatusCode := 0 } := by
    simp [set_failStatusCode, hthis]
  have hn : (set_failStatusCode 0 s).nirqReads = s.nirqReads := by
    simp [set_failStatusCode, hthis]
  have ht : (set_failStatusCode 0 s).trace = s.trace := by
    simp [set_failStatusCode, hthis]
  obtain ⟨h1, h2, h3⟩ := poll_idle env { d with failStatusCode := 0 } hget k 11 0
    (set_failStatusCode 0 s) h0 hk (by omega) (by rw [hn]; exact hall) (by rw [hn]; exact hidle)
  refine ⟨h1, by rw [← hn]; exact h2, ?_⟩
  rw [new_calls_eq s (hardware_check_polled env s) _ (by rw [← ht]; exact h3)]
  exact ⟨count_poll_calls _ _ _, rfl⟩

theorem polled_stuck (env : Env) (s : Driver) (d : sx93XX) (hthis : s.this = some d)
    (hget : d.get_nirq_low = true)
    (hall : ∀ j, j < 11 → env.nirq_low (s.nirqReads + j) = true) :
    (hardware_check_polled env s).this = some { d with failStatusCode := SX933x_NIRQ_ERROR } ∧
    (hardware_check_polled env s).nirqReads = s.nirqReads + 11 ∧
    (new_calls s (hardware_check_polled env s)).count (Effect.msleep 100) = 11 ∧
    new_calls s (hardware_check_polled env s) = poll_calls env.hdr d.bus 11 := by
  have h0 : (set_failStatusCode 0 s).this = some { d with failStatusCode := 0 } := by
    simp [set_failStatusCode, hthis]
  have hn : (set_failStatusCode 0 s).nirqReads = s.nirqReads := by
    simp [set_failStatusCode, hthis]
  have ht : (set_failStatusCode 0 s).trace = s.trace := by
    simp [set_failStatusCode, hthis]
  obtain ⟨h1, h2, h3⟩ := poll_stuck env { d with failStatusCode := 0 } hget 11 0
    (set_failStatusCode 0 s) h0 (by omega) (by omega) (by rw [hn]; exact hall)
  refine ⟨h1, by rw [← hn]; exact h2, ?_⟩
  rw [new_calls_eq s (hardware_check_polled env s) _ (by rw [← ht]; exact h3)]
  exact ⟨count_poll_calls _ _ _, rfl⟩

theorem first_idle (env : Env) (s : Driver)
    (h : ¬ ∀ j, j < 11 → env.nirq_low (s.nirqReads + j) = true) :
    ∃ k, k < 11 ∧ (∀ j, j < k → env.nirq_low (s.nirqReads + j) = true) ∧
      env.nirq_low (s.nirqReads + k) = false := by
  have hex : ∃ k, k < 11 ∧ env.nirq_low (s.nirqReads + k) = false := by
    by_contra hne
    apply h
    intro j hj
    by_contra hlt
    exact hne ⟨j, hj, by simpa using hlt⟩
  refine ⟨Nat.find hex, (Nat.find_spec hex).1, ?_, (Nat.find_spec hex).2⟩
  intro j hj
  have := Nat.find_min hex hj
  by_contra hlt
  exact this ⟨by have := (Nat.find_spec hex).1; omega, by simpa using hlt⟩

theorem line_stuck_iff (env : Env) (s : Driver) :
    line_stuck env s = true ↔ ∀ j, j < 11 → env.nirq_low (s.nirqReads + j) = true := by
  simp [line_stuck, List.all_eq_true, List.mem_range]

theorem polled_this (env : Env) (s : Driver) (d : sx93XX) (hthis : s.this = some d) :
    (hardware_check_polled env s).this =
      some { d with failStatusCode :=
        if (d.get_nirq_low && line_stuck env s) = true then SX933x_NIRQ_ERROR else 0 } := by
  by_cases hget : d.get_nirq_low = true
  · by_cases hall : ∀ j, j < 11 → env.nirq_low (s.nirqReads + j) = true
    · rw [(polled_stuck env s d hthis hget hall).1,
        if_pos (by simp [hget, (line_stuck_iff env s).2 hall])]
    · obtain ⟨k, hk, hlow, hidle⟩ := first_idle env s hall
      have hns : line_stuck env s = false := by
        cases h : line_stuck env s with
        | false => rfl
        | true => exact absurd ((line_stuck_iff env s).1 h) hall
      rw [(polled_idle env s d hthis hget k hk hlow hidle).1, if_neg (by simp [hns])]
  · rw [if_neg (by simp [hget])]
    simp [hardware_check_polled, hardware_check_poll, set_failStatusCode, hthis, hget]

/-- C23 fails as stated: with the line asserted at the first 10 samples and idle at the
11th, the loop of `sx933x_Hardware_Check` samples the line 11 times and does not flag
line-stuck although the line was still asserted at the 10th poll (the function returns
0); with the line asserted throughout, it sleeps 11 times before it flags line-stuck. -/
theorem C23_counterexample :
    (∀ j, j < 10 →
      (asserted_for 10).nirq_low ((driver_of sample_dev).nirqReads + j) = true) ∧
    (hardware_check_polled (asserted_for 10) (driver_of sample_dev)).nirqReads =
      (driver_of sample_dev).nirqReads + 11 ∧
    (hardware_check_polled (asserted_for 10) (driver_of sample_dev)).this =
      some { sample_dev with failStatusCode := 0 } ∧
    (sx933x_Hardware_Check (asserted_for 10) 0 (driver_of sample_dev)).1 = 0 ∧
    (new_calls (driver_of sample_dev)
      (hardware_check_polled (asserted_for 11) (driver_of sample_dev))).count
        (Effect.msleep 100) = 11 ∧
    (sx933x_Hardware_Check (asserted_for 11) 0 (driver_of sample_dev)).1 =
      SX933x_NIRQ_ERROR := by
  refine ⟨?_, by decide, by decide, by decide, by decide, by decide⟩
  intro j hj
  simp [asserted_for, driver_of, sample_driver]
  omega

/-- C23 (amended): on a device with a level check installed, the loop of
`sx933x_Hardware_Check` polls the interrupt line at most 11 times, with one 100 ms sleep
after each poll that finds the line asserted (at most 11 sleeps), and flags line-stuck
(`SX933x_NIRQ_ERROR`) exactly when the line reads asserted at each of the 11 polls. If
the line reads idle at poll `k + 1` with `k < 11` after `k` asserted polls, polling
stops there, after `k` sleeps, and line-stuck is not flagged. The kernel calls of the
loop are exactly, for each asserted poll in turn, the status read (a bus transfer on a
device with a bus, no call without one) followed by one 100 ms sleep: 11 such rounds
when line-stuck is flagged, `k` otherwise. -/
theorem C23_poll_bound (env : Env) (s : Driver) (d : sx93XX) (hthis : s.this = some d)
    (hget : d.get_nirq_low = true) :
    ((hardware_check_polled env s).nirqReads ≤ s.nirqReads + 11 ∧
      (new_calls s (hardware_check_polled env s)).count (Effect.msleep 100) ≤ 11) ∧
    ((∃ d1, (hardware_check_polled env s).this = some d1 ∧
        d1.failStatusCode = SX933x_NIRQ_ERROR) ↔
      ∀ j, j < 11 → env.nirq_low (s.nirqReads + j) = true) ∧
    ((∀ j, j < 11 → env.nirq_low (s.nirqReads + j) = true) →
      (hardware_check_polled env s).nirqReads = s.nirqReads + 11 ∧
      (new_calls s (hardware_check_polled env s)).count (Effect.msleep 100) = 11 ∧
      new_calls s (hardware_check_polled env s) = poll_calls env.hdr d.bus 11) ∧
    (∀ k, k < 11 → (∀ j, j < k → env.nirq_low (s.nirqReads + j) = true) →
      env.nirq_low (s.nirqReads + k) = false →
      (hardware_check_polled env s).this = some { d with failStatusCode := 0 } ∧
      (hardware_check_polled env s).nirqReads = s.nirqReads + k + 1 ∧
      (new_calls s (hardware_check_polled env s)).count (Effect.msleep 100) = k ∧
      new_calls s (hardware_check_polled env s) = poll_calls env.hdr d.bus k) := by
  have hstuck := polled_stuck env s d hthis hget
  have hidle := polled_idle env s d hthis hget
  refine ⟨?_, ?_, fun hall => (hstuck hall).2, hidle⟩
  · by_cases hall : ∀ j, j < 11 → env.nirq_low (s.nirqReads + j) = true
    · obtain ⟨_, h2, h3, _⟩ := hstuck hall
      exact ⟨by omega, by omega⟩
    · obtain ⟨k, hk, hlow, hi⟩ := first_idle env s hall
      obtain ⟨_, h2, h3, _⟩ := hidle k hk hlow hi
      exact ⟨by omega, by omega⟩
  · constructor
    · rintro ⟨d1, h1, h2⟩
      by_contra hall
      obtain ⟨k, hk, hlow, hi⟩ := first_idle env s hall
      rw [(hidle k hk hlow hi).1] at h1
      have := Option.some.inj h1
      rw [← this] at h2
      simp [SX933x_NIRQ_ERROR] at h2
    · intro hall
      exact ⟨_, (hstuck hall).1, rfl⟩

/-- Instance of C23 (amended): the sample device, which has a bus, with the line asserted
at the first 10 polls and idle at the 11th: ten status reads and ten sleeps. -/
theorem C23_poll_bound_witness :
    ((hardware_check_polled (asserted_for 10) (driver_of sample_dev)).nirqReads ≤
        (driver_of sample_dev).nirqReads + 11 ∧
      (new_calls (driver_of sample_dev)
        (hardware_check_polled (asserted_for 10) (driver_of sample_dev))).count
          (Effect.msleep 100) ≤ 11) ∧
    new_calls (driver_of sample_dev)
        (hardware_check_polled (asserted_for 10) (driver_of sample_dev)) =
      poll_calls (asserted_for 10).hdr sample_dev.bus 10 :=
  ⟨(C23_poll_bound (asserted_for 10) (driver_of sample_dev) sample_dev rfl rfl).1,
    ((C23_poll_bound (asserted_for 10) (driver_of sample_dev) sample_dev rfl rfl).2.2.2 10
      (by decide)
      (by
        intro j hj
        simp [asserted_for, driver_of, sample_driver]
        omega)
      (by decide)).2.2.2⟩

/-- C24: on a non-null device, the fault code that `sx933x_Hardware_Check` returns, which
is also the one it stores in `failStatusCode`, follows this priority table on the
identity value `id` left in the read buffer (the uninitialised content when the read
did not fill it), the result of the read and the outcome of the line poll: 0 if `id` is
`SX9338_DFN_WHOAMI_VALUE`; otherwise `SX933x_ID_ERROR` if `id` is not
`SX933X_WHOAMI_VALUE`; otherwise `SX933x_I2C_ERROR` if the result of the read is
negative; otherwise `SX933x_NIRQ_ERROR` if the line poll timed out (a level check is
installed and the line read asserted at each of its 11 samples); otherwise 0. -/
theorem C24_fault_priority (env : Env) (idCode0 : Nat) (s : Driver) (d : sx93XX)
    (hthis : s.this = some d) :
    (sx933x_Hardware_Check env idCode0 s).1 =
      (if (sx933x_i2c_read_16bit env env.hdr.SX933X_INFO_REG idCode0
            (hardware_check_polled env s)).2.1 = env.hdr.SX9338_DFN_WHOAMI_VALUE then 0
       else if (sx933x_i2c_read_16bit env env.hdr.SX933X_INFO_REG idCode0
            (hardware_check_polled env s)).2.1 ≠ env.hdr.SX933X_WHOAMI_VALUE
         then SX933x_ID_ERROR
       else if (sx933x_i2c_read_16bit env env.hdr.SX933X_INFO_REG idCode0
            (hardware_check_polled env s)).1 < 0 then SX933x_I2C_ERROR
       else if (d.get_nirq_low && line_stuck env s) = true then SX933x_NIRQ_ERROR
       else 0) ∧
    (sx933x_Hardware_Check env idCode0 s).2.this =
      some { d with failStatusCode := (sx933x_Hardware_Check env idCode0 s).1 } := by
  have hp := polled_this env s d hthis
  have hr := read_this env env.hdr.SX933X_INFO_REG idCode0 (hardware_check_polled env s)
  rw [hp] at hr
  have e : hardware_check_poll env 11 0 (set_failStatusCode 0 s) =
      hardware_check_polled env s := rfl
  unfold sx933x_Hardware_Check
  simp only [e]
  generalize sx933x_i2c_read_16bit env env.hdr.SX933X_INFO_REG idCode0
    (hardware_check_polled env s) = r at hr ⊢
  obtain ⟨ret, id, t⟩ := r
  simp only at hr ⊢
  split_ifs <;> simp_all [set_failStatusCode]

/-- Instance of C24: the sample device with the line asserted throughout and the bus
answering the identity `0x23`: the poll times out and the code is `SX933x_NIRQ_ERROR`. -/
theorem C24_fault_priority_witness :
    (sx933x_Hardware_Check (asserted_for 11) 0 (driver_of sample_dev)).1 =
      SX933x_NIRQ_ERROR ∧
    (sx933x_Hardware_Check (asserted_for 11) 0 (driver_of sample_dev)).2.this =
      some { sample_dev with
        failStatusCode := (sx933x_Hardware_Check (asserted_for 11) 0 (driver_of sample_dev)).1 } :=
  ⟨((C24_fault_priority (asserted_for 11) 0 (driver_of sample_dev) sample_dev rfl).1).trans
      (by decide),
    (C24_fault_priority (asserted_for 11) 0 (driver_of sample_dev) sample_dev rfl).2⟩

/-- C25: for every sensor name and enable value, `capsensor_set_enable` leaves the
state field, the used flag and the masks of every button unchanged (and the table keeps
its length). In particular enabling (`enable` 1) the button `b` at index `k` by its name
reports distance 0 on its sink and leaves it as `b` with `enabled` set, so its state
stays what it was; and when that state is `BODYACTIVE` or `PROXACTIVE`, a following
`touchProcess` that reaches the button with a status word mapping to that same state
reports nothing for it and leaves it unchanged. -/
theorem C25_enable_keeps_state (env : Env) (name : String) (enable : Nat) (s : Driver)
    (k : Nat) (b : buttonInfo) (hk : s.psmtcButtons[k]? = some b) :
    (∃ b1, (capsensor_set_enable env name enable s).2.psmtcButtons[k]? = some b1 ∧
      b1.state = b.state ∧ b1.used = b.used ∧ b1.ProxMask = b.ProxMask ∧
      b1.BodyMask = b.BodyMask) ∧
    (capsensor_set_enable env name enable s).2.psmtcButtons.length = s.psmtcButtons.length ∧
    (name = b.name → enable = 1 →
      distance_events k (new_calls s (capsensor_set_enable env name enable s).2) =
        [(b.input_dev, 0)] ∧
      (capsensor_set_enable env name enable s).2.psmtcButtons[k]? =
        some { b with enabled := true }) ∧
    (name = b.name → enable = 1 → b.used = true → ∀ input, b.input_dev = some input →
      touch_runs (capsensor_set_enable env name enable s).2 = true →
      reached (capsensor_set_enable env name enable s).2.psmtcButtons k = true →
      ((touch_status env (capsensor_set_enable env name enable s).2 &&&
            (b.ProxMask ||| b.BodyMask) = (b.ProxMask ||| b.BodyMask) ∧
          b.state = BODYACTIVE) ∨
        (touch_status env (capsensor_set_enable env name enable s).2 &&&
            (b.ProxMask ||| b.BodyMask) ≠ (b.ProxMask ||| b.BodyMask) ∧
          touch_status env (capsensor_set_enable env name enable s).2 &&&
            (b.ProxMask ||| b.BodyMask) = b.ProxMask ∧
          b.state = PROXACTIVE)) →
      distance_events k (new_calls (capsensor_set_enable env name enable s).2
          (touchProcess env (capsensor_set_enable env name enable s).2)) = [] ∧
      (touchProcess env (capsensor_set_enable env name enable s).2).psmtcButtons[k]? =
        some { b with enabled := true }) := by
  obtain ⟨hb, hd⟩ := cap_button_at env name enable s k b hk
  have hlen : (capsensor_set_enable env name enable s).2.psmtcButtons.length =
      s.psmtcButtons.length := by
    rw [(cap_eq env name enable s).1, List.length_map]
  have hon : name = b.name → enable = 1 → cap_button name enable b = { b with enabled := true } := by
    intro h1 h2
    simp [cap_button, h1, h2]
  refine ⟨⟨cap_button name enable b, hb, ?_⟩, hlen, ?_, ?_⟩
  · unfold cap_button
    split_ifs <;> exact ⟨rfl, rfl, rfl, rfl⟩
  · intro h1 h2
    rw [hd, hb, hon h1 h2]
    simp [cap_distance, h1, h2]
  · intro h1 h2 hus input hin hrun hreach hmap
    rw [hon h1 h2] at hb
    obtain ⟨p1, p2⟩ := touchProcess_processed env (capsensor_set_enable env name enable s).2 k
      { b with enabled := true } input hrun hb hreach rfl hus hin
    have hns : next_state (touch_status env (capsensor_set_enable env name enable s).2)
        { b with enabled := true } = b.state := by
      unfold next_state
      simp only []
      rcases hmap with ⟨e1, e2⟩ | ⟨e1, e2, e3⟩
      · rw [if_pos e1, e2]
      · rw [if_neg e1, if_pos e2, e3]
    rw [p1, p2, hns]
    simp

/-- Instance of C25: channel 2 of the sample table, whose state is `BODYACTIVE`, is
enabled by name; the status word of the following `touchProcess` has both of its mask
bits set. -/
theorem C25_enable_keeps_state_witness :
    distance_events 2 (new_calls (sample_driver sample_buttons)
        (capsensor_set_enable (sample_env (ok_reply 4 4)) "ch2" 1
          (sample_driver sample_buttons)).2) = [(some 12, 0)] ∧
    distance_events 2 (new_calls
        (capsensor_set_enable (sample_env (ok_reply 4 4)) "ch2" 1
          (sample_driver sample_buttons)).2
        (touchProcess (sample_env (ok_reply 4 4))
          (capsensor_set_enable (sample_env (ok_reply 4 4)) "ch2" 1
            (sample_driver sample_buttons)).2)) = [] :=
  ⟨((C25_enable_keeps_state (sample_env (ok_reply 4 4)) "ch2" 1 (sample_driver sample_buttons)
      2 sample_ch2 rfl).2.2.1 (by decide) rfl).1,
    ((C25_enable_keeps_state (sample_env (ok_reply 4 4)) "ch2" 1 (sample_driver sample_buttons)
      2 sample_ch2 rfl).2.2.2 (by decide) rfl rfl 12 rfl (by decide) (by decide)
      (Or.inl ⟨by decide, rfl⟩)).1⟩

theorem reached_of_le :
    ∀ (l : List buttonInfo) (k j : Nat), reached l k = true → j ≤ k → reached l j = true := by
  intro l
  induction l with
  | nil => intro k j _ _; simp [reached]
  | cons b rest ih =>
    intro k j hr hj
    cases j with
    | zero => simp [reached]
    | succ j =>
      obtain ⟨k1, rfl⟩ : ∃ k1, k = k1 + 1 := ⟨k - 1, by omega⟩
      simp only [reached, List.take_succ_cons, List.all_cons, Bool.and_eq_true] at hr ⊢
      exact ⟨hr.1, ih k1 j hr.2 (by omega)⟩

theorem reached_sink :
    ∀ (l : List buttonInfo) (k j : Nat) (b : buttonInfo), reached l k = true → j < k →
      l[j]? = some b → b.enabled = true → b.used = true →
      ∃ input, b.input_dev = some input := by
  intro l
  induction l with
  | nil => intro k j b _ _ hj; simp at hj
  | cons b0 rest ih =>
    intro k j b hr hj hb hen hus
    obtain ⟨k1, rfl⟩ : ∃ k1, k = k1 + 1 := ⟨k - 1, by omega⟩
    simp only [reached, List.take_succ_cons, List.all_cons, Bool.and_eq_true] at hr
    cases j with
    | zero =>
      simp only [List.getElem?_cons_zero, Option.some.injEq] at hb
      subst hb
      have h1 := hr.1
      simp only [hen, hus, Bool.and_self, Bool.not_true, Bool.false_or] at h1
      exact Option.isSome_iff_exists.1 h1
    | succ j =>
      simp only [List.getElem?_cons_succ] at hb
      exact ih k1 j b hr.2 (by omega) hb hen hus

theorem scan_stopped (i : Nat) :
    ∀ (l : List buttonInfo) (k c : Nat) (bk : buttonInfo),
      l[k]? = some bk → bk.enabled = true → bk.used = true → bk.input_dev = none →
      ∀ j, k ≤ j →
        (scan_buttons i l)[j]? = l[j]? ∧ distance_events (c + j) (scan_events i c l) = [] := by
  intro l
  induction l with
  | nil => intro k c bk hk; simp at hk
  | cons b0 rest ih =>
    intro k c bk hk hen hus hin j hj
    cases k with
    | zero =>
      simp only [List.getElem?_cons_zero, Option.some.injEq] at hk
      subst hk
      simp [scan_buttons, scan_events, hen, hus, hin, distance_events]
    | succ k =>
      simp only [List.getElem?_cons_succ] at hk
      obtain ⟨j1, rfl⟩ : ∃ j1, j = j1 + 1 := ⟨j - 1, by omega⟩
      have h := ih k (c + 1) bk hk hen hus hin j1 (by omega)
      have hidx : c + 1 + j1 = c + (j1 + 1) := by omega
      rw [hidx] at h
      have hne : ¬ c = c + (j1 + 1) := by omega
      simp only [scan_buttons, scan_events]
      by_cases hen0 : b0.enabled = false
      · simp only [if_pos hen0, List.getElem?_cons_succ]; exact h
      · by_cases hus0 : b0.used = false
        · simp only [if_neg hen0, if_pos hus0, List.getElem?_cons_succ]; exact h
        · simp only [if_neg hen0, if_neg hus0]
          cases hin0 : b0.input_dev with
          | none => simp [distance_events]
          | some input0 =>
            simp only [List.getElem?_cons_succ, distance_events_append,
              distance_events_button i (c + (j1 + 1)) c b0 input0, if_neg hne, List.nil_append]
            exact h

theorem touchProcess_stopped (env : Env) (s : Driver) (k : Nat) (bk : buttonInfo)
    (hk : s.psmtcButtons[k]? = some bk) (hen : bk.enabled = true) (hus : bk.used = true)
    (hin : bk.input_dev = none) (j : Nat) (hj : k ≤ j) :
    (touchProcess env s).psmtcButtons[j]? = s.psmtcButtons[j]? ∧
      distance_events j (new_calls s (touchProcess env s)) = [] := by
  obtain ⟨evs, n, hev, heq⟩ := touchProcess_eq env s
  have hp := scan_stopped (touch_status env s) s.psmtcButtons k 0 bk hk hen hus hin j hj
  simp only [Nat.zero_add] at hp
  have htr : (touchProcess env s).trace = s.trace ++ (evs ++
      if touch_runs s then scan_events (touch_status env s) 0 s.psmtcButtons else []) := by
    rw [heq]
  have hbs : (touchProcess env s).psmtcButtons =
      if touch_runs s then scan_buttons (touch_status env s) s.psmtcButtons
      else s.psmtcButtons := by rw [heq]
  rw [new_calls_eq s _ _ htr, hbs, distance_events_append,
    distance_events_of_not_input j evs hev]
  cases hrun : touch_runs s
  · simp [distance_events]
  · simp [hp.1, hp.2]

/-- C26: if the first enabled and used button without an output sink is at index `k`
(no enabled and used button before it lacks a sink), `touchProcess` stops there,
whatever the status word is: every button at index `k` or above keeps all its fields,
so its state, and gets no distance report; every button at an index below `k` is
reached by the loop and processed as usual, that is left alone without report when it
is disabled or unused, and otherwise (it then has a sink) moved to the state the status
word selects, with one distance report exactly when that state differs from the old one. -/
theorem C26_stop_at_sinkless (env : Env) (s : Driver) (k : Nat) (bk : buttonInfo)
    (hk : s.psmtcButtons[k]? = some bk) (hen : bk.enabled = true) (hus : bk.used = true)
    (hin : bk.input_dev = none) (hfirst : reached s.psmtcButtons k = true) :
    (∀ j, k ≤ j →
      (touchProcess env s).psmtcButtons[j]? = s.psmtcButtons[j]? ∧
      distance_events j (new_calls s (touchProcess env s)) = []) ∧
    (∀ j b, j < k → s.psmtcButtons[j]? = some b →
      reached s.psmtcButtons j = true ∧
      ((b.enabled = false ∨ b.used = false) →
        (touchProcess env s).psmtcButtons[j]? = some b ∧
        distance_events j (new_calls s (touchProcess env s)) = []) ∧
      (touch_runs s = true → b.enabled = true → b.used = true →
        ∃ input, b.input_dev = some input ∧
          (touchProcess env s).psmtcButtons[j]? =
            some { b with state := next_state (touch_status env s) b } ∧
          distance_events j (new_calls s (touchProcess env s)) =
            if next_state (touch_status env s) b = b.state then []
            else [(some input, next_state (touch_status env s) b)])) := by
  refine ⟨fun j hj => touchProcess_stopped env s k bk hk hen hus hin j hj, ?_⟩
  intro j b hj hb
  have hr := reached_of_le s.psmtcButtons k j hfirst (by omega)
  refine ⟨hr, fun hskip => touchProcess_skipped env s j b hb hskip, ?_⟩
  intro hrun hen1 hus1
  obtain ⟨input, hi⟩ := reached_sink s.psmtcButtons k j b hfirst hj hb hen1 hus1
  exact ⟨input, hi, touchProcess_processed env s j b input hrun hb hr hen1 hus1 hi⟩

/-- Instance of C26: the sample table with channel 1 enabled, used and sinkless, and a
status word with only bit 0 set: channel 0 goes to `PROXACTIVE` with a report, channel 2
stays in `BODYACTIVE` without report although none of its mask bits is set. -/
theorem C26_stop_at_sinkless_witness :
    ((touchProcess (sample_env (ok_reply 0 1)) (sample_driver sinkless_buttons)).psmtcButtons[2]? =
        (sample_driver sinkless_buttons).psmtcButtons[2]? ∧
      distance_events 2 (new_calls (sample_driver sinkless_buttons)
        (touchProcess (sample_env (ok_reply 0 1)) (sample_driver sinkless_buttons))) = []) ∧
    distance_events 0 (new_calls (sample_driver sinkless_buttons)
        (touchProcess (sample_env (ok_reply 0 1)) (sample_driver sinkless_buttons))) =
      [(some 10, PROXACTIVE)] :=
  ⟨(C26_stop_at_sinkless (sample_env (ok_reply 0 1)) (sample_driver sinkless_buttons) 1
      sinkless_ch1 rfl rfl rfl rfl (by decide)).1 2 (by decide),
    by decide⟩

theorem write_regs_bus (env : Env) (d : sx93XX) (hbus : d.bus = true) :
    ∀ (l : List smtc_reg_data) (s : Driver), s.this = some d →
      write_regs env l s =
        { s with trace := s.trace ++ l.map plain_write,
                 busCalls := s.busCalls + l.length } := by
  intro l
  induction l with
  | nil => intro s _; cases s; simp [write_regs]
  | cons e rest ih =>
    intro s hthis
    simp only [write_regs, write_bus env _ _ s d hthis hbus]
    rw [ih]
    · simp only [List.map_cons, List.length_cons, List.append_assoc, List.singleton_append,
        plain_write]
      congr 1
      omega
    · exact hthis

theorem headset_backup_bus (env : Env) (d : sx93XX) (hbus : d.bus = true) :
    ∀ (l : List smtc_reg_data) (s : Driver), s.this = some d →
      (headset_backup env l s).2 =
        { s with trace := s.trace ++ l.map plain_read, busCalls := s.busCalls + l.length } := by
  intro l
  induction l with
  | nil => intro s _; cases s; simp [headset_backup]
  | cons e rest ih =>
    intro s hthis
    simp only [headset_backup, read_bus env _ _ s d hthis hbus]
    rw [ih]
    · simp only [List.map_cons, List.length_cons, List.append_assoc, List.singleton_append,
        plain_read]
      congr 1
      omega
    · exact hthis

theorem store_headset_bck_eq (bck : List smtc_reg_data) (s : Driver) (d : sx93XX)
    (hthis : s.this = some d) :
    (store_headset_bck bck s).trace = s.trace ∧
    (store_headset_bck bck s).fault = s.fault ∧
    ∃ d1, (store_headset_bck bck s).this = some d1 ∧ d1.bus = d.bus := by
  unfold store_headset_bck
  simp only [hthis]
  cases hdev : d.pDevice with
  | none => exact ⟨rfl, rfl, d, hthis, rfl⟩
  | some pDevice =>
    simp only []
    cases hhw : pDevice.hw with
    | none => exact ⟨rfl, rfl, d, hthis, rfl⟩
    | some pdata => exact ⟨rfl, rfl, _, rfl, rfl⟩

theorem reg_init_tail_calls (env : Env) (pdata : sx933x_platform_data) (t : Driver)
    (d : sx93XX) (hthis : t.this = some d) (hbus : d.bus = true) :
    (sx933x_i2c_write_16bit env env.hdr.SX933X_CMD_REG env.hdr.SX933X_PHASE_CONTROL
        (if env.hdr.CONFIG_CAPSENSE_HEADSET_STATE then
          store_headset_bck (headset_backup env pdata.headset_operate_reg_bck t).1
            (headset_backup env pdata.headset_operate_reg_bck t).2
         else t)).2.trace =
      t.trace ++ ((if env.hdr.CONFIG_CAPSENSE_HEADSET_STATE = true then
          pdata.headset_operate_reg_bck.map plain_read else []) ++ [phase_write env.hdr]) ∧
    (sx933x_i2c_write_16bit env env.hdr.SX933X_CMD_REG env.hdr.SX933X_PHASE_CONTROL
        (if env.hdr.CONFIG_CAPSENSE_HEADSET_STATE then
          store_headset_bck (headset_backup env pdata.headset_operate_reg_bck t).1
            (headset_backup env pdata.headset_operate_reg_bck t).2
         else t)).2.fault = t.fault := by
  by_cases hc : env.hdr.CONFIG_CAPSENSE_HEADSET_STATE = true
  · simp only [hc, if_true]
    have heq := headset_backup_bus env d hbus pdata.headset_operate_reg_bck t hthis
    have h2 : (headset_backup env pdata.headset_operate_reg_bck t).2.this = some d := by
      rw [heq]; exact hthis
    obtain ⟨ht, hf, d1, hd1, hb1⟩ := store_headset_bck_eq
      (headset_backup env pdata.headset_operate_reg_bck t).1
      (headset_backup env pdata.headset_operate_reg_bck t).2 d h2
    rw [write_bus env _ _ _ d1 hd1 (by rw [hb1]; exact hbus)]
    simp only []
    rw [ht, hf, heq]
    simp [phase_write]
  · have hc1 : env.hdr.CONFIG_CAPSENSE_HEADSET_STATE = false := by simpa using hc
    simp only [hc1, Bool.false_eq_true, if_false]
    rw [write_bus env _ _ t d hthis hbus]
    simp [phase_write]

theorem reg_init_calls (env : Env) (s : Driver) (d : sx93XX) (pDevice : sx933x)
    (pdata : sx933x_platform_data) (hthis : s.this = some d) (hbus : d.bus = true)
    (hdev : d.pDevice = some pDevice) (hhw : pDevice.hw = some pdata) :
    (sx933x_reg_init env s).trace =
      s.trace ++ (env.hdr.sx933x_i2c_reg_setup.map (fun e =>
            Effect.i2c_write (write_payload e.reg (reg_setup_value env.hdr e))) ++
          ((if d.reg_in_dts = true then pdata.pi2c_reg.map plain_write else []) ++
            ((if env.hdr.CONFIG_CAPSENSE_HEADSET_STATE = true then
                pdata.headset_operate_reg_bck.map plain_read else []) ++
              [phase_write env.hdr]))) ∧
    (sx933x_reg_init env s).fault = s.fault := by
  have h2 : (if d.reg_in_dts = true then
        write_regs env pdata.pi2c_reg (reg_init_static env env.hdr.sx933x_i2c_reg_setup s)
        else reg_init_static env env.hdr.sx933x_i2c_reg_setup s).this = some d ∧
      (if d.reg_in_dts = true then
        write_regs env pdata.pi2c_reg (reg_init_static env env.hdr.sx933x_i2c_reg_setup s)
        else reg_init_static env env.hdr.sx933x_i2c_reg_setup s).trace =
        s.trace ++ (env.hdr.sx933x_i2c_reg_setup.map (fun e =>
            Effect.i2c_write (write_payload e.reg (reg_setup_value env.hdr e))) ++
          (if d.reg_in_dts = true then pdata.pi2c_reg.map plain_write else [])) ∧
      (if d.reg_in_dts = true then
        write_regs env pdata.pi2c_reg (reg_init_static env env.hdr.sx933x_i2c_reg_setup s)
        else reg_init_static env env.hdr.sx933x_i2c_reg_setup s).fault = s.fault := by
    rw [reg_init_static_bus env d hbus _ s hthis]
    split_ifs
    · rw [write_regs_bus env d hbus]
      · simp [hthis]
      · exact hthis
    · simp [hthis]
  unfold sx933x_reg_init
  simp only [hthis, hdev, hhw]
  generalize (if d.reg_in_dts = true then
      write_regs env pdata.pi2c_reg (reg_init_static env env.hdr.sx933x_i2c_reg_setup s)
      else reg_init_static env env.hdr.sx933x_i2c_reg_setup s) = t at h2 ⊢
  obtain ⟨ht, hf⟩ := reg_init_tail_calls env pdata t d h2.1 hbus
  rw [ht, hf, h2.2.1, h2.2.2]
  simp only [List.append_assoc, and_self]

theorem countP_plain_write (l : List smtc_reg_data) :
    (l.map plain_write).countP Effect.is_write = l.length := by
  induction l with
  | nil => rfl
  | cons e rest ih => simp [List.countP_cons, ih, plain_write, Effect.is_write]

theorem countP_plain_read (l : List smtc_reg_data) :
    (l.map plain_read).countP Effect.is_write = 0 := by
  induction l with
  | nil => rfl
  | cons e rest ih => simp [List.countP_cons, ih, plain_read, Effect.is_write]

theorem countP_map_write (f : smtc_reg_data → List Nat) (l : List smtc_reg_data) :
    (l.map (fun e => Effect.i2c_write (f e))).countP Effect.is_write = l.length := by
  induction l with
  | nil => rfl
  | cons e rest ih =>
    rw [List.map_cons, List.countP_cons, ih]
    simp [Effect.is_write]

theorem programming_calls_eq (hdr : Header) (pdata : sx933x_platform_data) :
    programming_calls hdr pdata =
      hdr.sx933x_i2c_reg_setup.map (fun e =>
          Effect.i2c_write (write_payload e.reg (reg_setup_value hdr e))) ++
        (pdata.pi2c_reg.map plain_write ++
          ((if hdr.CONFIG_CAPSENSE_HEADSET_STATE = true then
              pdata.headset_operate_reg_bck.map plain_read else []) ++
            [phase_write hdr])) := by
  simp only [programming_calls, reg_setup_value_eq]
  rfl

/-- C27: on a device with a bus, platform data and the flag `reg_in_dts` set (as
`sx933x_global_variable_init` sets it before any call of `sx933x_reg_init`), and
whatever the bus transfers return, the kernel calls of `sx933x_reg_init` are: one write
per entry of the static table, the only place where the all-ones correction applies;
then one write per override entry `(r, v)` of the configuration, in index order, with
exactly the value `v`, also when `r` is `SX933X_GNRLCTRL2_REG` and `v & 0x3F == 0`; then
register reads only (the headset backup, when configured); and last the phase-control
command. The number of writes is the static table length plus the override count plus
one. -/
theorem C27_overrides_as_is (env : Env) (s : Driver) (d : sx93XX) (pDevice : sx933x)
    (pdata : sx933x_platform_data) (hthis : s.this = some d) (hbus : d.bus = true)
    (hdev : d.pDevice = some pDevice) (hhw : pDevice.hw = some pdata)
    (hdts : d.reg_in_dts = true) :
    new_calls s (sx933x_reg_init env s) =
      env.hdr.sx933x_i2c_reg_setup.map (fun e =>
          Effect.i2c_write (write_payload e.reg
            (if e.reg = env.hdr.SX933X_GNRLCTRL2_REG ∧ e.val &&& 0x3F = 0 then e.val ||| 0x3F
             else e.val))) ++
        (pdata.pi2c_reg.map (fun e => Effect.i2c_write (write_payload e.reg e.val)) ++
          ((if env.hdr.CONFIG_CAPSENSE_HEADSET_STATE = true then
              pdata.headset_operate_reg_bck.map plain_read else []) ++
            [Effect.i2c_write
              (write_payload env.hdr.SX933X_CMD_REG env.hdr.SX933X_PHASE_CONTROL)])) ∧
    (new_calls s (sx933x_reg_init env s)).countP Effect.is_write =
      env.hdr.sx933x_i2c_reg_setup.length + pdata.pi2c_reg.length + 1 ∧
    (new_calls s (sx933x_reg_init env s)).getLast? =
      some (Effect.i2c_write
        (write_payload env.hdr.SX933X_CMD_REG env.hdr.SX933X_PHASE_CONTROL)) := by
  obtain ⟨h, _⟩ := reg_init_calls env s d pDevice pdata hthis hbus hdev hhw
  rw [if_pos hdts] at h
  have hn := new_calls_eq s _ _ h
  have hp := programming_calls_eq env.hdr pdata
  unfold programming_calls at hp
  refine ⟨by rw [hn, hp], ?_, ?_⟩
  · rw [hn]
    simp only [List.countP_append, countP_map_write, countP_plain_write]
    split_ifs
    · rw [countP_plain_read]
      simp [phase_write, Effect.is_write]
      omega
    · simp [phase_write, Effect.is_write]
      omega
  · rw [hn, ← List.append_assoc, ← List.append_assoc]
    exact List.getLast?_concat _

/-- Instance of C27: the sample device with two overrides and the flag `reg_in_dts` set,
on a bus whose every transfer fails; the first override programs the control register
`0x8028` with the value `0x40`, written as it stands. -/
theorem C27_overrides_as_is_witness :
    (new_calls (driver_of override_dev)
        (sx933x_reg_init (flaky_env (fun _ => true)) (driver_of override_dev))).countP
      Effect.is_write =
      (flaky_env (fun _ => true)).hdr.sx933x_i2c_reg_setup.length +
        override_pdata.pi2c_reg.length + 1 ∧
    new_calls (driver_of override_dev)
        (sx933x_reg_init (flaky_env (fun _ => true)) (driver_of override_dev)) =
      [Effect.i2c_write [0x80, 0x24, 0, 0, 0, 0x10], Effect.i2c_write [0x80, 0x28, 0, 0, 0, 0x3F],
       Effect.i2c_write [0x80, 0x28, 0, 0, 0, 0x40], Effect.i2c_write [0x80, 0x24, 0, 0, 0, 0x11],
       Effect.i2c_write [0x42, 0x80, 0, 0, 0, 0x0F]] :=
  ⟨(C27_overrides_as_is (flaky_env (fun _ => true)) (driver_of override_dev) override_dev
      { buttons := true, hw := some override_pdata } override_pdata rfl rfl rfl rfl rfl).2.1,
    by decide⟩

theorem not_schedule_of_bus (l : List Effect) (h : ∀ e ∈ l, e.is_bus_or_sleep = true) :
    ∀ e ∈ l, e.is_schedule = false := by
  intro e he
  have := h e he
  cases e <;> simp_all [Effect.is_bus_or_sleep, Effect.is_schedule]

theorem filter_no_schedule (l : List Effect) (h : ∀ e ∈ l, e.is_schedule = false) :
    l.filter Effect.is_schedule = [] := by
  rw [List.filter_eq_nil_iff]
  intro e he
  simp [h e he]

theorem reinitialize_body_trace (env : Env) (pdata : sx933x_platform_data) (s : Driver) :
    ∃ evs, (reinitialize_body env pdata s).trace = s.trace ++ evs ∧
      ∀ e ∈ evs, e.is_schedule = false := by
  rw [reinitialize_body_eq]
  obtain ⟨_, A, tA, iA⟩ := bus_reinit_reset_and_program env pdata
    (call_regulator_enable env
      (s.emit [Effect.disable_irq, Effect.regulator_disable, Effect.msleep 100])).2
  generalize reinit_reset_and_program env pdata
    (call_regulator_enable env
      (s.emit [Effect.disable_irq, Effect.regulator_disable, Effect.msleep 100])).2 = y
    at tA ⊢
  obtain ⟨_, B, tB, iB⟩ := bus_reinit_flush_and_restore env (y.emit [Effect.enable_irq])
  generalize reinit_flush_and_restore env (y.emit [Effect.enable_irq]) = x at tB ⊢
  simp only [call_regulator_enable, Driver.emit] at tA tB
  have h1 : (incr_reset_count (set_init_busy 0 x)).trace = x.trace := by
    cases hx : x.this <;> simp [incr_reset_count, set_init_busy, hx]
  refine ⟨[Effect.disable_irq, Effect.regulator_disable, Effect.msleep 100,
    Effect.regulator_enable] ++ A ++ [Effect.enable_irq] ++ B, ?_, ?_⟩
  · rw [h1, tB, tA]
    simp
  · intro e he
    simp only [List.mem_append, List.mem_cons, List.mem_singleton, List.not_mem_nil,
      or_false] at he
    rcases he with ((h | h) | h) | h
    · rcases h with h | h | h | h <;> (rw [h]; rfl)
    · exact not_schedule_of_bus A iA e h
    · rw [h]; rfl
    · exact not_schedule_of_bus B iB e h

theorem reinitialize_trace (env : Env) (s : Driver) :
    ∃ evs, ( sx933x_reinitialize env s).trace = s.trace ++ evs ∧
      ∀ e ∈ evs, e.is_schedule = false := by
  unfold sx933x_reinitialize
  simp only []
  cases hthis : s.this with
  | none => exact ⟨[], by simp, by simp⟩
  | some d =>
    simp only []
    cases hdev : d.pDevice with
    | none => exact ⟨[], by simp, by simp⟩
    | some pDevice =>
      simp only []
      cases hhw : pDevice.hw with
      | none => exact ⟨[], by simp, by simp⟩
      | some pdata =>
        simp only []
        split_ifs
        · exact ⟨[], by simp, by simp⟩
        · exact ⟨[], by simp, by simp⟩
        · obtain ⟨evs, ht, hev⟩ := reinitialize_body_trace env pdata
            (set_init_busy (d.init_busy + 1)
              { s with this := some d, reinit_calls := s.reinit_calls + 1 })
          refine ⟨evs, ?_, hev⟩
          rw [ht]
          simp [set_init_busy]

theorem watchdog_trace (env : Env) (s : Driver) (d : sx93XX) (hthis : s.this = some d)
    (hs : d.suspended = false) :
    ∃ evs, (sx933x_i2c_watchdog_work env s).trace =
        s.trace ++ (evs ++ [Effect.schedule_watchdog
          (if probe_fails env s = true ∧ ¬ (3 : Int) ≤ s.err_cnt + 1 then 2000 else 10000)]) ∧
      ∀ e ∈ evs, e.is_schedule = false := by
  obtain ⟨_, e1, t1, i1⟩ := bus_read env env.hdr.SX933X_INFO_REG 0 s
  obtain ⟨_, hcnt, _, _, _⟩ := frame_read env env.hdr.SX933X_INFO_REG 0 s
  unfold sx933x_i2c_watchdog_work probe_fails
  simp only [hthis, hs, if_true, decide_eq_true_eq]
  by_cases hf : (sx933x_i2c_read_16bit env env.hdr.SX933X_INFO_REG 0 s).1 < 0
  · simp only [hf, if_true, hcnt, true_and]
    by_cases h3 : (3 : Int) ≤ s.err_cnt + 1
    · simp only [h3, if_true, not_true_eq_false, if_false, Driver.emit]
      obtain ⟨e2, t2, i2⟩ := reinitialize_trace env
        { (sx933x_i2c_read_16bit env env.hdr.SX933X_INFO_REG 0 s).2.2 with err_cnt := 0 }
      refine ⟨e1 ++ e2, ?_, ?_⟩
      · rw [t2]
        simp only [t1, SX933X_I2C_WATCHDOG_TIME, List.append_assoc]
      · intro e he
        rcases List.mem_append.1 he with h | h
        · exact not_schedule_of_bus e1 i1 e h
        · exact i2 e h
    · simp only [h3, if_false, not_false_eq_true, if_true, Driver.emit]
      refine ⟨e1, ?_, not_schedule_of_bus e1 i1⟩
      simp only [t1, SX933X_I2C_WATCHDOG_TIME_ERR, List.append_assoc]
  · have h30 : ¬ (3 : Int) ≤ 0 := by norm_num
    simp only [hf, if_false, false_and, Driver.emit, h30]
    refine ⟨e1, ?_, not_schedule_of_bus e1 i1⟩
    simp only [t1, SX933X_I2C_WATCHDOG_TIME, List.append_assoc]

/-- C28: if the failure counter `err_cnt` is 0, 1 or 2 before an invocation of
`sx933x_i2c_watchdog_work` on a non-null device, it is 0, 1 or 2 after it, for every
probe outcome and every value of the `suspended` flag. `sx933x_reinitialize` is entered
exactly when the device is not suspended, the probe fails and the counter stood at 2,
and then the counter is 0 afterwards, whether or not that call was dropped. The work
reschedules itself exactly once, as its last kernel call, with the delay 2000 ms after a
failed probe that does not trigger reinitialization and 10000 ms otherwise. -/
theorem C28_watchdog_invariant (env : Env) (s : Driver) (d : sx93XX)
    (hthis : s.this = some d)
    (hinv : s.err_cnt = 0 ∨ s.err_cnt = 1 ∨ s.err_cnt = 2) :
    ((sx933x_i2c_watchdog_work env s).err_cnt = 0 ∨
      (sx933x_i2c_watchdog_work env s).err_cnt = 1 ∨
      (sx933x_i2c_watchdog_work env s).err_cnt = 2) ∧
    ((sx933x_i2c_watchdog_work env s).reinit_calls = s.reinit_calls + 1 ↔
      (d.suspended = false ∧ probe_fails env s = true ∧ s.err_cnt = 2)) ∧
    ((sx933x_i2c_watchdog_work env s).reinit_calls = s.reinit_calls + 1 →
      (sx933x_i2c_watchdog_work env s).err_cnt = 0) ∧
    (new_calls s (sx933x_i2c_watchdog_work env s)).filter Effect.is_schedule =
      [Effect.schedule_watchdog
        (if d.suspended = false ∧ probe_fails env s = true ∧ s.err_cnt ≠ 2 then 2000
         else 10000)] ∧
    (new_calls s (sx933x_i2c_watchdog_work env s)).getLast? =
      some (Effect.schedule_watchdog
        (if d.suspended = false ∧ probe_fails env s = true ∧ s.err_cnt ≠ 2 then 2000
         else 10000)) := by
  by_cases hs : d.suspended = true
  · have h : sx933x_i2c_watchdog_work env s = s.emit [Effect.schedule_watchdog 10000] := by
      unfold sx933x_i2c_watchdog_work
      simp [hthis, hs, SX933X_I2C_WATCHDOG_TIME]
    rw [h]
    simp [Driver.emit, new_calls, hs, Effect.is_schedule, hinv]
  · have hs0 : d.suspended = false := by simpa using hs
    obtain ⟨_, hcnt, hre, _⟩ := watchdog_step env s d hthis hs0
    obtain ⟨evs, ht, hev⟩ := watchdog_trace env s d hthis hs0
    have h3 : (3 : Int) ≤ s.err_cnt + 1 ↔ s.err_cnt = 2 := by
      constructor
      · intro h; omega
      · intro h; omega
    have hdelay : (if probe_fails env s = true ∧ ¬ (3 : Int) ≤ s.err_cnt + 1 then 2000
        else 10000) =
        (if d.suspended = false ∧ probe_fails env s = true ∧ s.err_cnt ≠ 2 then 2000
          else 10000 : Nat) := by
      simp only [h3, hs0, true_and, ne_eq]
    rw [hdelay] at ht
    rw [new_calls_eq s _ _ ht, hcnt, hre]
    refine ⟨?_, ?_, ?_, ?_, ?_⟩
    · split_ifs <;> omega
    · simp only [h3, hs0, true_and]
      split_ifs <;> simp_all
    · simp only [h3]
      split_ifs <;> simp_all
    · rw [List.filter_append, filter_no_schedule evs hev]
      simp [Effect.is_schedule]
    · exact List.getLast?_concat _

/-- Instance of C28: the sample device with the counter at 2 and a failing bus: the
probe fails, reinitialization is entered, the counter is 0 afterwards and the work is
rescheduled once. -/
theorem C28_watchdog_invariant_witness :
    (sx933x_i2c_watchdog_work (flaky_env (fun _ => true))
        { driver_of sample_dev with err_cnt := 2 }).err_cnt = 0 ∧
    (new_calls { driver_of sample_dev with err_cnt := 2 }
        (sx933x_i2c_watchdog_work (flaky_env (fun _ => true))
          { driver_of sample_dev with err_cnt := 2 })).filter Effect.is_schedule =
      [Effect.schedule_watchdog 10000] :=
  ⟨(C28_watchdog_invariant (flaky_env (fun _ => true))
      { driver_of sample_dev with err_cnt := 2 } sample_dev rfl (Or.inr (Or.inr rfl))).2.2.1
      (by decide),
    ((C28_watchdog_invariant (flaky_env (fun _ => true))
      { driver_of sample_dev with err_cnt := 2 } sample_dev rfl
      (Or.inr (Or.inr rfl))).2.2.2.1).trans (by decide)⟩

theorem leading_failures_le (env : Env) :
    ∀ (n b : Nat), leading_failures env b n ≤ n := by
  intro n
  induction n with
  | zero => intro b; simp [leading_failures]
  | succ n ih =>
    intro b
    simp only [leading_failures]
    split_ifs
    · have := ih (b + 1); omega
    · omega

theorem leading_failures_first_ok (env : Env) :
    ∀ (k n b : Nat), k < n → (∀ j, j < k → (env.i2c_transfer (b + j)).ret < 0) →
      0 ≤ (env.i2c_transfer (b + k)).ret → leading_failures env b n = k := by
  intro k
  induction k with
  | zero =>
    intro n b hn _ hok
    obtain ⟨m, rfl⟩ : ∃ m, n = m + 1 := ⟨n - 1, by omega⟩
    simp only [leading_failures]
    rw [if_neg (by simpa using hok)]
  | succ k ih =>
    intro n b hn hfail hok
    obtain ⟨m, rfl⟩ : ∃ m, n = m + 1 := ⟨n - 1, by omega⟩
    simp only [leading_failures]
    rw [if_pos (by simpa using hfail 0 (by omega))]
    rw [ih m (b + 1) (by omega)
      (by
        intro j hj
        have := hfail (j + 1) (by omega)
        simpa [Nat.add_assoc, Nat.add_comm 1 j] using this)
      (by simpa [Nat.add_assoc, Nat.add_comm 1 k] using hok)]

theorem leading_failures_all (env : Env) :
    ∀ (n b : Nat), (∀ j, j < n → (env.i2c_transfer (b + j)).ret < 0) →
      leading_failures env b n = n := by
  intro n
  induction n with
  | zero => intro b _; simp [leading_failures]
  | succ n ih =>
    intro b hfail
    simp only [leading_failures]
    rw [if_pos (by simpa using hfail 0 (by omega))]
    rw [ih (b + 1)
      (by
        intro j hj
        have := hfail (j + 1) (by omega)
        simpa [Nat.add_assoc, Nat.add_comm 1 j] using this)]

theorem reset_retry_eq (env : Env) (d : sx93XX) (hbus : d.bus = true) :
    ∀ (n : Nat) (s : Driver), s.this = some d →
      (reset_retry env n s).trace =
        s.trace ++ (failed_rounds (reset_write env.hdr) (leading_failures env s.busCalls n) ++
          (if leading_failures env s.busCalls n < n then [reset_write env.hdr] else [])) ∧
      (reset_retry env n s).this = some d ∧
      (reset_retry env n s).fault = s.fault := by
  intro n
  induction n with
  | zero => intro s hthis; simp [reset_retry, leading_failures, failed_rounds, hthis]
  | succ n ih =>
    intro s hthis
    simp only [reset_retry, write_bus env _ _ s d hthis hbus, leading_failures]
    by_cases hf : (env.i2c_transfer s.busCalls).ret < 0
    · have hge : ¬ (env.i2c_transfer s.busCalls).ret ≥ 0 := by omega
      simp only [hf, hge, if_true, if_false]
      obtain ⟨h1, h2, h3⟩ := ih
        (Driver.emit { s with trace := s.trace ++ [Effect.i2c_write (write_payload
          env.hdr.SX933X_RESET_REG env.hdr.I2C_SOFTRESET_VALUE)], busCalls := s.busCalls + 1 }
          [Effect.msleep 10]) hthis
      refine ⟨?_, h2, h3⟩
      rw [h1]
      simp [Driver.emit, failed_rounds, reset_write]
    · have hge : (env.i2c_transfer s.busCalls).ret ≥ 0 := by omega
      simp only [hf, hge, if_true, if_false]
      simp [failed_rounds, reset_write, hthis]

theorem initialize_run (env : Env) (s : Driver) (d : sx93XX) (pDevice : sx933x)
    (pdata : sx933x_platform_data) (hthis : s.this = some d) (hbus : d.bus = true)
    (hdev : d.pDevice = some pDevice) (hhw : pDevice.hw = some pdata)
    (hlive : s.fault = false) :
    ∃ t d1, initialize_ env s = some (0, t) ∧
      new_calls s t =
        Effect.disable_irq ::
          (failed_rounds (reset_write env.hdr) (leading_failures env s.busCalls 10) ++
            (if leading_failures env s.busCalls 10 < 10 then [reset_write env.hdr] else [])) ++
          Effect.msleep 100 :: programming_calls env.hdr pdata ++
          [Effect.enable_irq, status_read env.hdr] ∧
      t.this = some d1 ∧ d1.failStatusCode = 0 ∧ d1.irq_disabled = 0 := by
  have hpre := initialize_prologue_eq s d hthis
  have hpthis : (initialize_prologue s).this = some { d with irq_disabled := 1 } := by
    rw [hpre]
  have hpcalls : (initialize_prologue s).busCalls = s.busCalls := by rw [hpre]
  have hpfault : (initialize_prologue s).fault = s.fault := by rw [hpre]
  have hptrace : (initialize_prologue s).trace = s.trace ++ [Effect.disable_irq] := by
    rw [hpre]
  obtain ⟨hRt, hRd, hRf⟩ := reset_retry_eq env { d with irq_disabled := 1 } hbus 10
    (initialize_prologue s) hpthis
  rw [hpcalls, hptrace] at hRt
  rw [hpfault, hlive] at hRf
  have hX : initialize_reset_state env s =
      (sx933x_global_variable_init
        ((reset_retry env 10 (initialize_prologue s)).emit [Effect.msleep 100])).2 := rfl
  have hXthis : (initialize_reset_state env s).this =
      some { d with irq_disabled := 0, failStatusCode := 0, reg_in_dts := true } := by
    simp [initialize_reset_state, sx933x_global_variable_init, Driver.emit, hRd]
  have hXtrace : (initialize_reset_state env s).trace =
      (reset_retry env 10 (initialize_prologue s)).trace ++ [Effect.msleep 100] := by
    simp [initialize_reset_state, sx933x_global_variable_init, Driver.emit, hRd]
  have hXfault : (initialize_reset_state env s).fault = false := by
    simp [initialize_reset_state, sx933x_global_variable_init, Driver.emit, hRd, hRf]
  obtain ⟨hPt, hPf⟩ := reg_init_calls env (initialize_reset_state env s)
    { d with irq_disabled := 0, failStatusCode := 0, reg_in_dts := true } pDevice pdata hXthis
    hbus hdev hhw
  rw [hXfault] at hPf
  rw [if_pos rfl, ← programming_calls_eq, hXtrace, hRt] at hPt
  obtain ⟨hcore, _⟩ := bus_reg_init env (initialize_reset_state env s)
  have hepi : initialize_epilogue env (reset_retry env 10 (initialize_prologue s)) =
      (read_regStat env ((sx933x_reg_init env (initialize_reset_state env s)).emit
        [Effect.enable_irq])).2 := by
    unfold initialize_epilogue
    simp only [← hX, hPf, Bool.false_eq_true, if_false]
  cases h5 : (sx933x_reg_init env (initialize_reset_state env s)).this with
  | none =>
    rw [h5, hXthis] at hcore
    simp at hcore
  | some d5 =>
    rw [h5, hXthis] at hcore
    simp only [Option.map_some'] at hcore
    have hc := Option.some.inj hcore
    have hb5 : d5.bus = true := by
      have := congrArg sx93XX.bus hc
      simpa [sx93XX.core, hbus] using this
    have hf5 : d5.failStatusCode = 0 := by
      have := congrArg sx93XX.failStatusCode hc
      simpa [sx93XX.core] using this
    have hi5 : d5.irq_disabled = 0 := by
      have := congrArg sx93XX.irq_disabled hc
      simpa [sx93XX.core] using this
    have h6 : ((sx933x_reg_init env (initialize_reset_state env s)).emit
        [Effect.enable_irq]).this = some d5 := by
      simp [Driver.emit, h5]
    rw [read_regStat_bus env _ d5 h6 hb5] at hepi
    refine ⟨initialize_epilogue env (reset_retry env 10 (initialize_prologue s)), d5,
      ?_, ?_, ?_, hf5, hi5⟩
    · simp only [initialize_, hthis, hepi]
      simp [Driver.emit, hPf]
    · apply new_calls_eq
      rw [hepi]
      simp [Driver.emit, hPt, status_read]
    · rw [hepi]
      simp [Driver.emit, h5]

theorem mem_failed_rounds (w : Effect) :
    ∀ (k : Nat) (e : Effect), e ∈ failed_rounds w k → e = w ∨ e = Effect.msleep 10 := by
  intro k
  induction k with
  | zero => intro e he; simp [failed_rounds] at he
  | succ k ih =>
    intro e he
    simp only [failed_rounds, List.mem_cons] at he
    rcases he with h | h | h
    · exact Or.inl h
    · exact Or.inr h
    · exact ih e h

/-- C12: on a live thread and a device with a bus, its device specific struct and
platform data, and for every sequence of bus outcomes, `initialize` returns 0 and its
kernel calls are `disable_irq`, the calls `R` of the reset loop (soft-reset writes and
10 ms sleeps only), the 100 ms settle delay, the complete register programming (static
table, overrides, phase-control command), `enable_irq` and the status read, whatever
the reset writes returned. The number of soft-reset writes in `R` is `a` when the first
successful one is attempt `a` with `1 ≤ a ≤ 10` (each failed attempt is followed by a
10 ms sleep), exactly 10 when all ten attempts fail, and never more than 10. -/
theorem C12_reset_attempts (env : Env) (s : Driver) (d : sx93XX) (pDevice : sx933x)
    (pdata : sx933x_platform_data) (hthis : s.this = some d) (hbus : d.bus = true)
    (hdev : d.pDevice = some pDevice) (hhw : pDevice.hw = some pdata)
    (hlive : s.fault = false) :
    ∃ t R, initialize_ env s = some (0, t) ∧
      new_calls s t =
        Effect.disable_irq :: R ++ Effect.msleep 100 :: programming_calls env.hdr pdata ++
          [Effect.enable_irq, status_read env.hdr] ∧
      (∀ e ∈ R, e = reset_write env.hdr ∨ e = Effect.msleep 10) ∧
      (∀ a, 1 ≤ a → a ≤ 10 →
        (∀ j, j + 1 < a → (env.i2c_transfer (s.busCalls + j)).ret < 0) →
        0 ≤ (env.i2c_transfer (s.busCalls + (a - 1))).ret →
        R = failed_rounds (reset_write env.hdr) (a - 1) ++ [reset_write env.hdr] ∧
        R.count (reset_write env.hdr) = a) ∧
      ((∀ j, j < 10 → (env.i2c_transfer (s.busCalls + j)).ret < 0) →
        R = failed_rounds (reset_write env.hdr) 10 ∧ R.count (reset_write env.hdr) = 10) ∧
      R.count (reset_write env.hdr) ≤ 10 := by
  obtain ⟨t, d1, hret, hcalls, _⟩ := initialize_run env s d pDevice pdata hthis hbus hdev hhw
    hlive
  have hle := leading_failures_le env 10 s.busCalls
  have hcount : (failed_rounds (reset_write env.hdr) (leading_failures env s.busCalls 10) ++
      (if leading_failures env s.busCalls 10 < 10 then [reset_write env.hdr] else [])).count
        (reset_write env.hdr) =
      leading_failures env s.busCalls 10 +
        (if leading_failures env s.busCalls 10 < 10 then 1 else 0) := by
    rw [List.count_append, count_failed_rounds]
    split_ifs <;> simp
  refine ⟨t, _, hret, hcalls, ?_, ?_, ?_, ?_⟩
  · intro e he
    rcases List.mem_append.1 he with h | h
    · exact mem_failed_rounds _ _ e h
    · split_ifs at h
      · exact Or.inl (List.mem_singleton.1 h)
      · simp at h
  · intro a h1 h10 hfail hok
    have hk := leading_failures_first_ok env (a - 1) 10 s.busCalls (by omega)
      (fun j hj => hfail j (by omega)) hok
    have hlt : a - 1 < 10 := by omega
    refine ⟨by rw [hk, if_pos hlt], ?_⟩
    rw [hcount, hk, if_pos hlt]
    omega
  · intro hfail
    have hk := leading_failures_all env 10 s.busCalls hfail
    refine ⟨by rw [hk]; simp, ?_⟩
    rw [hcount, hk]
    simp
  · rw [hcount]
    split_ifs <;> omega

/-- Instance of C12: the sample device with two overrides, on a bus whose transfers 0 to
8 fail: the reset write fails on attempts 1 to 9 and succeeds on attempt 10. -/
theorem C12_reset_attempts_witness :
    ∃ t R, initialize_ (flaky_env (fun k => decide (k < 9))) (driver_of override_dev) =
        some (0, t) ∧
      new_calls (driver_of override_dev) t =
        Effect.disable_irq :: R ++ Effect.msleep 100 ::
          programming_calls (flaky_env (fun k => decide (k < 9))).hdr override_pdata ++
          [Effect.enable_irq, status_read (flaky_env (fun k => decide (k < 9))).hdr] ∧
      R = failed_rounds (reset_write (flaky_env (fun k => decide (k < 9))).hdr) 9 ++
        [reset_write (flaky_env (fun k => decide (k < 9))).hdr] ∧
      R.count (reset_write (flaky_env (fun k => decide (k < 9))).hdr) = 10 := by
  obtain ⟨t, R, h1, h2, _, h4, _⟩ := C12_reset_attempts (flaky_env (fun k => decide (k < 9)))
    (driver_of override_dev) override_dev { buttons := true, hw := some override_pdata }
    override_pdata rfl rfl rfl rfl rfl
  have h := h4 10 (by decide) (by decide)
    (by
      intro j hj
      have h9 : j < 9 := by omega
      simp [flaky_env, driver_of, sample_driver, h9])
    (by decide)
  exact ⟨t, R, h1, h2, h.1, h.2⟩

theorem write_fault (env : Env) (reg v : Nat) (s : Driver) :
    (sx933x_i2c_write_16bit env reg v s).2.fault = s.fault := by
  obtain ⟨evs, n, h, _⟩ := write_16bit_frame env reg v s
  rw [h]

theorem read_fault (env : Env) (reg v : Nat) (s : Driver) :
    (sx933x_i2c_read_16bit env reg v s).2.2.fault = s.fault := by
  obtain ⟨evs, n, h, _⟩ := read_16bit_frame env reg v s
  rw [h]

theorem read_regStat_fault (env : Env) (s : Driver) :
    (read_regStat env s).2.fault = s.fault := by
  obtain ⟨evs, n, h, _⟩ := read_regStat_eq env s
  rw [h]

theorem reg_init_static_fault (env : Env) :
    ∀ (l : List smtc_reg_data) (s : Driver),
      (reg_init_static env l s).fault = s.fault ∧ (reg_init_static env l s).this = s.this := by
  intro l
  induction l with
  | nil => intro s; exact ⟨rfl, rfl⟩
  | cons e rest ih =>
    intro s
    simp only [reg_init_static]
    exact ⟨by rw [(ih _).1, write_fault], by rw [(ih _).2, write_this]⟩

theorem write_regs_fault (env : Env) :
    ∀ (l : List smtc_reg_data) (s : Driver),
      (write_regs env l s).fault = s.fault ∧ (write_regs env l s).this = s.this := by
  intro l
  induction l with
  | nil => intro s; exact ⟨rfl, rfl⟩
  | cons e rest ih =>
    intro s
    simp only [write_regs]
    exact ⟨by rw [(ih _).1, write_fault], by rw [(ih _).2, write_this]⟩

theorem headset_backup_fault (env : Env) :
    ∀ (l : List smtc_reg_data) (s : Driver), (headset_backup env l s).2.fault = s.fault := by
  intro l
  induction l with
  | nil => intro s; rfl
  | cons e rest ih =>
    intro s
    simp only [headset_backup]
    rw [ih, read_fault]

theorem store_headset_bck_fault (bck : List smtc_reg_data) (s : Driver) :
    (store_headset_bck bck s).fault = s.fault := by
  unfold store_headset_bck
  cases s.this with
  | none => rfl
  | some d =>
    simp only []
    cases d.pDevice with
    | none => rfl
    | some pDevice =>
      simp only []
      cases pDevice.hw <;> rfl

theorem reg_init_fault (env : Env) (s : Driver) (d : sx93XX) (pDevice : sx933x)
    (hthis : s.this = some d) (hdev : d.pDevice = some pDevice) :
    (sx933x_reg_init env s).fault = s.fault := by
  unfold sx933x_reg_init
  simp only [hthis, hdev]
  cases hhw : pDevice.hw with
  | none => rfl
  | some pdata =>
    simp only []
    rw [write_fault]
    have h2 : (if d.reg_in_dts = true then
        write_regs env pdata.pi2c_reg (reg_init_static env env.hdr.sx933x_i2c_reg_setup s)
        else reg_init_static env env.hdr.sx933x_i2c_reg_setup s).fault = s.fault := by
      split_ifs
      · rw [(write_regs_fault env _ _).1, (reg_init_static_fault env _ _).1]
      · exact (reg_init_static_fault env _ _).1
    generalize (if d.reg_in_dts = true then
        write_regs env pdata.pi2c_reg (reg_init_static env env.hdr.sx933x_i2c_reg_setup s)
        else reg_init_static env env.hdr.sx933x_i2c_reg_setup s) = t at h2 ⊢
    split_ifs
    · rw [store_headset_bck_fault, headset_backup_fault, h2]
    · exact h2

theorem reenable_if_on_fault (env : Env) (temp : Nat) (s : Driver) :
    (reenable_if_on env temp s).fault = s.fault := by
  unfold reenable_if_on
  split_ifs
  · exact write_fault env _ _ s
  · rfl

theorem write_flip_regs_fault (env : Env) (regs : List smtc_reg_data) (s : Driver) :
    (write_flip_regs env regs s).fault = s.fault := by
  unfold write_flip_regs
  simp only []
  rw [reenable_if_on_fault, (write_regs_fault env _ _).1, write_fault, read_fault]

theorem update_flip_regs_fault (env : Env) (data : sx933x_platform_data) (state : Nat)
    (s : Driver) : (update_flip_regs env data state s).fault = s.fault := by
  unfold update_flip_regs
  split_ifs
  · exact write_flip_regs_fault env _ s
  · exact write_flip_regs_fault env _ s
  · rfl

theorem reset_retry_fault (env : Env) :
    ∀ (retry : Nat) (s : Driver),
      (reset_retry env retry s).fault = s.fault ∧ (reset_retry env retry s).this = s.this := by
  intro retry
  induction retry with
  | zero => intro s; exact ⟨rfl, rfl⟩
  | succ n ih =>
    intro s
    simp only [reset_retry]
    split_ifs
    · exact ⟨write_fault env _ _ s, write_this env _ _ s⟩
    · exact ⟨by rw [(ih _).1]; exact write_fault env _ _ s,
        by rw [(ih _).2]; exact write_this env _ _ s⟩

theorem reinitialize_fault (env : Env) (s : Driver) :
    ( sx933x_reinitialize env s).fault = s.fault := by
  unfold sx933x_reinitialize
  simp only []
  cases hthis : s.this with
  | none => rfl
  | some d =>
    simp only []
    cases hdev : d.pDevice with
    | none => rfl
    | some pDevice =>
      simp only []
      cases hhw : pDevice.hw with
      | none => rfl
      | some pdata =>
        simp only []
        split_ifs
        · rfl
        · rfl
        · have h1 : ∀ x : Driver, (incr_reset_count (set_init_busy 0 x)).fault = x.fault := by
            intro x
            cases hx : x.this <;> simp [incr_reset_count, set_init_busy, hx]
          have h2 : ∀ x : Driver, (reinit_flush_and_restore env x).fault = x.fault := by
            intro x
            unfold reinit_flush_and_restore manual_offset_calibration
            simp only []
            rw [write_fault, reenable_if_on_fault, read_fault, read_regStat_fault]
          have h3 : ∀ x : Driver, x.this = some { d with init_busy := d.init_busy + 1 } →
              (reinit_reset_and_program env pdata x).fault = x.fault := by
            intro x hx
            unfold reinit_reset_and_program
            simp only []
            have hr : (sx933x_reg_init env ((reset_retry env 10
                (x.emit [Effect.msleep 100])).emit [Effect.msleep 100])).fault = x.fault := by
              rw [reg_init_fault env _ { d with init_busy := d.init_busy + 1 } pDevice
                (by
                  show (reset_retry env 10 (x.emit [Effect.msleep 100])).this = _
                  rw [(reset_retry_fault env 10 _).2]
                  exact hx)
                hdev]
              show (reset_retry env 10 (x.emit [Effect.msleep 100])).fault = _
              rw [(reset_retry_fault env 10 _).1]
              rfl
            split_ifs
            · rw [update_flip_regs_fault, hr]
            · exact hr
          rw [reinitialize_body_eq, h1, h2]
          show (reinit_reset_and_program env pdata _).fault = _
          rw [h3]
          · simp [call_regulator_enable, Driver.emit, set_init_busy]
          · simp [call_regulator_enable, Driver.emit, set_init_busy]

end Sx933x
